import Mathlib

/-!
# Playback control of `djv::ViewApp::Media`

A shallow embedding of the playback controller in `lib/djvViewApp/Media.cpp`:
the private state of a `Media` object is a record, every member function is a
function on that record.  Three smaller embeddings follow it: the path history of
`lib/djvCore/DirectoryModel.cpp`, the recent files of
`lib/djvViewApp/FileSettings.cpp` and the border of the menu button in
`lib/djvUI/MenuButton.cpp`.

Conventions.

* `Math::Frame::Index` is `int64_t`; frame numbers are `Int`.  Unsigned
  (`size_t`) arithmetic wraps and is written with an explicit `% 2^64`; the
  conversion of an unsigned result back to `int64_t` is `toInt64`.
* A `ValueSubject<T>` is the value it holds; `setIfChanged v` is the update
  guarded by `v ≠ held value`.
* Code of the repository that is not part of the sources at hand
  (`InOutPoints::getRange`, `AV::Time::scale`, `Audio::volume`, the float
  computations on durations) is a field of `Deps`.
* The two `while` loops of `setCurrentFrame` carry a fuel argument and return
  `none` when it runs out, so termination is a theorem and not an assumption.
* The video and audio queues of the reader are lists, front first.  The decode
  thread that fills them is not part of the model; where it matters its pushes
  are an explicit input.
* Not modelled: the wall-clock time stamps (`playbackTime`, `realSpeedTime`), the
  float `realSpeed` computed from them, the bodies of the timers, and signed
  overflow of frame arithmetic (undefined behaviour in the source).
-/

namespace DJV

/-! ## Machine integers -/

/-- Conversion of a mathematical integer to `size_t` (64 bit, wrapping). -/
def toSizeT (x : Int) : Nat := (x % 18446744073709551616).toNat

/-- Conversion of a mathematical integer to `int64_t` (two's complement). -/
def toInt64 (x : Int) : Int :=
  (x + 9223372036854775808) % 18446744073709551616 - 9223372036854775808

/-- Conversion of a mathematical integer to `int` (32 bit, two's complement). -/
def toInt32 (x : Int) : Int :=
  (x + 2147483648) % 4294967296 - 2147483648

/-- The values an `int64_t` can hold. -/
def isInt64 (x : Int) : Prop := -9223372036854775808 ≤ x ∧ x < 9223372036854775808

instance (x : Int) : Decidable (isInt64 x) := by
  unfold isInt64; exact inferInstance

/-! ## Data model -/

/-- The enumerators of `Playback` (the `Count` sentinel is not a value). -/
inductive Playback where
  | Stop
  | Forward
  | Reverse
  deriving DecidableEq, Repr

/-- The enumerators of `PlaybackMode`. -/
inductive PlaybackMode where
  | Once
  | Loop
  | PingPong
  deriving DecidableEq, Repr

/-- The enumerators of `PlaybackSpeed`. -/
inductive PlaybackSpeed where
  | Default
  | Custom
  deriving DecidableEq, Repr

/-- The enumerators of `AV::IO::Direction`. -/
inductive Direction where
  | Forward
  | Reverse
  deriving DecidableEq, Repr

/-- A `Math::IntRational`: numerator and denominator. -/
structure IntRational where
  num : Int := 0
  den : Int := 0
  deriving DecidableEq, Repr

/-- Modelled from the spec: `IntRational::swap` exchanges numerator and denominator. -/
def IntRational.swap (r : IntRational) : IntRational := ⟨r.den, r.num⟩

/-- Modelled from the spec: a `Math::Range<Frame::Index>` seen through `getMin` and `getMax`. -/
structure Range where
  min : Int := 0
  max : Int := 0
  deriving DecidableEq, Repr

/-- An `AV::IO::InOutPoints` value seen through `isEnabled`, `getIn`, `getOut`. -/
structure InOutPoints where
  enabled : Bool := false
  inPoint : Int := 0
  outPoint : Int := 0
  deriving DecidableEq, Repr

/-- A `Math::Frame::Sequence` seen through `getFrameCount` and `getLastIndex`. -/
structure Sequence where
  frameCount : Nat := 0
  lastIndex : Int := 0
  deriving DecidableEq, Repr

/-- An `AV::IO::VideoFrame`: the frame number and (an identifier of) the image. -/
structure VideoFrame where
  frame : Int
  data : Nat
  deriving DecidableEq, Repr

/-- An `AV::IO::AudioFrame`: its `Audio::Data`, as the list of its samples
(`getSampleCount` is the length). -/
structure AudioFrame where
  data : List Int
  deriving DecidableEq, Repr

/-- An `AV::IO::Info` seen through the members `Media::_open` reads: the video layers
(identifiers of their `Image::Info`), `videoSpeed`, `videoSequence`, and of `audio` its
`isValid()` and `sampleRate`. -/
structure Info where
  video : List Nat := []
  videoSpeed : IntRational := {}
  videoSequence : Sequence := {}
  audioValid : Bool := false
  audioSampleRate : Nat := 0
  deriving DecidableEq, Repr

/-- Functions used by `Media.cpp` whose code is outside the sources at hand. -/
structure Deps where
  /-- `AV::IO::InOutPoints::getRange(frameCount)`. -/
  getRange : InOutPoints → Nat → Range
  /-- `AV::Time::scale(value, from, to)`. -/
  timeScale : Nat → IntRational → IntRational → Int
  /-- The float product `duration<float>(currentTime).count() * speed.toFloat()`
  truncated to a frame index. -/
  elapsedFrames : Int → IntRational → Int
  /-- The float comparison `playEveryFrameTime >= 1.F / speed.toFloat()`. -/
  playEveryFrameAdvance : Int → IntRational → Bool
  /-- The duration `playEveryFrameTime - duration_cast(1.F / speed.toFloat())`. -/
  playEveryFrameSub : Int → IntRational → Int
  /-- `Audio::volume` on one sample, at a given volume. -/
  audioVolume : Int → Int → Int
  /-- Whether `RtAudio::startStream` succeeds on an open stream. -/
  startStreamOk : Bool

/-- The part of `Media::Private` that playback control reads and writes. -/
structure Media where
  /-- `p.context.lock()` succeeds. -/
  context : Bool := true
  valid : Bool := false
  speed : IntRational := {}
  playbackSpeed : PlaybackSpeed := .Default
  defaultSpeed : IntRational := {}
  customSpeed : IntRational := {}
  playEveryFrame : Bool := false
  sequence : Sequence := {}
  currentFrame : Int := 0
  /-- The image held by `currentImage` (`none` is the null pointer). -/
  currentImage : Option Nat := none
  playback : Playback := .Stop
  playbackMode : PlaybackMode := .Once
  inOutPoints : InOutPoints := {}
  audioEnabled : Bool := false
  /-- An opaque code for the float `volume`. -/
  volume : Int := 1
  mute : Bool := false
  /-- `p.audioInfo.isValid()`. -/
  audioInfoValid : Bool := false
  /-- `p.audioInfo.sampleRate`. -/
  sampleRate : Nat := 0
  /-- `p.read` is not null. -/
  read : Bool := false
  /-- The last argument of `p.read->setPlayback`. -/
  readPlayback : Bool := false
  /-- The last arguments of `p.read->seek`. -/
  readSeek : Option (Int × Direction) := none
  /-- Modelled from the spec: `p.read->getVideoQueue()`, a first-in first-out queue, front
  first: `getFrame` is the head, `popFrame` removes it. -/
  videoQueue : List VideoFrame := []
  /-- Modelled from the spec: `p.read->getAudioQueue()`, a first-in first-out queue, front
  first: `getFrame` is the head, `popFrame` removes it, `getCount` is the length. -/
  audioQueue : List AudioFrame := []
  /-- `getMax()` of the audio queue. -/
  audioQueueMax : Nat := 0
  ioDirection : Direction := .Forward
  /-- `p.rtAudio` is not null. -/
  rtAudio : Bool := false
  /-- A method was invoked through a null `p.rtAudio`. -/
  rtAudioNullCall : Bool := false
  /-- `p.rtAudio->isStreamOpen()`. -/
  rtStreamOpen : Bool := false
  /-- `p.rtAudio->isStreamRunning()`. -/
  rtStreamRunning : Bool := false
  audioData : Option (List Int) := none
  audioDataSamplesOffset : Nat := 0
  audioDataSamplesCount : Nat := 0
  frameOffset : Int := 0
  currentTime : Int := 0
  realSpeedFrameCount : Nat := 0
  playEveryFrameTime : Int := 0
  /-- The playback timer is running. -/
  playbackTimer : Bool := false
  /-- The value held by `p.info`. -/
  info : Info := {}
  /-- The value held by `p.layers`: the video layers and the current layer. -/
  layers : List Nat × Int := ([], 0)
  /-- The value held by `p.reload`. -/
  reload : Bool := false
  /-- The last argument of `p.read->setInOutPoints`. -/
  readInOutPoints : Option InOutPoints := none
  /-- The list held by `p.annotations` (identifiers of the primitives). -/
  annotations : List Nat := []
  deriving DecidableEq, Repr

/-! ## Audio predicates and stream control -/

/-- `Media::_hasAudio`. -/
def _hasAudio (s : Media) : Bool :=
  s.audioInfoValid && s.rtAudio

/-- `Media::_isAudioEnabled`. -/
def _isAudioEnabled (s : Media) : Bool :=
  _hasAudio s && decide (s.speed = s.defaultSpeed) && !s.playEveryFrame

/-- `Media::_hasAudioSyncPlayback`. -/
def _hasAudioSyncPlayback (s : Media) : Bool :=
  _isAudioEnabled s && decide (Playback.Forward = s.playback)

/-- `Media::_startAudioStream`: `p.rtAudio->startStream()` under a live context;
an exception of `startStream` is caught and leaves the stream as it was. -/
def _startAudioStream (deps : Deps) (s : Media) : Media :=
  if s.context then
    if s.rtAudio then
      { s with rtStreamRunning := s.rtStreamRunning || (s.rtStreamOpen && deps.startStreamOk) }
    else
      { s with rtAudioNullCall := true }
  else s

/-- `Media::_stopAudioStream`. -/
def _stopAudioStream (s : Media) : Media :=
  if s.context then
    if _hasAudio s && s.rtStreamRunning then
      { s with rtStreamRunning := false }
    else s
  else s

/-- `Media::_seek`. -/
def _seek (s : Media) (value : Int) : Media :=
  if s.context then
    let s1 := if s.read then { s with readSeek := some (value, s.ioDirection) } else s
    _stopAudioStream
      { s1 with
        audioData := none
        audioDataSamplesOffset := 0
        audioDataSamplesCount := 0
        frameOffset := s1.currentFrame
        currentTime := 0
        realSpeedFrameCount := 0
        playEveryFrameTime := 0 }
  else s

/-- `Media::_playbackUpdate`. -/
def _playbackUpdate (deps : Deps) (s : Media) : Media :=
  if s.context then
    match s.playback with
    | .Stop =>
      let s1 := if s.read then { s with readPlayback := false } else s
      let s2 := _stopAudioStream s1
      let s3 := { s2 with playbackTimer := false }
      _seek s3 s3.currentFrame
    | pb =>
      let forward := decide (pb = .Forward)
      let s1 := if s.read then { s with readPlayback := true } else s
      let s2 := { s1 with ioDirection := if forward then .Forward else .Reverse }
      let s3 := _seek s2 s2.currentFrame
      let s4 := { s3 with
        audioData := none
        audioDataSamplesOffset := 0
        audioDataSamplesCount := 0
        frameOffset := s3.currentFrame
        currentTime := 0
        realSpeedFrameCount := 0
        playEveryFrameTime := 0 }
      let s5 := if _hasAudioSyncPlayback s4 then _startAudioStream deps s4 else s4
      { s5 with playbackTimer := true }
  else s

/-! ## Seeking and playback -/

/-- The first loop of `setCurrentFrame`: `while (tmp > range.getMax()) tmp -= size;`. -/
def wrapAbove (max : Int) (size : Nat) : Nat → Int → Option Int
  | 0, tmp => if tmp > max then none else some tmp
  | fuel + 1, tmp =>
    if tmp > max then wrapAbove max size fuel (toInt64 (tmp - size)) else some tmp

/-- The second loop of `setCurrentFrame`: `while (tmp < range.getMin()) tmp += size;`. -/
def wrapBelow (min : Int) (size : Nat) : Nat → Int → Option Int
  | 0, tmp => if tmp < min then none else some tmp
  | fuel + 1, tmp =>
    if tmp < min then wrapBelow min size fuel (toInt64 (tmp + size)) else some tmp

/-- The in/out range: `p.inOutPoints->get().getRange(p.sequence->get().getFrameCount())`. -/
def inOutRange (deps : Deps) (s : Media) : Range :=
  deps.getRange s.inOutPoints s.sequence.frameCount

/-- The range `setCurrentFrame` wraps into: the in/out range, or the whole sequence
`Math::Frame::Range(0, p.sequence->get().getLastIndex())`. -/
def targetRange (deps : Deps) (s : Media) (inOutPoints : Bool) : Range :=
  if inOutPoints then inOutRange deps s
  else ⟨0, s.sequence.lastIndex⟩

/-- The value `tmp` that `setCurrentFrame` stores: `value` wrapped into `range`. -/
def wrapFrame (range : Range) (fuel : Nat) (value : Int) : Option Int :=
  let size := toSizeT (range.max - range.min + 1)
  if size > 1 then
    (wrapAbove range.max size fuel value).bind (wrapBelow range.min size fuel)
  else some value

/-- `Media::setPlayback`, with the `setCurrentFrame` it calls as an argument
(`setCurrentFrame` itself calls `setPlayback(Playback::Stop)`, whose `switch`
takes the `default` branch and calls nothing). -/
def setPlaybackWith (deps : Deps) (setFrame : Int → Media → Option Media)
    (value : Playback) (s : Media) : Option Media :=
  let range := inOutRange deps s
  let currentFrame := s.currentFrame
  let r : Option Media :=
    match value with
    | .Forward =>
      match s.playbackMode with
      | .Once =>
        if currentFrame ≥ range.max ∨ currentFrame < range.min then setFrame range.min s
        else some s
      | .Loop =>
        if currentFrame > range.max ∨ currentFrame < range.min then setFrame range.min s
        else some s
      | .PingPong =>
        if currentFrame > range.max then setFrame range.max s
        else if currentFrame < range.min then setFrame range.min s
        else some s
    | .Reverse =>
      match s.playbackMode with
      | .Once =>
        if currentFrame ≤ range.min ∨ currentFrame > range.max then setFrame range.max s
        else some s
      | .Loop =>
        if currentFrame < range.min ∨ currentFrame > range.max then setFrame range.max s
        else some s
      | .PingPong =>
        if currentFrame > range.max then setFrame range.max s
        else if currentFrame < range.min then setFrame range.min s
        else some s
    | .Stop => some s
  r.bind fun s1 =>
    if s1.playback ≠ value then some (_playbackUpdate deps { s1 with playback := value })
    else some s1

/-- Modelled from the spec: the default value of the `inOutPoints` parameter of
`Media::setCurrentFrame`, declared in `Media.h`. -/
def inOutPointsDefault : Bool := true

/-- `Media::setCurrentFrame`. -/
def setCurrentFrame (deps : Deps) (fuel : Nat) (value : Int) (inOutPoints : Bool)
    (s : Media) : Option Media :=
  let range := targetRange deps s inOutPoints
  (wrapFrame range fuel value).bind fun tmp =>
    if tmp ≠ s.currentFrame then
      (setPlaybackWith deps (fun _ _ => none) .Stop { s with currentFrame := tmp }).bind
        fun s1 => some (_seek s1 s1.currentFrame)
    else some s

/-- `Media::setPlayback`. -/
def setPlayback (deps : Deps) (fuel : Nat) (value : Playback) (s : Media) : Option Media :=
  setPlaybackWith deps (fun v t => setCurrentFrame deps fuel v inOutPointsDefault t) value s

/-- `Media::_setCurrentFrame`. -/
def _setCurrentFrame (deps : Deps) (fuel : Nat) (value : Int) (s : Media) : Option Media :=
  let range := inOutRange deps s
  if value ≠ s.currentFrame then
    let s1 := { s with currentFrame := value }
    match s1.playback with
    | .Forward =>
      if value ≥ range.max then
        match s1.playbackMode with
        | .Once => setPlayback deps fuel .Stop s1
        | .Loop => (setPlayback deps fuel .Stop s1).bind (setPlayback deps fuel .Forward)
        | .PingPong => (setPlayback deps fuel .Stop s1).bind (setPlayback deps fuel .Reverse)
      else some s1
    | .Reverse =>
      if value ≤ range.min then
        match s1.playbackMode with
        | .Once => setPlayback deps fuel .Stop s1
        | .Loop => (setPlayback deps fuel .Stop s1).bind (setPlayback deps fuel .Reverse)
        | .PingPong => (setPlayback deps fuel .Stop s1).bind (setPlayback deps fuel .Forward)
      else some s1
    | .Stop => some s1
  else some s

/-- `Media::_playbackTick`. -/
def _playbackTick (deps : Deps) (fuel : Nat) (s : Media) : Option Media :=
  match s.playback with
  | .Stop => some s
  | playback =>
    let speed := s.speed
    if _hasAudioSyncPlayback s then
      if s.audioDataSamplesCount ≠ 0 then
        let frame := s.frameOffset +
          deps.timeScale s.audioDataSamplesCount ⟨1, s.sampleRate⟩ speed.swap
        _setCurrentFrame deps fuel frame s
      else some s
    else if s.playEveryFrame then some s
    else
      let elapsed := deps.elapsedFrames s.currentTime speed
      let frame :=
        match playback with
        | .Forward => s.frameOffset + elapsed
        | _ => s.frameOffset - elapsed
      _setCurrentFrame deps fuel frame s

/-! ## The queue update -/

/-- The constant `realSpeedFrameCount` of the anonymous namespace. -/
def realSpeedFrameCount : Nat := 30

/-- The test of the stale-frame loop of `_queueUpdate` on the head frame. -/
def isStale (dir : Direction) (currentFrame : Int) (f : VideoFrame) : Bool :=
  if dir = .Forward then decide (f.frame < currentFrame) else decide (f.frame > currentFrame)

/-- The stale-frame loop of `_queueUpdate`: the queue, the last frame popped
(`gotFrame` is `isSome`) and `p.realSpeedFrameCount`. -/
def popStale (dir : Direction) (currentFrame : Int) :
    List VideoFrame → Option VideoFrame → Nat → List VideoFrame × Option VideoFrame × Nat
  | [], frame, count => ([], frame, count)
  | f :: queue, frame, count =>
    if isStale dir currentFrame f then
      popStale dir currentFrame queue (some f) ((count + 1) % 18446744073709551616)
    else (f :: queue, frame, count)

/-- The audio loop of `_queueUpdate`: `while (queue.getCount() > queue.getMax()) queue.popFrame();`. -/
def trimAudioQueue (max : Nat) : List AudioFrame → List AudioFrame
  | [] => []
  | f :: queue => if (f :: queue).length > max then trimAudioQueue max queue else f :: queue

/-- The block of `Media::_queueUpdate` that holds the reader's mutex for the video
queue: the new state and the frame got (`gotFrame` is `isSome`). -/
def _queueUpdateLocked (deps : Deps) (s : Media) : Media × Option VideoFrame :=
  let playback := s.playback
  let playEveryFrameAdvance := deps.playEveryFrameAdvance s.playEveryFrameTime s.speed
  let currentFrame := s.currentFrame
  let r : Media × Option VideoFrame :=
    if s.playEveryFrame then
      match s.videoQueue with
      | f :: queue =>
        if playback ≠ .Stop ∧ playEveryFrameAdvance then
          ({ s with
              videoQueue := queue
              realSpeedFrameCount := (s.realSpeedFrameCount + 1) % 18446744073709551616
              playEveryFrameTime := deps.playEveryFrameSub s.playEveryFrameTime s.speed },
            some f)
        else (s, none)
      | [] => (s, none)
    else
      let l := popStale s.ioDirection currentFrame s.videoQueue none s.realSpeedFrameCount
      ({ s with videoQueue := l.1, realSpeedFrameCount := l.2.2 }, l.2.1)
  match r.2 with
  | some f => (r.1, some f)
  | none => (r.1, r.1.videoQueue.head?)

/-- The part of `Media::_queueUpdate` under `if (gotFrame)`: the real speed window, the
current image and, with play-every-frame, the current frame. -/
def _queueUpdatePublish (deps : Deps) (fuel : Nat) (s : Media) (f : VideoFrame) : Option Media :=
  let s1 :=
    if s.realSpeedFrameCount ≥ realSpeedFrameCount then { s with realSpeedFrameCount := 0 }
    else s
  let s2 := { s1 with currentImage := some f.data }
  if s2.playEveryFrame then _setCurrentFrame deps fuel f.frame s2 else some s2

/-- The block of `Media::_queueUpdate` under the comment "Update the video queue." -/
def _queueUpdateVideo (deps : Deps) (fuel : Nat) (s : Media) : Option Media :=
  match (_queueUpdateLocked deps s).2 with
  | some f => _queueUpdatePublish deps fuel (_queueUpdateLocked deps s).1 f
  | none => some (_queueUpdateLocked deps s).1

/-- The block of `Media::_queueUpdate` under the comment "Update the audio queue." -/
def _queueUpdateAudio (s : Media) : Media :=
  if _hasAudio s && !_hasAudioSyncPlayback s then
    { s with audioQueue := trimAudioQueue s.audioQueueMax s.audioQueue }
  else s

/-- `Media::_queueUpdate`: with a reader, the video block and then the audio block. -/
def _queueUpdate (deps : Deps) (fuel : Nat) (s : Media) : Option Media :=
  if s.read then
    (_queueUpdateVideo deps fuel s).bind fun s5 => some (_queueUpdateAudio s5)
  else some s

/-! ## The realtime audio callback -/

/-- The loop of `_rtAudioCallback` that takes frames from the audio queue:
the queue, `sampleCount` and the vector `frames`. -/
def popAudioFrames (outputSampleCount : Nat) :
    List AudioFrame → Nat → List AudioFrame → List AudioFrame × Nat × List AudioFrame
  | [], sampleCount, frames => ([], sampleCount, frames)
  | f :: queue, sampleCount, frames =>
    if sampleCount < outputSampleCount then
      popAudioFrames outputSampleCount queue
        ((sampleCount + f.data.length) % 18446744073709551616) (frames ++ [f])
    else (f :: queue, sampleCount, frames)

/-- The loop of `_rtAudioCallback` over the frames taken: the state, the samples
written so far and `outputSampleCount`. -/
def processFrames (deps : Deps) (volume : Int) :
    List AudioFrame → Media × List Int × Nat → Media × List Int × Nat
  | [], acc => acc
  | i :: frames, (m, out, outputSampleCount) =>
    let size := min i.data.length outputSampleCount
    processFrames deps volume frames
      ({ m with
          audioData := some i.data
          audioDataSamplesOffset := size
          audioDataSamplesCount := (m.audioDataSamplesCount + size) % 18446744073709551616 },
        out ++ (i.data.take size).map (deps.audioVolume volume),
        outputSampleCount - size)

/-- `Media::_rtAudioCallback`: the new state and the contents of the output buffer,
in samples (one sample is `sampleByteCount` bytes). -/
def _rtAudioCallback (deps : Deps) (nFrames : Nat) (s : Media) : Media × List Int :=
  let outputSampleCount := nFrames
  let volume := if !s.mute then s.volume else 0
  let sampleCount : Nat :=
    match s.audioData with
    | some d => toSizeT (d.length - s.audioDataSamplesOffset)
    | none => 0
  -- get audio frames from the read queue
  let popped := popAudioFrames outputSampleCount s.audioQueue sampleCount []
  let frames := popped.2.2
  let s1 := { s with audioQueue := popped.1 }
  -- use the remaining data from the frame
  let (s2, out, outputSampleCount) : Media × List Int × Nat :=
    match s1.audioData with
    | some d =>
      let size := min (toSizeT (d.length - s1.audioDataSamplesOffset)) outputSampleCount
      let out := ((d.drop s1.audioDataSamplesOffset).take size).map (deps.audioVolume volume)
      let m := { s1 with
        audioDataSamplesOffset := (s1.audioDataSamplesOffset + size) % 18446744073709551616
        audioDataSamplesCount := (s1.audioDataSamplesCount + size) % 18446744073709551616 }
      let m := if m.audioDataSamplesOffset ≥ d.length then
        { m with audioData := none, audioDataSamplesOffset := 0 } else m
      (m, out, outputSampleCount - size)
    | none => (s1, [], outputSampleCount)
  -- process the frames
  let r := processFrames deps volume frames (s2, out, outputSampleCount)
  let zeroCount := toSizeT ((nFrames : Int) - r.2.1.length)
  (r.1, r.2.1 ++ List.replicate zeroCount 0)

/-! ## Opening, layers, speed and in/out points -/

/-- Modelled from the spec: `Math::Frame::invalid`, the index of "no frame", taken to be
the least `int64_t`. -/
def frameInvalid : Int := -9223372036854775808

/-- Modelled from the spec: `Math::clamp(value, min, max)`. -/
def clamp (value min max : Int) : Int := Min.min (Max.max value min) max

/-- What the I/O system answers to `Media::_open`: `io->read` throws, or the reader is
created and `getInfo().get()` throws, or the reader delivers its information.  A new
reader comes with empty queues and the maximum of its audio queue. -/
inductive OpenResult where
  | readFails
  | infoFails (audioQueueMax : Nat)
  | info (i : Info) (audioQueueMax : Nat)
  deriving DecidableEq, Repr

/-- The assignment `p.read = io->read(p.fileInfo, options)`: a new reader. -/
def newReader (audioQueueMax : Nat) (s : Media) : Media :=
  { s with
    read := true, readPlayback := false, readSeek := none, readInOutPoints := none,
    videoQueue := [], audioQueue := [], audioQueueMax := audioQueueMax }

/-- `Media::_open`; `openStreamOk` says whether `RtAudio::openStream` succeeds. -/
def _open (r : OpenResult) (openStreamOk : Bool) (s : Media) : Media :=
  if s.context then
    let s0 := { s with valid := false }
    -- the `try` block
    let s1 : Media :=
      match r with
      | .readFails => s0
      | .infoFails audioQueueMax => newReader audioQueueMax s0
      | .info i audioQueueMax =>
        let s2 := newReader audioQueueMax s0
        let currentLayer := clamp s2.layers.2 0 ((i.video.length : Int) - 1)
        let end_ := i.videoSequence.lastIndex
        let currentFrame := s2.currentFrame
        let frame :=
          if frameInvalid = currentFrame then
            (if i.videoSequence.frameCount > 1 then 0 else frameInvalid)
          else clamp currentFrame 0 end_
        let s3 := { s2 with
          info := i
          layers := (i.video, currentLayer)
          audioInfoValid := i.audioValid
          sampleRate := i.audioSampleRate
          speed := i.videoSpeed
          defaultSpeed := i.videoSpeed
          sequence := i.videoSequence
          inOutPoints := ⟨false, 0, end_⟩
          currentFrame := frame }
        let s4 :=
          if _hasAudio s3 then
            { s3 with
              rtStreamRunning := if s3.rtStreamOpen then false else s3.rtStreamRunning
              rtStreamOpen := openStreamOk }
          else s3
        { s4 with audioEnabled := _isAudioEnabled s4, valid := true }
    { _seek s1 s1.currentFrame with reload := true }
  else s

/-- `Media::reload`. -/
def reload (r : OpenResult) (openStreamOk : Bool) (s : Media) : Media :=
  _open r openStreamOk s

/-- `Media::setLayer`. -/
def setLayer (value : Int) (r : OpenResult) (openStreamOk : Bool) (s : Media) : Media :=
  if (s.info.video, value) ≠ s.layers then
    _open r openStreamOk { s with layers := (s.info.video, value) }
  else s

/-- The `size_t layer` that `Media::nextLayer` computes and passes to `setLayer`. -/
def nextLayerIndex (s : Media) : Nat :=
  let layer := (toSizeT s.layers.2 + 1) % 18446744073709551616
  if layer ≥ s.info.video.length then 0 else layer

/-- `Media::nextLayer`; the call `setLayer(layer)` converts the `size_t` to `int`. -/
def nextLayer (r : OpenResult) (openStreamOk : Bool) (s : Media) : Media :=
  setLayer (toInt32 (nextLayerIndex s)) r openStreamOk s

/-- The `size_t layer` that `Media::prevLayer` computes and passes to `setLayer`. -/
def prevLayerIndex (s : Media) : Nat :=
  let layer := toSizeT s.layers.2
  let size := s.info.video.length
  if layer > 0 then layer - 1 else if size > 0 then size - 1 else 0

/-- `Media::prevLayer`; the call `setLayer(layer)` converts the `size_t` to `int`. -/
def prevLayer (r : OpenResult) (openStreamOk : Bool) (s : Media) : Media :=
  setLayer (toInt32 (prevLayerIndex s)) r openStreamOk s

/-- `Media::_setSpeed`. -/
def _setSpeed (deps : Deps) (value : IntRational) (s : Media) : Media :=
  if value ≠ s.speed then
    let s1 := { s with speed := value }
    let s2 := _seek s1 s1.currentFrame
    let s3 := { s2 with audioEnabled := _isAudioEnabled s2 }
    if _hasAudioSyncPlayback s3 then _startAudioStream deps s3 else s3
  else s

/-- `Media::setPlaybackSpeed`. -/
def setPlaybackSpeed (deps : Deps) (value : PlaybackSpeed) (s : Media) : Media :=
  if value ≠ s.playbackSpeed then
    let s1 := { s with playbackSpeed := value }
    let speed :=
      match value with
      | .Default => s1.defaultSpeed
      | .Custom => s1.customSpeed
    _setSpeed deps speed s1
  else s

/-- `Media::setCustomSpeed`. -/
def setCustomSpeed (deps : Deps) (value : IntRational) (s : Media) : Media :=
  if value ≠ s.customSpeed then
    let s1 := { s with customSpeed := value }
    if PlaybackSpeed.Custom = s1.playbackSpeed then _setSpeed deps value s1 else s1
  else s

/-- `Media::setPlayEveryFrame`. -/
def setPlayEveryFrame (deps : Deps) (value : Bool) (s : Media) : Media :=
  if value ≠ s.playEveryFrame then
    let s1 := { s with playEveryFrame := value }
    let s2 := _seek s1 s1.currentFrame
    let s3 := { s2 with audioEnabled := _isAudioEnabled s2 }
    if _hasAudioSyncPlayback s3 then _startAudioStream deps s3 else s3
  else s

/-- `Media::inPoint`. -/
def inPoint (deps : Deps) (fuel : Nat) (s : Media) : Option Media :=
  setCurrentFrame deps fuel (if s.inOutPoints.enabled then s.inOutPoints.inPoint else 0)
    inOutPointsDefault s

/-- `Media::outPoint`. -/
def outPoint (deps : Deps) (fuel : Nat) (s : Media) : Option Media :=
  let size := s.sequence.frameCount
  let end_ : Int := if size > 0 then (size : Int) - 1 else 0
  setCurrentFrame deps fuel (if s.inOutPoints.enabled then s.inOutPoints.outPoint else end_)
    false s

/-- `Media::start`. -/
def start (deps : Deps) (fuel : Nat) (s : Media) : Option Media :=
  setCurrentFrame deps fuel 0 false s

/-- `Media::end`. -/
def end_ (deps : Deps) (fuel : Nat) (s : Media) : Option Media :=
  let size := s.sequence.frameCount
  let frame : Int := if size > 0 then (size : Int) - 1 else 0
  setCurrentFrame deps fuel frame false s

/-- `Media::nextFrame`. -/
def nextFrame (deps : Deps) (fuel : Nat) (value : Nat) (s : Media) : Option Media :=
  setCurrentFrame deps fuel (s.currentFrame + toInt64 value) inOutPointsDefault s

/-- `Media::prevFrame`. -/
def prevFrame (deps : Deps) (fuel : Nat) (value : Nat) (s : Media) : Option Media :=
  setCurrentFrame deps fuel (s.currentFrame - toInt64 value) inOutPointsDefault s

/-- `Media::setPlaybackMode`. -/
def setPlaybackMode (value : PlaybackMode) (s : Media) : Media :=
  { s with playbackMode := value }

/-- `Media::setInOutPoints`. -/
def setInOutPoints (deps : Deps) (value : InOutPoints) (s : Media) : Media :=
  if value ≠ s.inOutPoints then
    let s1 := { s with inOutPoints := value }
    let s2 := if s1.read then { s1 with readInOutPoints := some value } else s1
    let s3 := _seek s2 s2.currentFrame
    if _hasAudioSyncPlayback s3 then _startAudioStream deps s3 else s3
  else s

/-- `Media::setInPoint`. -/
def setInPoint (deps : Deps) (s : Media) : Media :=
  setInOutPoints deps ⟨true, s.currentFrame, s.inOutPoints.outPoint⟩ s

/-- `Media::setOutPoint`. -/
def setOutPoint (deps : Deps) (s : Media) : Media :=
  setInOutPoints deps ⟨true, s.inOutPoints.inPoint, s.currentFrame⟩ s

/-- `Media::resetInPoint`. -/
def resetInPoint (deps : Deps) (s : Media) : Media :=
  let value := s.inOutPoints
  let size := s.sequence.frameCount
  let enabled := if toInt64 size - 1 = value.outPoint then false else true
  setInOutPoints deps ⟨enabled, 0, value.outPoint⟩ s

/-- `Media::resetOutPoint`. -/
def resetOutPoint (deps : Deps) (s : Media) : Media :=
  let value := s.inOutPoints
  let enabled := if 0 = value.inPoint then false else true
  let size := s.sequence.frameCount
  setInOutPoints deps ⟨enabled, value.inPoint, if size > 0 then toInt64 size - 1 else 0⟩ s

/-- `Media::setVolume`; `value` is the code of the float already clamped to `[0, 1]`. -/
def setVolume (value : Int) (s : Media) : Media :=
  { s with volume := value }

/-- `Media::setMute`. -/
def setMute (value : Bool) (s : Media) : Media :=
  { s with mute := value }

/-- The callback of the playback timer started by `_playbackUpdate`: `delta` is the
time since the previous call.  It runs only while the timer does. -/
def playbackTimerCallback (deps : Deps) (fuel : Nat) (delta : Int) (s : Media) : Option Media :=
  if s.playbackTimer then
    _playbackTick deps fuel
      { s with
        currentTime := s.currentTime + delta
        playEveryFrameTime := s.playEveryFrameTime + delta }
  else some s

/-! ## Annotations -/

/-- Modelled from the spec: `ListSubject<T>::pushBack`, which appends the value. -/
def pushBack (l : List Nat) (value : Nat) : List Nat := l ++ [value]

/-- Modelled from the spec: `ListSubject<T>::indexOf`, the index of the first item equal
to the value; `none` is `Observer::invalidListIndex`. -/
def indexOf : List Nat → Nat → Option Nat
  | [], _ => none
  | x :: l, value => if x = value then some 0 else (indexOf l value).map (· + 1)

/-- Modelled from the spec: `ListSubject<T>::removeItem`, which removes the item at the
index. -/
def removeItem (l : List Nat) (index : Nat) : List Nat := l.eraseIdx index

/-- `Media::addAnnotation`. -/
def addAnnotation (value : Nat) (s : Media) : Media :=
  { s with annotations := pushBack s.annotations value }

/-- `Media::removeAnnotation`. -/
def removeAnnotation (value : Nat) (s : Media) : Media :=
  match indexOf s.annotations value with
  | some i => { s with annotations := removeItem s.annotations i }
  | none => s

/-- `Media::clearAnnotations`. -/
def clearAnnotations (s : Media) : Media :=
  { s with annotations := [] }

/-- An `AnnotateCommand`: its primitive, whether its weak pointer to the media can be
locked, and the value last set on its `undo` subject. -/
structure AnnotateCommand where
  primitive : Nat
  media : Bool := true
  undo : Bool := false
  deriving DecidableEq, Repr

/-- `AnnotateCommand::exec`. -/
def AnnotateCommand.exec (c : AnnotateCommand) (media : Media) : Media :=
  if c.media then addAnnotation c.primitive media else media

/-- `AnnotateCommand::undo`, named after the member function. -/
def AnnotateCommand.undoCommand (c : AnnotateCommand) (media : Media) : AnnotateCommand × Media :=
  ({ c with undo := true }, if c.media then removeAnnotation c.primitive media else media)

/-! ## Sequences of operations -/

/-- The operations on a `Media` object: its public member functions, the callbacks of
its timers, the audio callback and the pushes of the decode thread. -/
inductive Op where
  | reload (r : OpenResult) (openStreamOk : Bool)
  | setLayer (value : Int) (r : OpenResult) (openStreamOk : Bool)
  | nextLayer (r : OpenResult) (openStreamOk : Bool)
  | prevLayer (r : OpenResult) (openStreamOk : Bool)
  | setPlaybackSpeed (value : PlaybackSpeed)
  | setCustomSpeed (value : IntRational)
  | setPlayEveryFrame (value : Bool)
  | setCurrentFrame (value : Int) (inOutPoints : Bool)
  | inPoint
  | outPoint
  | start
  | end_
  | nextFrame (value : Nat)
  | prevFrame (value : Nat)
  | setPlayback (value : Playback)
  | setPlaybackMode (value : PlaybackMode)
  | setInOutPoints (value : InOutPoints)
  | setInPoint
  | setOutPoint
  | resetInPoint
  | resetOutPoint
  | setVolume (value : Int)
  | setMute (value : Bool)
  | annotationAdd (value : Nat)
  | annotationRemove (value : Nat)
  | annotationsClear
  | playbackTimer (delta : Int)
  | queueTimer
  | audioCallback (nFrames : Nat)
  | pushVideo (f : VideoFrame)
  | pushAudio (f : AudioFrame)
  deriving DecidableEq, Repr

/-- One operation.  The audio callback runs only while the stream does; the decode
thread pushes only when there is a reader. -/
def step (deps : Deps) (fuel : Nat) (op : Op) (s : Media) : Option Media :=
  match op with
  | .reload r ok => some (reload r ok s)
  | .setLayer v r ok => some (setLayer v r ok s)
  | .nextLayer r ok => some (nextLayer r ok s)
  | .prevLayer r ok => some (prevLayer r ok s)
  | .setPlaybackSpeed v => some (setPlaybackSpeed deps v s)
  | .setCustomSpeed v => some (setCustomSpeed deps v s)
  | .setPlayEveryFrame v => some (setPlayEveryFrame deps v s)
  | .setCurrentFrame v flag => setCurrentFrame deps fuel v flag s
  | .inPoint => inPoint deps fuel s
  | .outPoint => outPoint deps fuel s
  | .start => start deps fuel s
  | .end_ => end_ deps fuel s
  | .nextFrame v => nextFrame deps fuel v s
  | .prevFrame v => prevFrame deps fuel v s
  | .setPlayback v => setPlayback deps fuel v s
  | .setPlaybackMode v => some (setPlaybackMode v s)
  | .setInOutPoints v => some (setInOutPoints deps v s)
  | .setInPoint => some (setInPoint deps s)
  | .setOutPoint => some (setOutPoint deps s)
  | .resetInPoint => some (resetInPoint deps s)
  | .resetOutPoint => some (resetOutPoint deps s)
  | .setVolume v => some (setVolume v s)
  | .setMute v => some (setMute v s)
  | .annotationAdd v => some ( addAnnotation v s)
  | .annotationRemove v => some ( removeAnnotation v s)
  | .annotationsClear => some (clearAnnotations s)
  | .playbackTimer delta => playbackTimerCallback deps fuel delta s
  | .queueTimer => _queueUpdate deps fuel s
  | .audioCallback n => some (if s.rtStreamRunning then (_rtAudioCallback deps n s).1 else s)
  | .pushVideo f => some (if s.read then { s with videoQueue := s.videoQueue ++ [f] } else s)
  | .pushAudio f => some (if s.read then { s with audioQueue := s.audioQueue ++ [f] } else s)

/-- A sequence of operations, from left to right. -/
def run (deps : Deps) (fuel : Nat) : List Op → Media → Option Media
  | [], s => some s
  | op :: ops, s => (step deps fuel op s).bind (run deps fuel ops)

/-! ## Value subjects -/

/-- Modelled from the spec: a `ValueSubject<T>` with its attached observers; of each
observer the values its callback has received, oldest first. -/
structure ValueSubject (α : Type) where
  value : α
  observers : List (List α) := []

/-- Modelled from the spec: `ValueSubject<T>::create(value)`. -/
def ValueSubject.create {α : Type} (value : α) : ValueSubject α :=
  { value := value }

/-- Modelled from the spec: `ValueObserver<T>::create(subject, callback)`, which attaches
an observer and calls it with the value held. -/
def ValueSubject.observe {α : Type} (s : ValueSubject α) : ValueSubject α :=
  { s with observers := s.observers ++ [[s.value]] }

/-- Modelled from the spec: `ValueSubject<T>::get`. -/
def ValueSubject.get {α : Type} (s : ValueSubject α) : α := s.value

/-- Modelled from the spec: `ValueSubject<T>::setAlways`, which stores the value and
calls every observer with it. -/
def ValueSubject.setAlways {α : Type} (s : ValueSubject α) (value : α) : ValueSubject α :=
  { value := value, observers := s.observers.map (· ++ [value]) }

/-- Modelled from the spec: `ValueSubject<T>::setIfChanged`, which does nothing and
returns `false` when the value equals the one held, and otherwise stores it, calls
every observer with it and returns `true`. -/
def ValueSubject.setIfChanged {α : Type} [DecidableEq α] (s : ValueSubject α) (value : α) :
    Bool × ValueSubject α :=
  if value = s.value then (false, s) else (true, s.setAlways value)

/-- The calls that reach a `ValueSubject<T>`: an observer is created on it, or a value
is set. -/
inductive SubjectOp (α : Type) where
  | observe
  | setAlways (value : α)
  | setIfChanged (value : α)

/-- One call on a subject. -/
def ValueSubject.step {α : Type} [DecidableEq α] (s : ValueSubject α) :
    SubjectOp α → ValueSubject α
  | .observe => s.observe
  | .setAlways value => s.setAlways value
  | .setIfChanged value => (s.setIfChanged value).2

/-- A sequence of calls on a subject, from left to right. -/
def ValueSubject.run {α : Type} [DecidableEq α] (s : ValueSubject α) :
    List (SubjectOp α) → ValueSubject α
  | [] => s
  | op :: ops => (s.step op).run ops

/-! ## The directory model -/

/-- The constant `historyMax` of the anonymous namespace of `DirectoryModel.cpp`. -/
def historyMax : Nat := 10

/-- The part of `DirectoryModel::Private` that `setPath` reads and writes: the values
held by `path` and `history`.  `P` is the type `Path`, whose code is outside the
sources at hand. -/
structure DirectoryModel (P : Type) where
  path : P
  history : List P := []

/-- The loop `while (history.size() > historyMax) history.pop_back();`.  Every turn
removes an entry, so it makes at most `history.size()` turns: the fuel. -/
def popBackLoop {P : Type} : Nat → List P → List P
  | 0, history => history
  | fuel + 1, history =>
    if history.length > historyMax then popBackLoop fuel history.dropLast else history

/-- `DirectoryModel::setPath`; `isEmpty` is `Path::isEmpty`. -/
def DirectoryModel.setPath {P : Type} [DecidableEq P] (isEmpty : P → Bool) (value : P)
    (m : DirectoryModel P) : DirectoryModel P :=
  let path := m.path
  if value = path then m
  else
    let m1 :=
      if !isEmpty path then
        let history := m.history
        let history :=
          match history with
          | h0 :: _ => if path ≠ h0 then path :: history else history
          | [] => history ++ [path]
        { m with history := popBackLoop history.length history }
      else m
    { m1 with path := value }

/-- `DirectoryModel::goUp`; `upDir` is `Path::upDir`. -/
def DirectoryModel.goUp {P : Type} [DecidableEq P] (isEmpty : P → Bool) (upDir : P → P)
    (m : DirectoryModel P) : DirectoryModel P :=
  m.setPath isEmpty (upDir m.path)

/-- A sequence of `setPath` calls, from left to right. -/
def DirectoryModel.run {P : Type} [DecidableEq P] (isEmpty : P → Bool) :
    List P → DirectoryModel P → DirectoryModel P
  | [], m => m
  | value :: values, m => DirectoryModel.run isEmpty values (m.setPath isEmpty value)

/-! ## The file settings -/

/-- The part of `FileSettings::Private` that the recent files use: the list held by
`recentFiles` and the value held by `recentFilesMax` (10 after `_init`). -/
structure FileSettings (α : Type) where
  recentFiles : List α := []
  recentFilesMax : Nat := 10

/-- The loop `for (size_t i = 0; i < value.size() && i < max; ++i)
files.push_back(value[i]);` from the index `i` on.  `i` grows every turn and stays
below `value.size()`, so the loop makes at most `value.size()` turns: the fuel. -/
def copyLoop {α : Type} (value : List α) (max : Nat) : Nat → Nat → List α → List α
  | 0, _, files => files
  | fuel + 1, i, files =>
    if i < value.length ∧ i < max then
      match value.get? i with
      | some x => copyLoop value max fuel (i + 1) (files ++ [x])
      | none => files
    else files

/-- `FileSettings::setRecentFiles`. -/
def FileSettings.setRecentFiles {α : Type} (value : List α) (p : FileSettings α) :
    FileSettings α :=
  { p with recentFiles := copyLoop value p.recentFilesMax value.length 0 [] }

/-- `FileSettings::setRecentFilesMax`. -/
def FileSettings.setRecentFilesMax {α : Type} (value : Nat) (p : FileSettings α) :
    FileSettings α :=
  let p1 := { p with recentFilesMax := value }
  let files := p1.recentFiles
  let filesMax := copyLoop files value files.length 0 []
  p1.setRecentFiles filesMax

/-! ## The menu button -/

/-- The enumerators of `MetricsRole` that `MenuButton.cpp` names. -/
inductive MetricsRole where
  | None
  | Border
  | MarginSmall
  deriving DecidableEq, Repr

/-- The part of `Button::Menu::Private` that the border functions use.
Modelled from the spec: of the `Border` widget `p.border`, the value that
`getBorderSize` returns, which is the one last given to `setBorderSize`
(`MetricsRole::None` in `Menu::_init`). -/
structure Menu where
  checked : Bool := false
  borderSize : MetricsRole := .None
  deriving DecidableEq, Repr

/-- `Button::Menu::hasBorder`. -/
def Menu.hasBorder (m : Menu) : Bool :=
  decide (m.borderSize ≠ MetricsRole.Border)

/-- `Button::Menu::setBorder`. -/
def Menu.setBorder (value : Bool) (m : Menu) : Menu :=
  { m with borderSize := if value then MetricsRole.Border else MetricsRole.None }

/-! ## Auxiliary definitions for the statements -/

/-- The fields that seeking and playback control never write. -/
def Media.config (s : Media) :=
  (s.context, s.speed, s.defaultSpeed, s.playEveryFrame, s.sequence, s.playbackMode,
    s.inOutPoints, s.audioInfoValid, s.rtAudio, s.read, s.videoQueue, s.audioQueue,
    s.audioQueueMax, s.currentImage, s.sampleRate)

/-- The audio device as `Media` sees it: `p.rtAudio` is not null, a method was invoked
through it while it was null, the value held by `audioEnabled`, and the state of the
stream. -/
def Media.device (s : Media) :=
  (s.rtAudio, s.rtAudioNullCall, s.audioEnabled, s.rtStreamOpen, s.rtStreamRunning)

/-- What `_isAudioEnabled` reads, and the value held by `audioEnabled`. -/
def Media.enabling (s : Media) :=
  (s.audioEnabled, s.audioInfoValid, s.rtAudio, s.speed, s.defaultSpeed, s.playEveryFrame)

/-- The relation between the playback-speed mode and the effective speed. -/
def speedMatchesMode (s : Media) : Bool :=
  match s.playbackSpeed with
  | .Default => decide (s.speed = s.defaultSpeed)
  | .Custom => decide (s.speed = s.customSpeed)

/-- The frame `Media::setPlayback` continues from, case by case. -/
def restartFrame (value : Playback) (mode : PlaybackMode) (r : Range) (currentFrame : Int) : Int :=
  match value, mode with
  | .Forward, .Once => if currentFrame ≥ r.max ∨ currentFrame < r.min then r.min else currentFrame
  | .Forward, .Loop => if currentFrame > r.max ∨ currentFrame < r.min then r.min else currentFrame
  | .Reverse, .Once => if currentFrame ≤ r.min ∨ currentFrame > r.max then r.max else currentFrame
  | .Reverse, .Loop => if currentFrame < r.min ∨ currentFrame > r.max then r.max else currentFrame
  | .Stop, _ => currentFrame
  | _, .PingPong =>
    if currentFrame > r.max then r.max else if currentFrame < r.min then r.min else currentFrame

/-- The samples of a list of audio frames, in queue order. -/
def queuedSamples : List AudioFrame → List Int
  | [] => []
  | f :: queue => f.data ++ queuedSamples queue

/-- The samples of the leftover frame `audioData` that have not been output yet. -/
def leftoverSamples (s : Media) : List Int :=
  match s.audioData with
  | some d => d.drop s.audioDataSamplesOffset
  | none => []

/-- The samples that have been decoded and not been output yet: the tail of the
leftover frame, then the audio queue. -/
def pendingSamples (s : Media) : List Int :=
  leftoverSamples s ++ queuedSamples s.audioQueue

/-- The volume `_rtAudioCallback` applies to a sample: `Audio::volume` at
`!mute ? volume : 0.F`. -/
def callbackVolume (deps : Deps) (s : Media) : Int → Int :=
  deps.audioVolume (if !s.mute then s.volume else 0)

/-- A run of the audio thread with no seek in between: before each invocation of
`_rtAudioCallback` the decode thread may have pushed frames to the back of the audio
queue.  The result is the final state and the output buffer of every invocation. -/
def runCallbacks (deps : Deps) : List (List AudioFrame × Nat) → Media → Media × List (List Int)
  | [], s => (s, [])
  | (pushed, nFrames) :: rest, s =>
    let r := _rtAudioCallback deps nFrames { s with audioQueue := s.audioQueue ++ pushed }
    let rr := runCallbacks deps rest r.1
    (rr.1, r.2 :: rr.2)

/-- The number of audio samples held in memory: the whole leftover frame and the
audio queue. -/
def heldSamples (s : Media) : Nat :=
  (match s.audioData with
    | some d => d.length
    | none => 0) + (queuedSamples s.audioQueue).length

/-- The samples the decode thread pushes during a run of the audio thread, in order. -/
def pushedSamples : List (List AudioFrame × Nat) → List Int
  | [] => []
  | (pushed, _) :: rest => queuedSamples pushed ++ pushedSamples rest

/-- The concatenation of the sample lists of a run. -/
def concatSamples : List (List Int) → List Int
  | [] => []
  | l :: rest => l ++ concatSamples rest

/-! ## Concrete instances for the examples -/

/-- A concrete instance of the dependencies, used to run the model on examples: the
in/out range is the pair of in/out points when they are enabled and the whole sequence
otherwise, durations are microseconds, and the volume multiplies the sample.  The float
computations of `Media.cpp` are stood in for by exact integer arithmetic, which can
differ from them by rounding; the examples use inputs where the two agree. -/
def exampleDeps : Deps where
  getRange := fun p n => if p.enabled then ⟨p.inPoint, p.outPoint⟩ else ⟨0, (n : Int) - 1⟩
  timeScale := fun v a b => ((v : Int) * a.num * b.den) / (a.den * b.num)
  elapsedFrames := fun t speed => (t * speed.num) / (speed.den * 1000000)
  playEveryFrameAdvance := fun t speed => decide (t * speed.num ≥ speed.den * 1000000)
  playEveryFrameSub := fun t speed => t - (speed.den * 1000000) / speed.num
  audioVolume := fun v x => v * x
  startStreamOk := true

/-- A ten-frame sequence at 24 frames per second with in/out points 2 and 6, stopped on
frame 4. -/
def exampleMedia : Media :=
  { speed := ⟨24, 1⟩, defaultSpeed := ⟨24, 1⟩, sequence := ⟨10, 9⟩,
    inOutPoints := ⟨true, 2, 6⟩, currentFrame := 4, read := true }

/-- A leftover frame of four samples of which two have been output, and two queued
frames. -/
def exampleAudio : Media :=
  { exampleMedia with
    audioData := some [1, 2, 3, 4], audioDataSamplesOffset := 2,
    audioQueue := [⟨[5, 6]⟩, ⟨[7, 8, 9]⟩], audioQueueMax := 1, audioInfoValid := true,
    rtAudio := true, playback := .Reverse }

/-- Forward playback at the default speed with audio, one second of samples consumed. -/
def exampleSync : Media :=
  { exampleAudio with playback := .Forward, sampleRate := 48000, audioDataSamplesCount := 48000 }

/-- A still image: a sequence of the single frame 0. -/
def exampleStill : Media :=
  { speed := ⟨24, 1⟩, defaultSpeed := ⟨24, 1⟩, sequence := ⟨1, 0⟩, read := true }

/-- Forward playback in Once mode on frame 5 of the in/out range `[2, 6]`. -/
def exampleOnce : Media :=
  { exampleMedia with
    currentFrame := 5, frameOffset := 5, playback := Playback.Forward, playbackTimer := true }

/-- Forward playback on frame 5 with the frames 3, 4 and 5 in the video queue. -/
def exampleQueue : Media :=
  { exampleMedia with
    currentFrame := 5, playback := .Forward,
    videoQueue := [⟨3, 103⟩, ⟨4, 104⟩, ⟨5, 105⟩] }

/-- Play-every-frame playback, Forward in Once mode on frame 5 of the in/out range
`[2, 6]`, with the frames 6 and 2 queued and 50 ms accumulated (a frame period is
41666 microseconds). -/
def exampleEveryFrame : Media :=
  { exampleMedia with
    currentFrame := 5, playback := Playback.Forward, playEveryFrame := true,
    videoQueue := [⟨6, 106⟩, ⟨2, 102⟩], playEveryFrameTime := 50000 }

/-- Play-every-frame playback, Forward in Loop mode on frame 5 of the in/out range
`[2, 6]`, with frame 8, which lies beyond the range, at the head of the queue and 50 ms
accumulated. -/
def exampleEveryFrameLoop : Media :=
  { exampleMedia with
    currentFrame := 5, playback := Playback.Forward, playbackMode := PlaybackMode.Loop,
    playEveryFrame := true, videoQueue := [⟨8, 108⟩, ⟨2, 102⟩], playEveryFrameTime := 50000 }

/-- Play-every-frame playback, Forward on frame 3 of the in/out range `[2, 6]`, with the
frames 4 and 5 queued and 50 ms accumulated. -/
def exampleEveryFrameMid : Media :=
  { exampleMedia with
    currentFrame := 3, playback := Playback.Forward, playEveryFrame := true,
    videoQueue := [⟨4, 104⟩, ⟨5, 105⟩], playEveryFrameTime := 50000 }

/-- The ten-frame sequence with three video layers, the last one current. -/
def exampleLayers : Media :=
  { exampleMedia with info := { video := [1, 2, 3] }, layers := ([1, 2, 3], 2) }

/-- A `Media` object after `_init` created the audio device and before `_open`: no
reader, the current frame invalid. -/
def exampleFresh : Media :=
  { rtAudio := true, currentFrame := frameInvalid }

/-- A `Media` object after `_init` failed to create the audio device and before `_open`:
`p.rtAudio` is null, no reader, the current frame invalid. -/
def exampleNoDevice : Media :=
  { currentFrame := frameInvalid }

/-- A file of ten frames at 24 frames per second with valid audio at 48 kHz. -/
def exampleInfo : Info :=
  { video := [1], videoSpeed := ⟨24, 1⟩, videoSequence := ⟨10, 9⟩, audioValid := true,
    audioSampleRate := 48000 }

/-- Forward playback on frame 4 with a stale frame 3 at the front of the video queue and
29 frames counted in the real speed window. -/
def exampleStale : Media :=
  { exampleMedia with
    videoQueue := [⟨3, 103⟩, ⟨5, 105⟩], realSpeedFrameCount := 29, playback := .Forward }

/-! ## Machine integers and the wrap loops -/

theorem toInt64_of_isInt64 {x : Int} (h : isInt64 x) : toInt64 x = x := by
  unfold isInt64 at h
  unfold toInt64
  omega

theorem wrapAbove_spec (min max : Int) (size : Nat)
    (hsize : (size : Int) = max - min + 1) (h2 : 2 ≤ size) (hmin : isInt64 min) :
    ∀ (fuel : Nat) (tmp : Int), isInt64 tmp → (tmp - max).toNat ≤ fuel →
      ∃ t, wrapAbove max size fuel tmp = some t ∧ isInt64 t ∧ t ≤ max ∧
        (tmp ≤ max → t = tmp) ∧ (max < tmp → min ≤ t) ∧ t % (size : Int) = tmp % (size : Int) := by
  intro fuel
  induction fuel with
  | zero =>
    intro tmp ht hf
    have hle : tmp ≤ max := by omega
    refine ⟨tmp, ?_, ht, hle, fun _ => rfl, fun h => by omega, rfl⟩
    simp [wrapAbove, not_lt.mpr hle]
  | succ n ih =>
    intro tmp ht hf
    by_cases hgt : tmp > max
    · have hin : isInt64 (tmp - size) := by
        unfold isInt64 at *
        omega
      obtain ⟨t, h1, h2', h3, h4, h5, h6⟩ := ih (tmp - size) hin (by omega)
      refine ⟨t, ?_, h2', h3, fun h => by omega, fun _ => ?_, ?_⟩
      · simp [wrapAbove, hgt, toInt64_of_isInt64 hin, h1]
      · by_cases hc : tmp - (size : Int) ≤ max
        · rw [h4 hc]; omega
        · exact h5 (by omega)
      · rw [h6]; exact Int.emod_sub_cancel tmp size
    · have hle : tmp ≤ max := by omega
      refine ⟨tmp, ?_, ht, hle, fun _ => rfl, fun h => by omega, rfl⟩
      simp [wrapAbove, hgt]

theorem wrapBelow_spec (min max : Int) (size : Nat)
    (hsize : (size : Int) = max - min + 1) (h2 : 2 ≤ size) (hmax : isInt64 max) :
    ∀ (fuel : Nat) (tmp : Int), isInt64 tmp → tmp ≤ max → (min - tmp).toNat ≤ fuel →
      ∃ t, wrapBelow min size fuel tmp = some t ∧ isInt64 t ∧ min ≤ t ∧ t ≤ max ∧
        (min ≤ tmp → t = tmp) ∧ t % (size : Int) = tmp % (size : Int) := by
  intro fuel
  induction fuel with
  | zero =>
    intro tmp ht hm hf
    have hle : min ≤ tmp := by omega
    refine ⟨tmp, ?_, ht, hle, hm, fun _ => rfl, rfl⟩
    simp [wrapBelow, not_lt.mpr hle]
  | succ n ih =>
    intro tmp ht hm hf
    by_cases hlt : tmp < min
    · have hin : isInt64 (tmp + size) := by
        unfold isInt64 at *
        omega
      obtain ⟨t, h1, h2', h3, h4, _, h6⟩ := ih (tmp + size) hin (by omega) (by omega)
      refine ⟨t, ?_, h2', h3, h4, fun h => by omega, ?_⟩
      · simp [wrapBelow, hlt, toInt64_of_isInt64 hin, h1]
      · rw [h6]; exact Int.add_emod_self
    · have hle : min ≤ tmp := by omega
      refine ⟨tmp, ?_, ht, hle, hm, fun _ => rfl, rfl⟩
      simp [wrapBelow, hlt]


theorem config_stopAudioStream (s : Media) : (_stopAudioStream s).config = s.config := by
  unfold _stopAudioStream
  split_ifs <;> rfl

theorem currentFrame_stopAudioStream (s : Media) :
    (_stopAudioStream s).currentFrame = s.currentFrame := by
  unfold _stopAudioStream
  split_ifs <;> rfl

theorem playback_stopAudioStream (s : Media) :
    (_stopAudioStream s).playback = s.playback := by
  unfold _stopAudioStream
  split_ifs <;> rfl

theorem config_seek (s : Media) (v : Int) : (_seek s v).config = s.config := by
  unfold _seek
  split_ifs <;> simp [config_stopAudioStream] <;> rfl

theorem currentFrame_seek (s : Media) (v : Int) : (_seek s v).currentFrame = s.currentFrame := by
  unfold _seek
  split_ifs <;> simp [currentFrame_stopAudioStream]

theorem playback_seek (s : Media) (v : Int) : (_seek s v).playback = s.playback := by
  unfold _seek
  split_ifs <;> simp [playback_stopAudioStream]

theorem config_startAudioStream (deps : Deps) (s : Media) :
    (_startAudioStream deps s).config = s.config := by
  unfold _startAudioStream
  split_ifs <;> rfl

theorem currentFrame_startAudioStream (deps : Deps) (s : Media) :
    (_startAudioStream deps s).currentFrame = s.currentFrame := by
  unfold _startAudioStream
  split_ifs <;> rfl

theorem playback_startAudioStream (deps : Deps) (s : Media) :
    (_startAudioStream deps s).playback = s.playback := by
  unfold _startAudioStream
  split_ifs <;> rfl


theorem config_playbackUpdate (deps : Deps) (s : Media) :
    (_playbackUpdate deps s).config = s.config := by
  unfold _playbackUpdate
  dsimp only
  split_ifs <;> (try split) <;> (try split_ifs) <;>
    repeat (first
      | rfl
      | (refine (config_seek _ _).trans ?_)
      | (refine (config_stopAudioStream _).trans ?_)
      | (refine (config_startAudioStream _ _).trans ?_)
      | (change (_seek _ _).config = _)
      | (change (_stopAudioStream _).config = _)
      | (change (_startAudioStream _ _).config = _))

theorem currentFrame_playbackUpdate (deps : Deps) (s : Media) :
    (_playbackUpdate deps s).currentFrame = s.currentFrame := by
  unfold _playbackUpdate
  dsimp only
  split_ifs <;> (try split) <;> (try split_ifs) <;>
    repeat (first
      | rfl
      | (refine (currentFrame_seek _ _).trans ?_)
      | (refine (currentFrame_stopAudioStream _).trans ?_)
      | (refine (currentFrame_startAudioStream _ _).trans ?_)
      | (change (_seek _ _).currentFrame = _)
      | (change (_stopAudioStream _).currentFrame = _)
      | (change (_startAudioStream _ _).currentFrame = _))

theorem playback_playbackUpdate (deps : Deps) (s : Media) :
    (_playbackUpdate deps s).playback = s.playback := by
  unfold _playbackUpdate
  dsimp only
  split_ifs <;> (try split) <;> (try split_ifs) <;>
    repeat (first
      | rfl
      | (refine (playback_seek _ _).trans ?_)
      | (refine (playback_stopAudioStream _).trans ?_)
      | (refine (playback_startAudioStream _ _).trans ?_)
      | (change (_seek _ _).playback = _)
      | (change (_stopAudioStream _).playback = _)
      | (change (_startAudioStream _ _).playback = _))

theorem setPlaybackWith_stop (deps : Deps) (f : Int → Media → Option Media) (s : Media) :
    setPlaybackWith deps f .Stop s =
      some (if s.playback ≠ .Stop then _playbackUpdate deps { s with playback := .Stop } else s) := by
  unfold setPlaybackWith
  by_cases h : s.playback = .Stop <;> simp [h]

theorem setCurrentFrame_of_wrap (deps : Deps) (fuel : Nat) (v : Int) (flag : Bool) (s : Media)
    (tmp : Int) (h : wrapFrame (targetRange deps s flag) fuel v = some tmp) :
    ∃ t, setCurrentFrame deps fuel v flag s = some t ∧ t.currentFrame = tmp ∧
      t.config = s.config ∧ t.playback = (if tmp ≠ s.currentFrame then .Stop else s.playback) ∧
      (tmp = s.currentFrame → t = s) := by
  unfold setCurrentFrame
  simp only [h, Option.some_bind, setPlaybackWith_stop]
  by_cases hne : tmp = s.currentFrame
  · exact ⟨s, by simp [hne], hne.symm, rfl, by simp [hne], fun _ => rfl⟩
  · refine ⟨_, if_pos hne, ?_, ?_, ?_, ?_⟩
    · rw [currentFrame_seek]
      split_ifs
      · rw [currentFrame_playbackUpdate]
      · rfl
    · rw [config_seek]
      split_ifs
      · rw [config_playbackUpdate]; rfl
      · rfl
    · rw [playback_seek, if_pos (show tmp ≠ s.currentFrame from hne)]
      split_ifs with hp
      · rw [playback_playbackUpdate]
      · simpa using hp
    · intro h; exact absurd h hne

/-- C1. `Media::setCurrentFrame(v, inOutPoints)` on a target range `[min, max]` with
`max > min` returns (with enough fuel for its two loops) and stores as current frame
the unique `f` with `min ≤ f ≤ max` congruent to `v` modulo `max - min + 1`; a `v`
inside the range is stored unchanged. -/
theorem setCurrentFrame_wraps_into_range (deps : Deps) (s : Media) (v : Int) (flag : Bool)
    (hv : isInt64 v)
    (hmin : isInt64 (targetRange deps s flag).min)
    (hmax : isInt64 (targetRange deps s flag).max)
    (hlt : (targetRange deps s flag).min < (targetRange deps s flag).max) :
    ∃ fuel0, ∀ fuel, fuel0 ≤ fuel → ∃ t, setCurrentFrame deps fuel v flag s = some t ∧
      (targetRange deps s flag).min ≤ t.currentFrame ∧
      t.currentFrame ≤ (targetRange deps s flag).max ∧
      t.currentFrame % ((targetRange deps s flag).max - (targetRange deps s flag).min + 1)
        = v % ((targetRange deps s flag).max - (targetRange deps s flag).min + 1) ∧
      (∀ f, (targetRange deps s flag).min ≤ f → f ≤ (targetRange deps s flag).max →
        f % ((targetRange deps s flag).max - (targetRange deps s flag).min + 1)
          = v % ((targetRange deps s flag).max - (targetRange deps s flag).min + 1) →
        f = t.currentFrame) ∧
      ((targetRange deps s flag).min ≤ v → v ≤ (targetRange deps s flag).max →
        t.currentFrame = v) := by
  generalize hr : targetRange deps s flag = r at *
  obtain ⟨mn, mx⟩ := r
  simp only at hmin hmax hlt ⊢
  -- the wrapped value
  have key : ∃ fuel0, ∀ fuel, fuel0 ≤ fuel → ∃ tmp, wrapFrame ⟨mn, mx⟩ fuel v = some tmp ∧
      mn ≤ tmp ∧ tmp ≤ mx ∧ tmp % (mx - mn + 1) = v % (mx - mn + 1) ∧
      (mn ≤ v → v ≤ mx → tmp = v) := by
    by_cases hfull : mx - mn + 1 = 18446744073709551616
    · refine ⟨0, fun fuel _ => ⟨v, ?_, ?_, ?_, rfl, fun _ _ => rfl⟩⟩
      · simp [wrapFrame, toSizeT, hfull]
      · unfold isInt64 at *; omega
      · unfold isInt64 at *; omega
    · have hsz : ((toSizeT (mx - mn + 1) : Nat) : Int) = mx - mn + 1 := by
        unfold toSizeT isInt64 at *
        omega
      have h2 : 2 ≤ toSizeT (mx - mn + 1) := by omega
      refine ⟨(v - mx).toNat + (mn - v).toNat, fun fuel hf => ?_⟩
      obtain ⟨t1, e1, i1, le1, same1, ge1, m1⟩ :=
        wrapAbove_spec mn mx _ hsz h2 hmin fuel v hv (by omega)
      have hfuel2 : (mn - t1).toNat ≤ fuel := by
        by_cases hc : v ≤ mx
        · rw [same1 hc]; omega
        · have := ge1 (by omega); omega
      obtain ⟨t2, e2, _, ge2, le2, same2, m2⟩ :=
        wrapBelow_spec mn mx _ hsz h2 hmax fuel t1 i1 le1 hfuel2
      refine ⟨t2, ?_, ge2, le2, ?_, fun a b => ?_⟩
      · have : toSizeT (mx - mn + 1) > 1 := by omega
        simp [wrapFrame, this, e1, e2]
      · rw [← hsz, m2, m1]
      · rw [same2 (by rw [same1 b]; exact a), same1 b]
  obtain ⟨fuel0, hk⟩ := key
  refine ⟨fuel0, fun fuel hf => ?_⟩
  obtain ⟨tmp, hw, hge, hle, hmod, hin⟩ := hk fuel hf
  obtain ⟨t, ht, hcf, -, -, -⟩ := setCurrentFrame_of_wrap deps fuel v flag s tmp (by rw [hr]; exact hw)
  refine ⟨t, ht, by omega, by omega, by rw [hcf]; exact hmod, fun f hf1 hf2 hf3 => ?_,
    fun a b => by rw [hcf]; exact hin a b⟩
  rw [hcf]
  have hd : (f - tmp) % (mx - mn + 1) = 0 :=
    Int.emod_eq_emod_iff_emod_sub_eq_zero.mp (hf3.trans hmod.symm)
  have hdvd : (mx - mn + 1) ∣ (f - tmp) := Int.dvd_of_emod_eq_zero hd
  have := Int.eq_zero_of_abs_lt_dvd hdvd (by rw [abs_lt]; constructor <;> omega)
  omega

/-- Witness of C1: seeking to frame 23 of the ten-frame sequence `[0, 9]` stores frame 3. -/
theorem setCurrentFrame_wraps_into_range_witness :
    ∃ fuel0, ∀ fuel, fuel0 ≤ fuel →
      ∃ t, setCurrentFrame exampleDeps fuel 23 false exampleMedia = some t ∧
        t.currentFrame = 3 := by
  obtain ⟨fuel0, h⟩ := setCurrentFrame_wraps_into_range exampleDeps exampleMedia 23 false
    (by decide) (by decide) (by decide) (by decide)
  refine ⟨fuel0, fun fuel hf => ?_⟩
  obtain ⟨t, e, h1, h2, h3, -⟩ := h fuel hf
  refine ⟨t, e, ?_⟩
  have hr : targetRange exampleDeps exampleMedia false = ⟨0, 9⟩ := rfl
  rw [hr] at h1 h2 h3
  simp only at h1 h2 h3
  omega

theorem wrapFrame_inside (r : Range) (fuel : Nat) (x : Int) (h1 : r.min ≤ x) (h2 : x ≤ r.max) :
    wrapFrame r fuel x = some x := by
  have ha : wrapAbove r.max (toSizeT (r.max - r.min + 1)) fuel x = some x := by
    cases fuel <;> simp [wrapAbove, not_lt.mpr h2]
  have hb : wrapBelow r.min (toSizeT (r.max - r.min + 1)) fuel x = some x := by
    cases fuel <;> simp [wrapBelow, not_lt.mpr h1]
  unfold wrapFrame
  dsimp only
  split_ifs
  · rw [ha, Option.some_bind, hb]
  · rfl

theorem setPlayback_tail (deps : Deps) (d : Playback) (s : Media) (o : Option Media) (x : Int)
    (h : ∃ t1, o = some t1 ∧ t1.currentFrame = x ∧ t1.config = s.config) :
    ∃ t, (o.bind fun s1 =>
        if s1.playback ≠ d then some (_playbackUpdate deps { s1 with playback := d })
        else some s1) = some t ∧
      t.playback = d ∧ t.config = s.config ∧ t.currentFrame = x := by
  obtain ⟨t1, rfl, hx, hc⟩ := h
  rw [Option.some_bind]
  by_cases hp : t1.playback = d
  · exact ⟨t1, by simp [hp], hp, hc, hx⟩
  · refine ⟨_, if_pos hp, ?_, ?_, ?_⟩
    · rw [playback_playbackUpdate]
    · rw [config_playbackUpdate]; exact hc
    · rw [currentFrame_playbackUpdate]; exact hx

theorem setPlayback_spec (deps : Deps) (fuel : Nat) (d : Playback) (s : Media)
    (hd : d ≠ .Stop → (inOutRange deps s).min ≤
      (inOutRange deps s).max) :
    ∃ t, setPlayback deps fuel d s = some t ∧ t.playback = d ∧ t.config = s.config ∧
      t.currentFrame = restartFrame d s.playbackMode
        (inOutRange deps s) s.currentFrame := by
  have inside : ∀ x, (inOutRange deps s).min ≤ x →
      x ≤ (inOutRange deps s).max →
      ∃ t1, setCurrentFrame deps fuel x inOutPointsDefault s = some t1 ∧
        t1.currentFrame = x ∧ t1.config = s.config := by
    intro x h1 h2
    obtain ⟨t1, e, c, g, -, -⟩ := setCurrentFrame_of_wrap deps fuel x inOutPointsDefault s x
      (wrapFrame_inside _ fuel x h1 h2)
    exact ⟨t1, e, c, g⟩
  have keep : ∃ t1, some s = some t1 ∧ t1.currentFrame = s.currentFrame ∧ t1.config = s.config :=
    ⟨s, rfl, rfl, rfl⟩
  unfold setPlayback setPlaybackWith
  cases d
  · cases hm : s.playbackMode <;> exact setPlayback_tail deps _ s _ _ keep
  all_goals have h := hd (by simp)
  all_goals cases hm : s.playbackMode <;> dsimp only [restartFrame] <;> (try split_ifs) <;>
    first
      | exact setPlayback_tail deps _ s _ _ keep
      | exact setPlayback_tail deps _ s _ _ (inside _ le_rfl h)
      | exact setPlayback_tail deps _ s _ _ (inside _ h le_rfl)

theorem config_range (deps : Deps) {s t : Media} (h : t.config = s.config) :
    inOutRange deps t = inOutRange deps s ∧ t.playbackMode = s.playbackMode := by
  simp only [Media.config, Prod.mk.injEq] at h
  obtain ⟨-, -, -, -, h5, h6, h7, -⟩ := h
  unfold inOutRange
  rw [h5, h6, h7]
  exact ⟨rfl, rfl⟩

/-- C2. `Media::setPlayback(d)` for `d` Forward or Reverse, on an in/out range
`[min, max]` with `min ≤ max`, in every playback mode: it returns, the playback is
`d`, the in/out range is the same and the current frame lies in it; the frame is
restarted (Once, Loop) or clamped (PingPong) as the mode says, and a frame that needs
no correction is left unchanged. -/
theorem setPlayback_frame_in_range (deps : Deps) (fuel : Nat) (d : Playback) (s : Media)
    (hd : d = .Forward ∨ d = .Reverse)
    (h : (inOutRange deps s).min ≤ (inOutRange deps s).max) :
    ∃ t, setPlayback deps fuel d s = some t ∧ t.playback = d ∧
      inOutRange deps t = inOutRange deps s ∧
      (inOutRange deps s).min ≤ t.currentFrame ∧ t.currentFrame ≤ (inOutRange deps s).max ∧
      (s.playbackMode = .Once → d = .Forward →
        (s.currentFrame ≥ (inOutRange deps s).max ∨ s.currentFrame < (inOutRange deps s).min) →
        t.currentFrame = (inOutRange deps s).min) ∧
      (s.playbackMode = .Once → d = .Reverse →
        (s.currentFrame ≤ (inOutRange deps s).min ∨ s.currentFrame > (inOutRange deps s).max) →
        t.currentFrame = (inOutRange deps s).max) ∧
      (s.playbackMode = .Loop → d = .Forward →
        (s.currentFrame > (inOutRange deps s).max ∨ s.currentFrame < (inOutRange deps s).min) →
        t.currentFrame = (inOutRange deps s).min) ∧
      (s.playbackMode = .Loop → d = .Reverse →
        (s.currentFrame > (inOutRange deps s).max ∨ s.currentFrame < (inOutRange deps s).min) →
        t.currentFrame = (inOutRange deps s).max) ∧
      (s.playbackMode = .PingPong → s.currentFrame > (inOutRange deps s).max →
        t.currentFrame = (inOutRange deps s).max) ∧
      (s.playbackMode = .PingPong → s.currentFrame < (inOutRange deps s).min →
        t.currentFrame = (inOutRange deps s).min) ∧
      (s.playbackMode = .Once → d = .Forward →
        (inOutRange deps s).min ≤ s.currentFrame → s.currentFrame < (inOutRange deps s).max →
        t.currentFrame = s.currentFrame) ∧
      (s.playbackMode = .Once → d = .Reverse →
        (inOutRange deps s).min < s.currentFrame → s.currentFrame ≤ (inOutRange deps s).max →
        t.currentFrame = s.currentFrame) ∧
      (s.playbackMode ≠ .Once →
        (inOutRange deps s).min ≤ s.currentFrame → s.currentFrame ≤ (inOutRange deps s).max →
        t.currentFrame = s.currentFrame) := by
  obtain ⟨t, e, hp, hc, hf⟩ := setPlayback_spec deps fuel d s (fun _ => h)
  refine ⟨t, e, hp, (config_range deps hc).1, ?_⟩
  rw [hf]
  rcases hd with rfl | rfl <;> cases s.playbackMode <;> simp only [restartFrame] <;>
    refine ⟨?_, ?_, ?_, ?_, ?_, ?_, ?_, ?_, ?_, ?_, ?_⟩ <;> intros <;>
    simp_all <;> (try split_ifs) <;> omega

/-- Witness of C2: starting Reverse playback in Once mode from frame 1, below the in/out
range `[2, 6]`, restarts from frame 6. -/
theorem setPlayback_frame_in_range_witness :
    ∃ t, setPlayback exampleDeps 0 .Reverse { exampleMedia with currentFrame := 1 } = some t ∧
      t.playback = .Reverse ∧ t.currentFrame = 6 := by
  obtain ⟨t, e, p, -, -, -, -, h, -⟩ := setPlayback_frame_in_range exampleDeps 0 .Reverse
    { exampleMedia with currentFrame := 1 } (Or.inr rfl) (by decide)
  exact ⟨t, e, p, h rfl rfl (by decide)⟩

theorem setPlayback_stop_then (deps : Deps) (fuel : Nat) (d : Playback) (s : Media)
    (hd : d ≠ .Stop → (inOutRange deps s).min ≤ (inOutRange deps s).max) :
    ∃ t, (setPlayback deps fuel .Stop s).bind (setPlayback deps fuel d) = some t ∧
      t.playback = d ∧ t.config = s.config ∧
      t.currentFrame = restartFrame d s.playbackMode (inOutRange deps s) s.currentFrame := by
  obtain ⟨t1, e1, -, c1, f1⟩ := setPlayback_spec deps fuel .Stop s (fun h => absurd rfl h)
  have hr := config_range deps c1
  obtain ⟨t, e, p, c, f⟩ := setPlayback_spec deps fuel d t1 (by rw [hr.1]; exact hd)
  refine ⟨t, by rw [e1, Option.some_bind, e], p, c.trans c1, ?_⟩
  rw [f, hr.1, hr.2, f1]
  cases s.playbackMode <;> rfl

/-- C3. In `PlaybackMode::Loop` with in/out range `[min, max]`, `max > min`: a Forward
tick that moves the current frame to `v > max` ends, after `Media::_setCurrentFrame(v)`,
with playback Forward and the current frame `min`; a Reverse tick that moves it to
`v < min` ends with playback Reverse and the current frame `max`. -/
theorem _setCurrentFrame_loop_wraps (deps : Deps) (fuel : Nat) (v : Int) (s : Media)
    (hmode : s.playbackMode = .Loop)
    (hlt : (inOutRange deps s).min < (inOutRange deps s).max)
    (hv : v ≠ s.currentFrame) :
    (s.playback = .Forward → v > (inOutRange deps s).max →
      ∃ t, _setCurrentFrame deps fuel v s = some t ∧ t.playback = .Forward ∧
        t.currentFrame = (inOutRange deps s).min) ∧
    (s.playback = .Reverse → v < (inOutRange deps s).min →
      ∃ t, _setCurrentFrame deps fuel v s = some t ∧ t.playback = .Reverse ∧
        t.currentFrame = (inOutRange deps s).max) := by
  constructor
  · intro hp hgt
    obtain ⟨t, e, p, -, f⟩ := setPlayback_stop_then deps fuel .Forward
      { s with currentFrame := v } (fun _ => le_of_lt hlt)
    refine ⟨t, ?_, p, ?_⟩
    · unfold _setCurrentFrame
      simp only [hv, ne_eq, not_false_eq_true, if_true, hp, hmode]
      rw [if_pos (le_of_lt hgt)]
      simp only [hp, hmode] at e
      exact e
    · rw [f]
      show restartFrame .Forward s.playbackMode (inOutRange deps s) v = _
      rw [hmode]
      simp only [restartFrame]
      rw [if_pos (Or.inl hgt)]
  · intro hp hgt
    obtain ⟨t, e, p, -, f⟩ := setPlayback_stop_then deps fuel .Reverse
      { s with currentFrame := v } (fun _ => le_of_lt hlt)
    refine ⟨t, ?_, p, ?_⟩
    · unfold _setCurrentFrame
      simp only [hv, ne_eq, not_false_eq_true, if_true, hp, hmode]
      rw [if_pos (le_of_lt hgt)]
      simp only [hp, hmode] at e
      exact e
    · rw [f]
      show restartFrame .Reverse s.playbackMode (inOutRange deps s) v = _
      rw [hmode]
      simp only [restartFrame]
      rw [if_pos (Or.inl hgt)]

/-- Witness of C3: in Loop mode on `[2, 6]`, a Forward tick from frame 6 to frame 7 ends
on frame 2, playing Forward. -/
theorem _setCurrentFrame_loop_wraps_witness :
    ∃ t, _setCurrentFrame exampleDeps 0 7
        { exampleMedia with currentFrame := 6, playback := .Forward, playbackMode := .Loop }
        = some t ∧
      t.playback = .Forward ∧ t.currentFrame = 2 :=
  (_setCurrentFrame_loop_wraps exampleDeps 0 7
    { exampleMedia with currentFrame := 6, playback := .Forward, playbackMode := .Loop }
    rfl (by decide) (by decide)).1 rfl (by decide)

/-- C4. In `PlaybackMode::PingPong` with in/out range `[min, max]`: a Forward tick that
moves the current frame to a new value `v ≥ max` ends, after
`Media::_setCurrentFrame(v)`, with playback Reverse and the current frame exactly `max`;
a Reverse tick that moves it to a new value `v ≤ min` ends with playback Forward and
the current frame exactly `min`. -/
theorem _setCurrentFrame_pingPong_turns (deps : Deps) (fuel : Nat) (v : Int) (s : Media)
    (hmode : s.playbackMode = .PingPong)
    (hle : (inOutRange deps s).min ≤ (inOutRange deps s).max)
    (hv : v ≠ s.currentFrame) :
    (s.playback = .Forward → v ≥ (inOutRange deps s).max →
      ∃ t, _setCurrentFrame deps fuel v s = some t ∧ t.playback = .Reverse ∧
        t.currentFrame = (inOutRange deps s).max) ∧
    (s.playback = .Reverse → v ≤ (inOutRange deps s).min →
      ∃ t, _setCurrentFrame deps fuel v s = some t ∧ t.playback = .Forward ∧
        t.currentFrame = (inOutRange deps s).min) := by
  constructor
  · intro hp hge
    obtain ⟨t, e, p, -, f⟩ := setPlayback_stop_then deps fuel .Reverse
      { s with currentFrame := v } (fun _ => hle)
    refine ⟨t, ?_, p, ?_⟩
    · unfold _setCurrentFrame
      simp only [hv, ne_eq, not_false_eq_true, if_true, hp, hmode]
      rw [if_pos hge]
      simp only [hp, hmode] at e
      exact e
    · rw [f]
      show restartFrame .Reverse s.playbackMode (inOutRange deps s) v = _
      rw [hmode]
      simp only [restartFrame]
      split_ifs <;> omega
  · intro hp hge
    obtain ⟨t, e, p, -, f⟩ := setPlayback_stop_then deps fuel .Forward
      { s with currentFrame := v } (fun _ => hle)
    refine ⟨t, ?_, p, ?_⟩
    · unfold _setCurrentFrame
      simp only [hv, ne_eq, not_false_eq_true, if_true, hp, hmode]
      rw [if_pos hge]
      simp only [hp, hmode] at e
      exact e
    · rw [f]
      show restartFrame .Forward s.playbackMode (inOutRange deps s) v = _
      rw [hmode]
      simp only [restartFrame]
      split_ifs <;> omega

/-- Witness of C4: in PingPong mode on `[2, 6]`, a Forward tick from frame 5 to frame 8
ends on frame 6, playing Reverse. -/
theorem _setCurrentFrame_pingPong_turns_witness :
    ∃ t, _setCurrentFrame exampleDeps 0 8
        { exampleMedia with currentFrame := 5, playback := .Forward, playbackMode := .PingPong }
        = some t ∧
      t.playback = .Reverse ∧ t.currentFrame = 6 :=
  (_setCurrentFrame_pingPong_turns exampleDeps 0 8
    { exampleMedia with currentFrame := 5, playback := .Forward, playbackMode := .PingPong }
    rfl (by decide) (by decide)).1 rfl (by decide)

/-- C5. In `PlaybackMode::Once`: when a tick changes the current frame to `v ≥ max`
while playing Forward, or to `v ≤ min` while playing Reverse,
`Media::_setCurrentFrame(v)` leaves playback equal to Stop; for a `v` strictly inside
the limit of the direction (`v < max` Forward, `v > min` Reverse) playback is left
unchanged. -/
theorem _setCurrentFrame_once_stops (deps : Deps) (fuel : Nat) (v : Int) (s : Media)
    (hmode : s.playbackMode = .Once) :
    (s.playback = .Forward → v ≠ s.currentFrame → v ≥ (inOutRange deps s).max →
      ∃ t, _setCurrentFrame deps fuel v s = some t ∧ t.playback = .Stop) ∧
    (s.playback = .Reverse → v ≠ s.currentFrame → v ≤ (inOutRange deps s).min →
      ∃ t, _setCurrentFrame deps fuel v s = some t ∧ t.playback = .Stop) ∧
    (s.playback = .Forward → v < (inOutRange deps s).max →
      ∃ t, _setCurrentFrame deps fuel v s = some t ∧ t.playback = .Forward) ∧
    (s.playback = .Reverse → v > (inOutRange deps s).min →
      ∃ t, _setCurrentFrame deps fuel v s = some t ∧ t.playback = .Reverse) := by
  refine ⟨?_, ?_, ?_, ?_⟩
  · intro hp hv hge
    obtain ⟨t, e, p, -, -⟩ := setPlayback_spec deps fuel .Stop
      { s with currentFrame := v } (fun h => absurd rfl h)
    refine ⟨t, ?_, p⟩
    unfold _setCurrentFrame
    simp only [hv, ne_eq, not_false_eq_true, if_true, hp, hmode]
    rw [if_pos hge]
    simp only [hp, hmode] at e
    exact e
  · intro hp hv hge
    obtain ⟨t, e, p, -, -⟩ := setPlayback_spec deps fuel .Stop
      { s with currentFrame := v } (fun h => absurd rfl h)
    refine ⟨t, ?_, p⟩
    unfold _setCurrentFrame
    simp only [hv, ne_eq, not_false_eq_true, if_true, hp, hmode]
    rw [if_pos hge]
    simp only [hp, hmode] at e
    exact e
  · intro hp hlt
    unfold _setCurrentFrame
    by_cases hv : v = s.currentFrame
    · exact ⟨s, by simp [hv], hp⟩
    · refine ⟨{ s with currentFrame := v }, ?_, hp⟩
      simp only [hv, ne_eq, not_false_eq_true, if_true, hp]
      rw [if_neg (not_le.mpr hlt)]
  · intro hp hlt
    unfold _setCurrentFrame
    by_cases hv : v = s.currentFrame
    · exact ⟨s, by simp [hv], hp⟩
    · refine ⟨{ s with currentFrame := v }, ?_, hp⟩
      simp only [hv, ne_eq, not_false_eq_true, if_true, hp]
      rw [if_neg (not_le.mpr hlt)]


/-- Witness of C5: in Once mode on `[2, 6]`, a Forward tick from frame 5 to frame 6
stops playback. -/
theorem _setCurrentFrame_once_stops_witness :
    ∃ t, _setCurrentFrame exampleDeps 0 6
        { exampleMedia with currentFrame := 5, playback := .Forward } = some t ∧
      t.playback = .Stop :=
  (_setCurrentFrame_once_stops exampleDeps 0 6
    { exampleMedia with currentFrame := 5, playback := .Forward } rfl).1
    rfl (by decide) (by decide)

/-- C6. `Media::_playbackTick` selects the frame clock by cases.  (a) The audio clock is
selected exactly when audio is available, `speed == defaultSpeed`, play-every-frame is
off and playback is Forward: the tick then is `_setCurrentFrame` of
`frameOffset + scale(audioDataSamplesCount)`, which the code skips while no sample has
been consumed (then the frame is left as it is, which is the same thing when the
current frame is `frameOffset` and zero samples rescale to zero frames).  (b) Otherwise,
with play-every-frame off, the tick is `_setCurrentFrame` of `frameOffset + e`
(Forward) or `frameOffset - e` (Reverse), `e` the elapsed frames of the wall clock.
(c) With play-every-frame on, or playback Stop, the tick changes nothing.  The audio
clock is never selected for Reverse playback. -/
theorem _playbackTick_clock (deps : Deps) (fuel : Nat) (s : Media) :
    (_hasAudioSyncPlayback s = true ↔
      (_hasAudio s = true ∧ s.speed = s.defaultSpeed ∧ s.playEveryFrame = false ∧
        s.playback = .Forward)) ∧
    (_hasAudioSyncPlayback s = true → s.audioDataSamplesCount ≠ 0 →
      _playbackTick deps fuel s = _setCurrentFrame deps fuel
        (s.frameOffset +
          deps.timeScale s.audioDataSamplesCount ⟨1, s.sampleRate⟩ s.speed.swap) s) ∧
    (_hasAudioSyncPlayback s = true → s.audioDataSamplesCount = 0 →
      _playbackTick deps fuel s = some s ∧
      (s.currentFrame = s.frameOffset →
        deps.timeScale 0 ⟨1, s.sampleRate⟩ s.speed.swap = 0 →
        _playbackTick deps fuel s = _setCurrentFrame deps fuel
          (s.frameOffset +
            deps.timeScale s.audioDataSamplesCount ⟨1, s.sampleRate⟩ s.speed.swap) s)) ∧
    (_hasAudioSyncPlayback s = false → s.playEveryFrame = false → s.playback = .Forward →
      _playbackTick deps fuel s = _setCurrentFrame deps fuel
        (s.frameOffset + deps.elapsedFrames s.currentTime s.speed) s) ∧
    (_hasAudioSyncPlayback s = false → s.playEveryFrame = false → s.playback = .Reverse →
      _playbackTick deps fuel s = _setCurrentFrame deps fuel
        (s.frameOffset - deps.elapsedFrames s.currentTime s.speed) s) ∧
    (s.playEveryFrame = true ∨ s.playback = .Stop → _playbackTick deps fuel s = some s) ∧
    (s.playback = .Reverse → _hasAudioSyncPlayback s = false) := by
  have hsync : _hasAudioSyncPlayback s = true ↔
      (_hasAudio s = true ∧ s.speed = s.defaultSpeed ∧ s.playEveryFrame = false ∧
        s.playback = .Forward) := by
    simp only [_hasAudioSyncPlayback, _isAudioEnabled, Bool.and_eq_true, decide_eq_true_eq,
      Bool.not_eq_true']
    constructor
    · rintro ⟨⟨⟨h1, h2⟩, h3⟩, h4⟩
      exact ⟨h1, h2, h3, h4.symm⟩
    · rintro ⟨h1, h2, h3, h4⟩
      exact ⟨⟨⟨h1, h2⟩, h3⟩, h4.symm⟩
  refine ⟨hsync, ?_, ?_, ?_, ?_, ?_, ?_⟩
  · intro h hc
    have hp : s.playback = .Forward := (hsync.mp h).2.2.2
    unfold _playbackTick
    rw [hp]
    simp only [h, if_true, hc, ne_eq, not_false_eq_true]
  · intro h hc
    have hp : s.playback = .Forward := (hsync.mp h).2.2.2
    have hstay : _playbackTick deps fuel s = some s := by
      unfold _playbackTick
      rw [hp]
      simp only [h, if_true, hc, ne_eq, not_true_eq_false, if_false]
    refine ⟨hstay, fun hcf hz => ?_⟩
    rw [hstay, hc, hz]
    unfold _setCurrentFrame
    simp [hcf]
  · intro h he hp
    unfold _playbackTick
    rw [hp]
    simp only [h, he, Bool.false_eq_true, if_false]
  · intro h he hp
    unfold _playbackTick
    rw [hp]
    simp only [h, he, Bool.false_eq_true, if_false]
  · rintro (he | hp)
    · have hn : _hasAudioSyncPlayback s = false := by
        simp [_hasAudioSyncPlayback, _isAudioEnabled, he]
      unfold _playbackTick
      cases s.playback <;> simp only [hn, he, Bool.false_eq_true, if_false, if_true]
    · unfold _playbackTick
      rw [hp]
  · intro hp
    simp [_hasAudioSyncPlayback, hp]

/-- Witness of C6: with audio-sync playback and one second of samples consumed, the
tick sets the frame of the audio clock. -/
theorem _playbackTick_clock_witness :
    _playbackTick exampleDeps 0 exampleSync =
      _setCurrentFrame exampleDeps 0
        (exampleSync.frameOffset +
          exampleDeps.timeScale exampleSync.audioDataSamplesCount ⟨1, exampleSync.sampleRate⟩
            exampleSync.speed.swap) exampleSync ∧
      exampleSync.frameOffset +
          exampleDeps.timeScale exampleSync.audioDataSamplesCount ⟨1, exampleSync.sampleRate⟩
            exampleSync.speed.swap = 24 :=
  ⟨(_playbackTick_clock exampleDeps 0 exampleSync).2.1 rfl (by decide), by decide⟩

/-! ## The realtime audio callback: lemmas and claims -/

theorem queuedSamples_append (a b : List AudioFrame) :
    queuedSamples (a ++ b) = queuedSamples a ++ queuedSamples b := by
  induction a with
  | nil => rfl
  | cons f a ih => simp [queuedSamples, ih]

theorem popAudioFrames_spec (n : Nat) :
    ∀ (q : List AudioFrame) (sc : Nat) (acc : List AudioFrame),
      sc + (queuedSamples q).length < 18446744073709551616 →
      ∃ popped, (popAudioFrames n q sc acc).2.2 = acc ++ popped ∧
        q = popped ++ (popAudioFrames n q sc acc).1 ∧
        ((popAudioFrames n q sc acc).1 ≠ [] → n ≤ sc + (queuedSamples popped).length) ∧
        (∀ p f rest, popped = p ++ f :: rest → sc + (queuedSamples p).length < n) := by
  intro q
  induction q with
  | nil =>
    intro sc acc _
    refine ⟨[], by simp [popAudioFrames], by simp [popAudioFrames], by simp [popAudioFrames], ?_⟩
    intro p f rest h
    simp at h
  | cons f q ih =>
    intro sc acc hb
    simp only [queuedSamples, List.length_append] at hb
    by_cases hlt : sc < n
    · have hmod : (sc + f.data.length) % 18446744073709551616 = sc + f.data.length := by omega
      obtain ⟨popped, h1, h2, h3, h4⟩ := ih (sc + f.data.length) (acc ++ [f]) (by omega)
      refine ⟨f :: popped, ?_, ?_, ?_, ?_⟩
      · simp only [popAudioFrames, hlt, if_true, hmod, h1]
        simp
      · simp only [popAudioFrames, hlt, if_true, hmod]
        rw [List.cons_append, ← h2]
      · simp only [popAudioFrames, hlt, if_true, hmod, queuedSamples, List.length_append]
        intro hne
        have := h3 hne
        omega
      · intro p g rest hp
        cases p with
        | nil => simpa [queuedSamples] using hlt
        | cons x p =>
          simp only [List.cons_append, List.cons.injEq] at hp
          obtain ⟨rfl, hp⟩ := hp
          have := h4 p g rest hp
          simp only [queuedSamples, List.length_append]
          omega
    · refine ⟨[], ?_, ?_, ?_, ?_⟩
      · simp [popAudioFrames, hlt]
      · simp [popAudioFrames, hlt]
      · intro _
        simp only [queuedSamples, List.length_nil]
        omega
      · intro p g rest h
        simp at h

theorem processFrames_spec (deps : Deps) (vol : Int) :
    ∀ (frames : List AudioFrame) (m : Media) (out : List Int) (osc : Nat),
      (processFrames deps vol frames (m, out, osc)).2.1 =
          out ++ ((queuedSamples frames).take osc).map (deps.audioVolume vol) ∧
        (processFrames deps vol frames (m, out, osc)).1.audioDataSamplesCount
            % 18446744073709551616 =
          (m.audioDataSamplesCount + min osc (queuedSamples frames).length)
            % 18446744073709551616 ∧
        (m.audioDataSamplesCount + min osc (queuedSamples frames).length
            < 18446744073709551616 →
          (processFrames deps vol frames (m, out, osc)).1.audioDataSamplesCount =
            m.audioDataSamplesCount + min osc (queuedSamples frames).length) ∧
        (processFrames deps vol frames (m, out, osc)).1.audioQueue = m.audioQueue ∧
        (processFrames deps vol frames (m, out, osc)).1.mute = m.mute ∧
        (processFrames deps vol frames (m, out, osc)).1.volume = m.volume ∧
        (frames = [] → (processFrames deps vol frames (m, out, osc)).1 = m) ∧
        (∀ init last, frames = init ++ [last] →
          (processFrames deps vol frames (m, out, osc)).1.audioData = some last.data ∧
          (processFrames deps vol frames (m, out, osc)).1.audioDataSamplesOffset =
            min last.data.length (osc - (queuedSamples init).length)) := by
  intro frames
  induction frames with
  | nil =>
    intro m out osc
    refine ⟨by simp [processFrames, queuedSamples], by simp [processFrames, queuedSamples],
      by simp [processFrames, queuedSamples], rfl, rfl, rfl, fun _ => rfl, ?_⟩
    intro init last h
    simp at h
  | cons i frames ih =>
    intro m out osc
    simp only [processFrames]
    obtain ⟨h1, h2, h3, h4, h5, h6, h7, h8⟩ := ih
      { m with
        audioData := some i.data
        audioDataSamplesOffset := min i.data.length osc
        audioDataSamplesCount :=
          (m.audioDataSamplesCount + min i.data.length osc) % 18446744073709551616 }
      (out ++ (i.data.take (min i.data.length osc)).map (deps.audioVolume vol))
      (osc - min i.data.length osc)
    refine ⟨?_, ?_, ?_, h4, h5, h6, fun h => by simp at h, ?_⟩
    · rw [h1]
      have e1 : List.take (min i.data.length osc) i.data = List.take osc i.data := by
        rw [List.take_eq_take]; omega
      have e2 : osc - min i.data.length osc = osc - i.data.length := by omega
      rw [e1, e2]
      simp only [queuedSamples, List.take_append_eq_append_take, List.map_append,
        List.append_assoc]
    · rw [h2]
      simp only [queuedSamples, List.length_append]
      omega
    · intro hb
      simp only [queuedSamples, List.length_append] at hb ⊢
      have hb1 : (m.audioDataSamplesCount + min i.data.length osc) % 18446744073709551616
          = m.audioDataSamplesCount + min i.data.length osc := by omega
      rw [h3 (by simp only; omega)]
      simp only
      omega
    · intro init last hfr
      cases init with
      | nil =>
        simp only [List.nil_append, List.cons.injEq] at hfr
        obtain ⟨rfl, rfl⟩ := hfr
        rw [h7 rfl]
        simp [queuedSamples]
      | cons x init =>
        simp only [List.cons_append, List.cons.injEq] at hfr
        obtain ⟨rfl, rfl⟩ := hfr
        obtain ⟨e1, e2⟩ := h8 init last rfl
        refine ⟨e1, ?_⟩
        rw [e2]
        simp only [queuedSamples, List.length_append]
        omega

theorem processFrames_pending (deps : Deps) (vol : Int) (popped rest : List AudioFrame)
    (m : Media) (out : List Int) (osc : Nat)
    (hpre : ∀ p f r, popped = p ++ f :: r → (queuedSamples p).length < osc)
    (hstop : rest ≠ [] → osc ≤ (queuedSamples popped).length)
    (hm : m.audioData = none) (hq : m.audioQueue = rest) :
    (processFrames deps vol popped (m, out, osc)).2.1 =
        out ++ ((queuedSamples popped ++ queuedSamples rest).take osc).map
          (deps.audioVolume vol) ∧
      pendingSamples (processFrames deps vol popped (m, out, osc)).1 =
        (queuedSamples popped ++ queuedSamples rest).drop osc ∧
      (∀ d, (processFrames deps vol popped (m, out, osc)).1.audioData = some d →
        (processFrames deps vol popped (m, out, osc)).1.audioDataSamplesOffset ≤ d.length) ∧
      min osc (queuedSamples popped).length =
        min osc (queuedSamples popped ++ queuedSamples rest).length ∧
      heldSamples (processFrames deps vol popped (m, out, osc)).1 ≤
        (queuedSamples popped).length + (queuedSamples rest).length := by
  obtain ⟨h1, -, -, h4, -, -, h7, h8⟩ := processFrames_spec deps vol popped m out osc
  have hrest : rest = [] ∨ osc ≤ (queuedSamples popped).length := by
    by_cases hr : rest = []
    · exact Or.inl hr
    · exact Or.inr (hstop hr)
  have htake : (queuedSamples popped ++ queuedSamples rest).take osc =
      (queuedSamples popped).take osc := by
    rcases hrest with hr | hr
    · simp [hr, queuedSamples]
    · rw [List.take_append_eq_append_take]
      simp [Nat.sub_eq_zero_of_le hr]
  have hmin : min osc (queuedSamples popped).length =
      min osc (queuedSamples popped ++ queuedSamples rest).length := by
    rcases hrest with hr | hr
    · simp [hr, queuedSamples]
    · rw [List.length_append]; omega
  refine ⟨by rw [h1, htake], ?_, ?_, hmin, ?_⟩
  rotate_left 2
  · rcases List.eq_nil_or_concat popped with hp | ⟨init, last, hp⟩
    · subst hp
      rw [h7 rfl]
      simp [heldSamples, hm, hq]
    · rw [List.concat_eq_append] at hp
      subst hp
      obtain ⟨e1, -⟩ := h8 init last rfl
      simp only [heldSamples, e1, h4, hq, queuedSamples_append, queuedSamples,
        List.append_nil, List.length_append]
      omega
  · rcases List.eq_nil_or_concat popped with hp | ⟨init, last, hp⟩
    · subst hp
      rw [h7 rfl]
      simp only [pendingSamples, leftoverSamples, hm, hq, queuedSamples, List.nil_append]
      rcases hrest with hr | hr
      · simp [hr, queuedSamples]
      · simp only [queuedSamples, List.length_nil, Nat.le_zero] at hr
        simp [hr]
    · rw [List.concat_eq_append] at hp
      subst hp
      obtain ⟨e1, e2⟩ := h8 init last rfl
      have hlt := hpre init last [] rfl
      simp only [pendingSamples, leftoverSamples, e1, e2, h4, hq, queuedSamples_append,
        queuedSamples, List.append_nil, List.append_assoc]
      rw [List.drop_append_eq_append_drop, List.drop_of_length_le (le_of_lt hlt),
        List.nil_append, List.drop_append_eq_append_drop]
      by_cases hk : osc - (queuedSamples init).length ≤ last.data.length
      · rw [Nat.min_eq_right hk, Nat.sub_eq_zero_of_le hk, List.drop_zero]
      · have hk' : last.data.length ≤ osc - (queuedSamples init).length := by omega
        rw [Nat.min_eq_left hk', List.drop_of_length_le le_rfl, List.drop_of_length_le hk']
        rcases hrest with hr | hr
        · simp [hr, queuedSamples]
        · simp only [queuedSamples_append, queuedSamples, List.append_nil,
            List.length_append] at hr
          omega
  · intro d hd
    rcases List.eq_nil_or_concat popped with hp | ⟨init, last, hp⟩
    · subst hp
      rw [h7 rfl, hm] at hd
      cases hd
    · rw [List.concat_eq_append] at hp
      subst hp
      obtain ⟨e1, e2⟩ := h8 init last rfl
      rw [e1] at hd
      cases hd
      rw [e2]
      exact Nat.min_le_left _ _

theorem _rtAudioCallback_none (deps : Deps) (n : Nat) (s : Media) (hd : s.audioData = none) :
    _rtAudioCallback deps n s =
      ((processFrames deps (if !s.mute then s.volume else 0)
          (popAudioFrames n s.audioQueue 0 []).2.2
          ({ s with audioQueue := (popAudioFrames n s.audioQueue 0 []).1 }, [], n)).1,
        (processFrames deps (if !s.mute then s.volume else 0)
          (popAudioFrames n s.audioQueue 0 []).2.2
          ({ s with audioQueue := (popAudioFrames n s.audioQueue 0 []).1 }, [], n)).2.1 ++
        List.replicate (toSizeT ((n : Int) -
          (processFrames deps (if !s.mute then s.volume else 0)
            (popAudioFrames n s.audioQueue 0 []).2.2
            ({ s with audioQueue := (popAudioFrames n s.audioQueue 0 []).1 }, [], n)).2.1.length))
          0) := by
  unfold _rtAudioCallback
  simp only [hd]

theorem _rtAudioCallback_some (deps : Deps) (n : Nat) (s : Media) (d : List Int)
    (hd : s.audioData = some d) (m : Media)
    (hm : m = if (s.audioDataSamplesOffset + min (toSizeT ((d.length : Int) - s.audioDataSamplesOffset)) n) % 18446744073709551616 ≥ d.length then
        { s with
            audioQueue := (popAudioFrames n s.audioQueue (toSizeT ((d.length : Int) - s.audioDataSamplesOffset)) []).1
            audioData := none
            audioDataSamplesOffset := 0
            audioDataSamplesCount :=
              (s.audioDataSamplesCount + min (toSizeT ((d.length : Int) - s.audioDataSamplesOffset)) n) % 18446744073709551616 }
      else
        { s with
            audioQueue := (popAudioFrames n s.audioQueue (toSizeT ((d.length : Int) - s.audioDataSamplesOffset)) []).1
            audioDataSamplesOffset :=
              (s.audioDataSamplesOffset + min (toSizeT ((d.length : Int) - s.audioDataSamplesOffset)) n) % 18446744073709551616
            audioDataSamplesCount :=
              (s.audioDataSamplesCount + min (toSizeT ((d.length : Int) - s.audioDataSamplesOffset)) n) % 18446744073709551616 }) :
    _rtAudioCallback deps n s =
      ((processFrames deps (if !s.mute then s.volume else 0) (popAudioFrames n s.audioQueue (toSizeT ((d.length : Int) - s.audioDataSamplesOffset)) []).2.2
          (m, ((d.drop s.audioDataSamplesOffset).take (min (toSizeT ((d.length : Int) - s.audioDataSamplesOffset)) n)).map
              (deps.audioVolume (if !s.mute then s.volume else 0)), n - min (toSizeT ((d.length : Int) - s.audioDataSamplesOffset)) n)).1,
        (processFrames deps (if !s.mute then s.volume else 0) (popAudioFrames n s.audioQueue (toSizeT ((d.length : Int) - s.audioDataSamplesOffset)) []).2.2
          (m, ((d.drop s.audioDataSamplesOffset).take (min (toSizeT ((d.length : Int) - s.audioDataSamplesOffset)) n)).map
              (deps.audioVolume (if !s.mute then s.volume else 0)), n - min (toSizeT ((d.length : Int) - s.audioDataSamplesOffset)) n)).2.1 ++
        List.replicate (toSizeT ((n : Int) -
          (processFrames deps (if !s.mute then s.volume else 0) (popAudioFrames n s.audioQueue (toSizeT ((d.length : Int) - s.audioDataSamplesOffset)) []).2.2
            (m, ((d.drop s.audioDataSamplesOffset).take (min (toSizeT ((d.length : Int) - s.audioDataSamplesOffset)) n)).map
                (deps.audioVolume (if !s.mute then s.volume else 0)), n - min (toSizeT ((d.length : Int) - s.audioDataSamplesOffset)) n)).2.1.length))
          0) := by
  subst hm
  unfold _rtAudioCallback
  simp only [hd]

theorem toSizeT_sub (a b : Nat) (hb : b ≤ a) (h : a < 18446744073709551616) :
    toSizeT ((a : Int) - (b : Int)) = a - b := by
  unfold toSizeT
  omega

theorem _rtAudioCallback_spec (deps : Deps) (n : Nat) (s : Media)
    (hoff : ∀ d, s.audioData = some d → s.audioDataSamplesOffset ≤ d.length)
    (hmem : heldSamples s < 18446744073709551616) (hn : n < 18446744073709551616) :
    ∃ popped,
      s.audioQueue = popped ++ (_rtAudioCallback deps n s).1.audioQueue ∧
      (∀ p f r, popped = p ++ f :: r →
        (leftoverSamples s).length + (queuedSamples p).length < n) ∧
      (_rtAudioCallback deps n s).2 =
        ((pendingSamples s).take n).map (callbackVolume deps s) ++
          List.replicate (n - (pendingSamples s).length) 0 ∧
      pendingSamples (_rtAudioCallback deps n s).1 = (pendingSamples s).drop n ∧
      min n (pendingSamples s).length =
        min n ((leftoverSamples s).length + (queuedSamples popped).length) ∧
      (_rtAudioCallback deps n s).1.audioDataSamplesCount % 18446744073709551616 =
        (s.audioDataSamplesCount + min n (pendingSamples s).length) % 18446744073709551616 ∧
      (s.audioDataSamplesCount + min n (pendingSamples s).length < 18446744073709551616 →
        (_rtAudioCallback deps n s).1.audioDataSamplesCount =
          s.audioDataSamplesCount + min n (pendingSamples s).length) ∧
      (∀ d, (_rtAudioCallback deps n s).1.audioData = some d →
        (_rtAudioCallback deps n s).1.audioDataSamplesOffset ≤ d.length) ∧
      (_rtAudioCallback deps n s).1.mute = s.mute ∧
      (_rtAudioCallback deps n s).1.volume = s.volume ∧
      heldSamples (_rtAudioCallback deps n s).1 ≤ heldSamples s ∧
      (∀ init last, popped = init ++ [last] →
        (_rtAudioCallback deps n s).1.audioData = some last.data) := by
  rcases hd : s.audioData with _ | d
  · -- no leftover frame
    have hL : leftoverSamples s = [] := by simp [leftoverSamples, hd]
    have hH : heldSamples s = (queuedSamples s.audioQueue).length := by simp [heldSamples, hd]
    obtain ⟨popped, p1, p2, p3, p4⟩ := popAudioFrames_spec n s.audioQueue 0 [] (by omega)
    rw [_rtAudioCallback_none deps n s hd]
    generalize hrest : (popAudioFrames n s.audioQueue 0 []).1 = rest at *
    rw [p1, List.nil_append]
    obtain ⟨q1, q2, q3, q4, q5⟩ := processFrames_pending deps (if !s.mute then s.volume else 0)
      popped rest { s with audioQueue := rest } [] n
      (fun p f r h => by simpa using p4 p f r h)
      (fun h => by simpa using p3 h) hd rfl
    obtain ⟨-, r2, r3, r4, r5, r6, -, r8⟩ := processFrames_spec deps
      (if !s.mute then s.volume else 0) popped { s with audioQueue := rest } [] n
    have hP : pendingSamples s = queuedSamples popped ++ queuedSamples rest := by
      simp only [pendingSamples, hL, List.nil_append]
      rw [p2, queuedSamples_append]
    refine ⟨popped, ?_, ?_, ?_, ?_, ?_, ?_, ?_, q3, r5, r6, ?_, ?_⟩
    · simp only [r4]; exact p2
    · intro p f r h
      simpa [hL] using p4 p f r h
    · simp only [q1, List.nil_append, hP, callbackVolume]
      congr 1
      rw [List.length_map, List.length_take, toSizeT_sub _ _ (Nat.min_le_left _ _) hn]
      congr 1
      omega
    · simp only [q2, hP]
    · rw [hP, hL, ← q4]; simp
    · rw [hP, ← q4]; exact r2
    · rw [hP, ← q4]; exact r3
    · have hq : (queuedSamples s.audioQueue).length =
          (queuedSamples popped).length + (queuedSamples rest).length := by
        rw [p2, queuedSamples_append, List.length_append]
      rw [hH, hq]
      exact q5
    · intro init last h
      exact (r8 init last h).1
  · -- a leftover frame `d`
    have ho := hoff d hd
    have hH : heldSamples s = d.length + (queuedSamples s.audioQueue).length := by
      simp [heldSamples, hd]
    have hL : leftoverSamples s = d.drop s.audioDataSamplesOffset := by
      simp [leftoverSamples, hd]
    have hLl : (leftoverSamples s).length = d.length - s.audioDataSamplesOffset := by
      rw [hL, List.length_drop]
    have hT : toSizeT ((d.length : Int) - s.audioDataSamplesOffset) =
        d.length - s.audioDataSamplesOffset := toSizeT_sub _ _ ho (by omega)
    obtain ⟨popped, p1, p2, p3, p4⟩ := popAudioFrames_spec n s.audioQueue
      (d.length - s.audioDataSamplesOffset) [] (by omega)
    have key := _rtAudioCallback_some deps n s d hd _ rfl
    rw [hT] at key
    rw [key]
    clear key
    generalize hrest : (popAudioFrames n s.audioQueue
      (d.length - s.audioDataSamplesOffset) []).1 = rest at *
    rw [p1, List.nil_append]
    have hPq : queuedSamples s.audioQueue = queuedSamples popped ++ queuedSamples rest := by
      rw [p2, queuedSamples_append]
    have hP : pendingSamples s =
        d.drop s.audioDataSamplesOffset ++ (queuedSamples popped ++ queuedSamples rest) := by
      simp only [pendingSamples, hL, hPq]
    by_cases hLn : d.length - s.audioDataSamplesOffset ≤ n
    · -- the leftover frame is used up
      have hsz : min (d.length - s.audioDataSamplesOffset) n =
          d.length - s.audioDataSamplesOffset := Nat.min_eq_left hLn
      have hreset : (s.audioDataSamplesOffset + (d.length - s.audioDataSamplesOffset))
          % 18446744073709551616 ≥ d.length := by omega
      have htk : (d.drop s.audioDataSamplesOffset).take (d.length - s.audioDataSamplesOffset)
          = d.drop s.audioDataSamplesOffset :=
        List.take_of_length_le (by rw [List.length_drop])
      simp only [hsz, if_pos hreset, htk]
      generalize hm : ({ s with
          audioQueue := rest
          audioData := none
          audioDataSamplesOffset := 0
          audioDataSamplesCount :=
            (s.audioDataSamplesCount + (d.length - s.audioDataSamplesOffset))
              % 18446744073709551616 } : Media) = m
      have hm1 : m.audioData = none := by rw [← hm]
      have hm2 : m.audioQueue = rest := by rw [← hm]
      have hm3 : m.audioDataSamplesCount =
          (s.audioDataSamplesCount + (d.length - s.audioDataSamplesOffset))
            % 18446744073709551616 := by rw [← hm]
      have hm4 : m.mute = s.mute := by rw [← hm]
      have hm5 : m.volume = s.volume := by rw [← hm]
      obtain ⟨q1, q2, q3, q4, q5⟩ := processFrames_pending deps
        (if !s.mute then s.volume else 0) popped rest m
        ((d.drop s.audioDataSamplesOffset).map
          (deps.audioVolume (if !s.mute then s.volume else 0)))
        (n - (d.length - s.audioDataSamplesOffset))
        (fun p f r h => by have := p4 p f r h; omega)
        (fun h => by have := p3 h; omega) hm1 hm2
      obtain ⟨-, r2, r3, r4, r5, r6, -, r8⟩ := processFrames_spec deps
        (if !s.mute then s.volume else 0) popped m
        ((d.drop s.audioDataSamplesOffset).map
          (deps.audioVolume (if !s.mute then s.volume else 0)))
        (n - (d.length - s.audioDataSamplesOffset))
      have hmin : min n (pendingSamples s).length =
          (d.length - s.audioDataSamplesOffset) +
            min (n - (d.length - s.audioDataSamplesOffset))
              (queuedSamples popped ++ queuedSamples rest).length := by
        rw [hP, List.length_append, List.length_drop]
        omega
      refine ⟨popped, ?_, ?_, ?_, ?_, ?_, ?_, ?_, q3, ?_, ?_, ?_, ?_⟩
      · simp only [r4, hm2]; exact p2
      · intro p f r h
        rw [hLl]
        exact p4 p f r h
      · have e1 : List.take n (d.drop s.audioDataSamplesOffset ++
            (queuedSamples popped ++ queuedSamples rest)) =
            d.drop s.audioDataSamplesOffset ++
              List.take (n - (d.length - s.audioDataSamplesOffset))
                (queuedSamples popped ++ queuedSamples rest) := by
          rw [List.take_append_eq_append_take, List.take_of_length_le
            (by rw [List.length_drop]; exact hLn), List.length_drop]
        rw [q1, hP, ← List.map_append, ← e1]
        simp only [callbackVolume]
        congr 1
        rw [List.length_map, List.length_take, toSizeT_sub _ _ (Nat.min_le_left _ _) hn]
        congr 1
        omega
      · rw [q2, hP]
        conv_rhs =>
          rw [List.drop_append_eq_append_drop, List.length_drop,
            List.drop_of_length_le (by rw [List.length_drop]; exact hLn), List.nil_append]
      · rw [hmin, hLl, ← q4]
        omega
      · rw [r2, hm3, hmin, ← q4]
        omega
      · intro hb
        rw [hmin, ← q4] at hb ⊢
        rw [r3 (by rw [hm3]; omega), hm3]
        omega
      · rw [r5, hm4]
      · rw [r6, hm5]
      · rw [hH, hPq, List.length_append]
        omega
      · intro init last h
        exact (r8 init last h).1
    · -- the leftover frame alone fills the buffer
      have hgt : n < d.length - s.audioDataSamplesOffset := by omega
      have hsz : min (d.length - s.audioDataSamplesOffset) n = n := Nat.min_eq_right (by omega)
      have hkeep : ¬ (s.audioDataSamplesOffset + n) % 18446744073709551616 ≥ d.length := by
        omega
      have hpop : popped = [] := by
        cases popped with
        | nil => rfl
        | cons f r =>
          have := p4 [] f r rfl
          simp only [queuedSamples, List.length_nil] at this
          omega
      subst hpop
      simp only [List.nil_append] at p2
      subst p2
      simp only [hsz, if_neg hkeep, processFrames]
      have hmod : (s.audioDataSamplesOffset + n) % 18446744073709551616 =
          s.audioDataSamplesOffset + n := by omega
      have htake : List.take n (pendingSamples s) =
          List.take n (d.drop s.audioDataSamplesOffset) := by
        rw [hP, List.take_append_eq_append_take, List.length_drop,
          Nat.sub_eq_zero_of_le (le_of_lt hgt)]
        simp
      have hlen : n ≤ (pendingSamples s).length := by
        rw [hP, List.length_append, List.length_drop]
        omega
      refine ⟨[], rfl, ?_, ?_, ?_, ?_, ?_, ?_, ?_, trivial, trivial, ?_, ?_⟩
      · intro p f r h
        simp at h
      · simp only [callbackVolume, htake, Nat.sub_eq_zero_of_le hlen]
        congr 1
        rw [List.length_map, List.length_take, List.length_drop,
          toSizeT_sub _ _ (Nat.min_le_left _ _) hn]
        congr 1
        omega
      · simp only [pendingSamples, leftoverSamples, hd, hmod]
        rw [List.drop_append_eq_append_drop, List.drop_drop, List.length_drop,
          Nat.sub_eq_zero_of_le (le_of_lt hgt), List.drop_zero]
      · rw [hLl]
        simp only [queuedSamples, List.length_nil]
        omega
      · simp only [Nat.min_eq_left hlen]
        omega
      · intro _
        simp only [Nat.min_eq_left hlen] at *
        omega
      · intro d' hd'
        simp only [hd, Option.some.injEq] at hd'
        subst hd'
        simp only [hmod]
        omega
      · simp only [heldSamples, hd]
        exact le_rfl
      · intro init last h
        simp at h

theorem runCallbacks_spec (deps : Deps) :
    ∀ (events : List (List AudioFrame × Nat)) (s : Media),
      (∀ e ∈ events, e.2 < 4294967296) →
      (∀ d, s.audioData = some d → s.audioDataSamplesOffset ≤ d.length) →
      heldSamples s + (pushedSamples events).length < 18446744073709551616 →
      ∃ parts : List (List Int × Nat),
        (runCallbacks deps events s).2 =
          parts.map (fun p => p.1.map (callbackVolume deps s) ++ List.replicate p.2 0) ∧
        List.Forall₂ (fun p e => p.1.length + p.2 = e.2) parts events ∧
        concatSamples (parts.map Prod.fst) ++ pendingSamples (runCallbacks deps events s).1 =
          pendingSamples s ++ pushedSamples events ∧
        (∀ d, (runCallbacks deps events s).1.audioData = some d →
          (runCallbacks deps events s).1.audioDataSamplesOffset ≤ d.length) := by
  intro events
  induction events with
  | nil =>
    intro s _ hoff _
    exact ⟨[], rfl, List.Forall₂.nil, by simp [concatSamples, pushedSamples, runCallbacks],
      by simpa [runCallbacks] using hoff⟩
  | cons e events ih =>
    intro s hn hoff hmem
    obtain ⟨pushed, n⟩ := e
    simp only [pushedSamples, List.length_append] at hmem
    have hP1 : pendingSamples { s with audioQueue := s.audioQueue ++ pushed } =
        pendingSamples s ++ queuedSamples pushed := by
      simp only [pendingSamples, leftoverSamples, queuedSamples_append, List.append_assoc]
    have hH1 : heldSamples { s with audioQueue := s.audioQueue ++ pushed } =
        heldSamples s + (queuedSamples pushed).length := by
      simp only [heldSamples, queuedSamples_append, List.length_append]
      omega
    have hn1 : n < 4294967296 := hn (pushed, n) (List.mem_cons_self _ _)
    obtain ⟨-, -, -, c3, c4, -, -, -, c8, c9, c10, c11, -⟩ := _rtAudioCallback_spec deps n
      { s with audioQueue := s.audioQueue ++ pushed } hoff (by rw [hH1]; omega) (by omega)
    obtain ⟨parts, i1, i2, i3, i4⟩ := ih
      (_rtAudioCallback deps n { s with audioQueue := s.audioQueue ++ pushed }).1
      (fun e he => hn e (List.mem_cons_of_mem _ he)) c8 (by rw [hH1] at c11; omega)
    have hvol : callbackVolume deps
        (_rtAudioCallback deps n { s with audioQueue := s.audioQueue ++ pushed }).1 =
        callbackVolume deps s := by
      simp only [callbackVolume, c9, c10]
    have hvol1 : callbackVolume deps { s with audioQueue := s.audioQueue ++ pushed } =
        callbackVolume deps s := rfl
    refine ⟨((pendingSamples s ++ queuedSamples pushed).take n,
        n - (pendingSamples s ++ queuedSamples pushed).length) :: parts, ?_, ?_, ?_, ?_⟩
    · simp only [runCallbacks, List.map_cons, i1, c3, hP1, hvol, hvol1]
    · refine List.Forall₂.cons ?_ i2
      simp only [List.length_take]
      omega
    · simp only [runCallbacks, List.map_cons, concatSamples, List.append_assoc, i3, c4, hP1,
        pushedSamples]
      rw [← List.append_assoc (List.take n _), List.take_append_drop, List.append_assoc]
    · simpa [runCallbacks] using i4

theorem take_pending_split (A B D R : List Int) (n o : Nat) (ho : o ≤ D.length)
    (hlt : A.length + B.length < n)
    (h : D.drop o ++ R = (A ++ B ++ (D ++ R)).drop n) :
    (A ++ B ++ (D ++ R)).take n = A ++ B ++ D.take o := by
  have hl := congrArg List.length h
  simp only [List.length_append, List.length_drop] at hl
  by_cases hc : n ≤ A.length + B.length + (D.length + R.length)
  · have ho' : o = n - (A.length + B.length) := by omega
    rw [List.take_append_eq_append_take, List.take_of_length_le
      (by rw [List.length_append]; omega), List.take_append_eq_append_take,
      List.length_append, ← ho', Nat.sub_eq_zero_of_le ho]
    simp
  · have ho' : o = D.length := by omega
    have hR : R = [] := List.eq_nil_of_length_eq_zero (by omega)
    subst hR
    rw [ho', List.take_of_length_le (by simp only [List.length_append]; omega)]
    simp

/-- C7. For every buffer size `nFrames` (an `unsigned int`), every leftover state with
`audioDataSamplesOffset` at most the sample count of the leftover frame and every audio
queue content (held in memory, so fewer than `2^64` samples),
`Media::_rtAudioCallback` writes exactly `nFrames` samples: `a` audio samples followed
by `z` zero samples with `a + z = nFrames`, where `a` is the minimum of `nFrames` and
the leftover samples plus the samples of the frames popped in this call; and
`audioDataSamplesCount` increases by exactly `a` (in `size_t` arithmetic). -/
theorem _rtAudioCallback_fills_buffer (deps : Deps) (nFrames : Nat) (s : Media)
    (hn : nFrames < 4294967296)
    (hoff : ∀ d, s.audioData = some d → s.audioDataSamplesOffset ≤ d.length)
    (hmem : heldSamples s < 18446744073709551616) :
    ∃ (popped : List AudioFrame) (a z : Nat),
      s.audioQueue = popped ++ (_rtAudioCallback deps nFrames s).1.audioQueue ∧
      a = min nFrames ((leftoverSamples s).length + (queuedSamples popped).length) ∧
      a + z = nFrames ∧
      (_rtAudioCallback deps nFrames s).2 =
        ((pendingSamples s).take a).map (callbackVolume deps s) ++ List.replicate z 0 ∧
      ((pendingSamples s).take a).length = a ∧
      (_rtAudioCallback deps nFrames s).2.length = nFrames ∧
      (_rtAudioCallback deps nFrames s).1.audioDataSamplesCount % 18446744073709551616 =
        (s.audioDataSamplesCount + a) % 18446744073709551616 ∧
      (s.audioDataSamplesCount + a < 18446744073709551616 →
        (_rtAudioCallback deps nFrames s).1.audioDataSamplesCount =
          s.audioDataSamplesCount + a) := by
  obtain ⟨popped, c1, -, c3, -, c5, c6, c7, -⟩ :=
    _rtAudioCallback_spec deps nFrames s hoff hmem (by omega)
  have htake : List.take (min nFrames (pendingSamples s).length) (pendingSamples s) =
      List.take nFrames (pendingSamples s) := by
    rw [List.take_eq_take]; omega
  refine ⟨popped, min nFrames (pendingSamples s).length,
    nFrames - (pendingSamples s).length, c1, c5, by omega, ?_, ?_, ?_, c6, c7⟩
  · rw [c3, htake]
  · rw [List.length_take]; omega
  · rw [c3, List.length_append, List.length_map, List.length_take, List.length_replicate]
    omega

/-- Witness of C7: with two leftover samples and five queued ones, a buffer of six
samples is filled with six audio samples and no padding. -/
theorem _rtAudioCallback_fills_buffer_witness :
    (_rtAudioCallback exampleDeps 6 exampleAudio).2.length = 6 ∧
      (_rtAudioCallback exampleDeps 6 exampleAudio).2 = [3, 4, 5, 6, 7, 8] := by
  obtain ⟨popped, a, z, -, -, -, -, -, h, -⟩ :=
    _rtAudioCallback_fills_buffer exampleDeps 6 exampleAudio (by decide) (by
      intro d hd
      have : d = [1, 2, 3, 4] := by
        simpa [exampleAudio] using hd.symm
      subst this
      decide) (by decide)
  exact ⟨h, by decide⟩

/-- C8. Across any run of `Media::_rtAudioCallback` invocations with no seek in between,
the samples written before the padding are the decoded samples in FIFO order, each
exactly once.  In one call: the frames popped are a prefix of the queue, a frame is
popped only while the samples already available are fewer than `nFrames`, the output
is the leftover tail, then every frame popped before the last one in full, then the
first `audioDataSamplesOffset` samples of the last frame popped, and afterwards
`(audioData, audioDataSamplesOffset)` designates the rest of that frame.  In a run:
the samples written, followed by the samples still pending in the end, are the samples
pending at the start followed by the samples pushed in between. -/
theorem _rtAudioCallback_fifo (deps : Deps) :
    (∀ (nFrames : Nat) (s : Media), nFrames < 4294967296 →
      (∀ d, s.audioData = some d → s.audioDataSamplesOffset ≤ d.length) →
      heldSamples s < 18446744073709551616 →
      ∃ popped : List AudioFrame,
        s.audioQueue = popped ++ (_rtAudioCallback deps nFrames s).1.audioQueue ∧
        (∀ p f r, popped = p ++ f :: r →
          (leftoverSamples s).length + (queuedSamples p).length < nFrames) ∧
        (_rtAudioCallback deps nFrames s).2 =
          ((pendingSamples s).take nFrames).map (callbackVolume deps s) ++
            List.replicate (nFrames - (pendingSamples s).length) 0 ∧
        pendingSamples (_rtAudioCallback deps nFrames s).1 =
          (pendingSamples s).drop nFrames ∧
        (∀ d, (_rtAudioCallback deps nFrames s).1.audioData = some d →
          (_rtAudioCallback deps nFrames s).1.audioDataSamplesOffset ≤ d.length) ∧
        (∀ init last, popped = init ++ [last] →
          (_rtAudioCallback deps nFrames s).1.audioData = some last.data ∧
          (pendingSamples s).take nFrames =
            leftoverSamples s ++ queuedSamples init ++
              last.data.take (_rtAudioCallback deps nFrames s).1.audioDataSamplesOffset ∧
          leftoverSamples (_rtAudioCallback deps nFrames s).1 =
            last.data.drop (_rtAudioCallback deps nFrames s).1.audioDataSamplesOffset)) ∧
    (∀ (events : List (List AudioFrame × Nat)) (s : Media),
      (∀ e ∈ events, e.2 < 4294967296) →
      (∀ d, s.audioData = some d → s.audioDataSamplesOffset ≤ d.length) →
      heldSamples s + (pushedSamples events).length < 18446744073709551616 →
      ∃ parts : List (List Int × Nat),
        (runCallbacks deps events s).2 =
          parts.map (fun p => p.1.map (callbackVolume deps s) ++ List.replicate p.2 0) ∧
        List.Forall₂ (fun p e => p.1.length + p.2 = e.2) parts events ∧
        concatSamples (parts.map Prod.fst) ++ pendingSamples (runCallbacks deps events s).1 =
          pendingSamples s ++ pushedSamples events) := by
  constructor
  · intro nFrames s hn hoff hmem
    obtain ⟨popped, c1, c2, c3, c4, -, -, -, c8, -, -, -, c12⟩ :=
      _rtAudioCallback_spec deps nFrames s hoff hmem (by omega)
    refine ⟨popped, c1, c2, c3, c4, c8, fun init last hp => ?_⟩
    have hdata := c12 init last hp
    have hoff' := c8 _ hdata
    have hleft : leftoverSamples (_rtAudioCallback deps nFrames s).1 =
        last.data.drop (_rtAudioCallback deps nFrames s).1.audioDataSamplesOffset := by
      simp only [leftoverSamples, hdata]
    refine ⟨hdata, ?_, hleft⟩
    have hP : pendingSamples s = leftoverSamples s ++ queuedSamples init ++
        (last.data ++ queuedSamples (_rtAudioCallback deps nFrames s).1.audioQueue) := by
      conv_lhs => rw [pendingSamples, c1, hp]
      simp [queuedSamples_append, queuedSamples]
    have hdrop := c4
    rw [pendingSamples, hleft] at hdrop
    rw [hP] at hdrop ⊢
    exact take_pending_split _ _ _ _ nFrames _ hoff' (c2 init last [] hp) hdrop
  · intro events s hn hoff hmem
    obtain ⟨parts, h1, h2, h3, -⟩ := runCallbacks_spec deps events s hn hoff hmem
    exact ⟨parts, h1, h2, h3⟩

/-- Witness of C8: two invocations on the example state, with one frame pushed in
between; the samples written and the samples left are the nine samples in order. -/
theorem _rtAudioCallback_fifo_witness :
    ∃ parts : List (List Int × Nat),
      (runCallbacks exampleDeps [([], 3), ([⟨[10, 11]⟩], 8)] exampleAudio).2 =
        parts.map (fun p =>
          p.1.map (callbackVolume exampleDeps exampleAudio) ++ List.replicate p.2 0) ∧
      List.Forall₂ (fun p e => p.1.length + p.2 = e.2) parts
        [(([] : List AudioFrame), 3), ([⟨[10, 11]⟩], 8)] ∧
      concatSamples (parts.map Prod.fst) ++
          pendingSamples
            (runCallbacks exampleDeps [([], 3), ([⟨[10, 11]⟩], 8)] exampleAudio).1 =
        [3, 4, 5, 6, 7, 8, 9, 10, 11] :=
  (_rtAudioCallback_fifo exampleDeps).2 [([], 3), ([⟨[10, 11]⟩], 8)] exampleAudio
    (by decide)
    (by
      intro d hd
      have : d = [1, 2, 3, 4] := by
        simpa [exampleAudio] using hd.symm
      subst this
      decide)
    (by decide)

/-! ## The queue update: lemmas and claims -/

theorem setCurrentFrame_some_config (deps : Deps) (fuel : Nat) (v : Int) (flag : Bool)
    (s t : Media) (h : setCurrentFrame deps fuel v flag s = some t) : t.config = s.config := by
  cases hw : wrapFrame (targetRange deps s flag) fuel v with
  | none =>
    unfold setCurrentFrame at h
    simp [hw] at h
  | some tmp =>
    obtain ⟨t', e, -, c, -⟩ := setCurrentFrame_of_wrap deps fuel v flag s tmp hw
    rw [h] at e
    cases e
    exact c

theorem setPlayback_some_config (deps : Deps) (fuel : Nat) (d : Playback) (s t : Media)
    (h : setPlayback deps fuel d s = some t) : t.config = s.config ∧ t.playback = d := by
  unfold setPlayback setPlaybackWith at h
  obtain ⟨s1, hs1, htail⟩ := Option.bind_eq_some.mp h
  have hc1 : s1.config = s.config := by
    have keep : ∀ u : Media, some s = some u → u.config = s.config := by
      intro u hu
      cases hu
      rfl
    cases d <;> cases hm : s.playbackMode <;> simp only [hm] at hs1 <;>
      (try split_ifs at hs1) <;>
      first
        | exact keep _ hs1
        | exact setCurrentFrame_some_config deps fuel _ _ s s1 hs1
  obtain ⟨t', e, p, c, -⟩ := setPlayback_tail deps d s (some s1) s1.currentFrame
    ⟨s1, rfl, rfl, hc1⟩
  rw [Option.some_bind] at e
  rw [htail] at e
  cases e
  exact ⟨c, p⟩

theorem _setCurrentFrame_some_config (deps : Deps) (fuel : Nat) (v : Int) (s t : Media)
    (h : _setCurrentFrame deps fuel v s = some t) : t.config = s.config := by
  have two : ∀ (d : Playback) (u : Media), u.config = s.config →
      (setPlayback deps fuel .Stop u).bind (setPlayback deps fuel d) = some t →
      t.config = s.config := by
    intro d u hu hb
    obtain ⟨u1, h1, h2⟩ := Option.bind_eq_some.mp hb
    exact ((setPlayback_some_config deps fuel d u1 t h2).1.trans
      (setPlayback_some_config deps fuel .Stop u u1 h1).1).trans hu
  have one : ∀ (u : Media), u.config = s.config →
      setPlayback deps fuel .Stop u = some t → t.config = s.config := by
    intro u hu hb
    exact (setPlayback_some_config deps fuel .Stop u t hb).1.trans hu
  have keep : ∀ u : Media, u.config = s.config → some u = some t → t.config = s.config := by
    intro u hu hb
    cases hb
    exact hu
  unfold _setCurrentFrame at h
  split_ifs at h with hv
  · dsimp only at h
    split at h <;> (try split_ifs at h) <;> (try split at h) <;>
      first
        | exact keep _ (by rfl) h
        | exact one _ (by rfl) h
        | exact two _ _ (by rfl) h
  · exact keep s rfl h

theorem _setCurrentFrame_returns (deps : Deps) (fuel : Nat) (v : Int) (s : Media)
    (hwf : (inOutRange deps s).min ≤ (inOutRange deps s).max) :
    ∃ t, _setCurrentFrame deps fuel v s = some t := by
  have two : ∀ (d : Playback),
      ∃ t, (setPlayback deps fuel .Stop { s with currentFrame := v }).bind
        (setPlayback deps fuel d) = some t := by
    intro d
    obtain ⟨t, e, -⟩ := setPlayback_stop_then deps fuel d { s with currentFrame := v }
      (fun _ => hwf)
    exact ⟨t, e⟩
  have one : ∃ t, setPlayback deps fuel .Stop { s with currentFrame := v } = some t := by
    obtain ⟨t, e, -⟩ := setPlayback_spec deps fuel .Stop { s with currentFrame := v }
      (fun h => absurd rfl h)
    exact ⟨t, e⟩
  unfold _setCurrentFrame
  split_ifs with hv
  · dsimp only
    split <;> (try split_ifs) <;> (try split) <;>
      first
        | exact ⟨_, rfl⟩
        | exact one
        | exact two _
  · exact ⟨s, rfl⟩

theorem trimAudioQueue_eq_drop (max : Nat) (q : List AudioFrame) :
    trimAudioQueue max q = q.drop (q.length - max) := by
  induction q with
  | nil => simp [trimAudioQueue]
  | cons f q ih =>
    unfold trimAudioQueue
    split_ifs with h
    · rw [ih]
      simp only [List.length_cons] at h ⊢
      have : q.length + 1 - max = (q.length - max) + 1 := by omega
      rw [this, List.drop_succ_cons]
    · simp only [List.length_cons] at h ⊢
      have : q.length + 1 - max = 0 := by omega
      rw [this, List.drop_zero]

theorem config_audio {s t : Media} (h : t.config = s.config) :
    t.audioQueue = s.audioQueue ∧ t.audioQueueMax = s.audioQueueMax ∧
      t.playEveryFrame = s.playEveryFrame ∧ _hasAudio t = _hasAudio s ∧
      _isAudioEnabled t = _isAudioEnabled s := by
  simp only [Media.config, Prod.mk.injEq] at h
  obtain ⟨-, h2, h3, h4, -, -, -, h8, h9, -, -, h12, h13, -, -⟩ := h
  simp only [_isAudioEnabled, _hasAudio, h2, h3, h4, h8, h9, h12, h13, and_self]

theorem _queueUpdateLocked_audio (deps : Deps) (s : Media) :
    (_queueUpdateLocked deps s).1.audioQueue = s.audioQueue ∧
      (_queueUpdateLocked deps s).1.audioQueueMax = s.audioQueueMax ∧
      _hasAudio (_queueUpdateLocked deps s).1 = _hasAudio s ∧
      _hasAudioSyncPlayback (_queueUpdateLocked deps s).1 = _hasAudioSyncPlayback s ∧
      (_queueUpdateLocked deps s).1.playEveryFrame = s.playEveryFrame ∧
      inOutRange deps (_queueUpdateLocked deps s).1 = inOutRange deps s := by
  unfold _queueUpdateLocked
  dsimp only
  split <;> split_ifs <;> (try split) <;>
    exact ⟨rfl, rfl, rfl, rfl, rfl, rfl⟩

theorem _queueUpdatePublish_audio (deps : Deps) (fuel : Nat) (u t : Media) (f : VideoFrame)
    (h : _queueUpdatePublish deps fuel u f = some t) :
    t.audioQueue = u.audioQueue ∧ t.audioQueueMax = u.audioQueueMax ∧
      _hasAudio t = _hasAudio u ∧
      (_hasAudioSyncPlayback u = false → _hasAudioSyncPlayback t = false) := by
  have hsync : ∀ m : Media, m.playEveryFrame = true → _hasAudioSyncPlayback m = false := by
    intro m hm
    simp [_hasAudioSyncPlayback, _isAudioEnabled, hm]
  have viaSet : ∀ (m : Media) (v : Int), m.audioQueue = u.audioQueue →
      m.audioQueueMax = u.audioQueueMax → _hasAudio m = _hasAudio u →
      m.playEveryFrame = true → _setCurrentFrame deps fuel v m = some t →
      t.audioQueue = u.audioQueue ∧ t.audioQueueMax = u.audioQueueMax ∧
        _hasAudio t = _hasAudio u ∧
        (_hasAudioSyncPlayback u = false → _hasAudioSyncPlayback t = false) := by
    intro m v h1 h2 h3 h4 hset
    obtain ⟨c1, c2, c3, c4, -⟩ :=
      config_audio (_setCurrentFrame_some_config deps fuel v m t hset)
    exact ⟨c1.trans h1, c2.trans h2, c4.trans h3, fun _ => hsync t (c3.trans h4)⟩
  have direct : ∀ m : Media, m.audioQueue = u.audioQueue →
      m.audioQueueMax = u.audioQueueMax → _hasAudio m = _hasAudio u →
      _hasAudioSyncPlayback m = _hasAudioSyncPlayback u → some m = some t →
      t.audioQueue = u.audioQueue ∧ t.audioQueueMax = u.audioQueueMax ∧
        _hasAudio t = _hasAudio u ∧
        (_hasAudioSyncPlayback u = false → _hasAudioSyncPlayback t = false) := by
    intro m h1 h2 h3 h4 hm
    cases hm
    exact ⟨h1, h2, h3, fun h => h4.trans h⟩
  unfold _queueUpdatePublish at h
  dsimp only at h
  split_ifs at h with h1 h2 h2
  · exact viaSet _ _ (by rfl) (by rfl) (by rfl) (by exact h2) h
  · exact direct _ (by rfl) (by rfl) (by rfl) (by rfl) h
  · exact viaSet _ _ (by rfl) (by rfl) (by rfl) (by exact h2) h
  · exact direct _ (by rfl) (by rfl) (by rfl) (by rfl) h

theorem _queueUpdatePublish_returns (deps : Deps) (fuel : Nat) (u : Media) (f : VideoFrame)
    (hwf : u.playEveryFrame = false ∨ (inOutRange deps u).min ≤ (inOutRange deps u).max) :
    ∃ t, _queueUpdatePublish deps fuel u f = some t := by
  unfold _queueUpdatePublish
  dsimp only
  split_ifs with h1 h2 h2
  · rcases hwf with hp | hw
    · rw [hp] at h2; cases h2
    · exact _setCurrentFrame_returns deps fuel _ _ hw
  · exact ⟨_, rfl⟩
  · rcases hwf with hp | hw
    · rw [hp] at h2; cases h2
    · exact _setCurrentFrame_returns deps fuel _ _ hw
  · exact ⟨_, rfl⟩

/-- C9. `Media::_queueUpdate` with a reader open, audio available and audio-sync playback
not active: it returns (whenever play-every-frame is off or the in/out range is
well-formed, so that the seek of the video block terminates), and after it the audio
queue holds at most its maximum number of frames, only the `max(0, count - max)` frames
at the front were dropped, and a queue within its maximum is unchanged. -/
theorem _queueUpdate_audio_queue_bounded (deps : Deps) (fuel : Nat) (s : Media)
    (hread : s.read = true) (ha : _hasAudio s = true)
    (hs : _hasAudioSyncPlayback s = false) :
    (s.playEveryFrame = false ∨ (inOutRange deps s).min ≤ (inOutRange deps s).max →
      ∃ t, _queueUpdate deps fuel s = some t) ∧
    (∀ t, _queueUpdate deps fuel s = some t →
      t.audioQueueMax = s.audioQueueMax ∧
      t.audioQueue.length ≤ t.audioQueueMax ∧
      t.audioQueue = s.audioQueue.drop (s.audioQueue.length - s.audioQueueMax) ∧
      s.audioQueue.length - t.audioQueue.length = s.audioQueue.length - s.audioQueueMax ∧
      (s.audioQueue.length ≤ s.audioQueueMax → t.audioQueue = s.audioQueue)) := by
  obtain ⟨l1, l2, l3, l4, l5, l6⟩ := _queueUpdateLocked_audio deps s
  constructor
  · intro hwf
    have hv : ∃ u, _queueUpdateVideo deps fuel s = some u := by
      unfold _queueUpdateVideo
      split
      · exact _queueUpdatePublish_returns deps fuel _ _ (by rw [l5, l6]; exact hwf)
      · exact ⟨_, rfl⟩
    obtain ⟨u, hu⟩ := hv
    exact ⟨_queueUpdateAudio u, by simp [_queueUpdate, hread, hu]⟩
  · intro t ht
    simp only [_queueUpdate, hread, if_true] at ht
    obtain ⟨u, hu, hut⟩ := Option.bind_eq_some.mp ht
    have hvid : u.audioQueue = s.audioQueue ∧ u.audioQueueMax = s.audioQueueMax ∧
        _hasAudio u = true ∧ _hasAudioSyncPlayback u = false := by
      unfold _queueUpdateVideo at hu
      split at hu
      · obtain ⟨a1, a2, a3, a4⟩ := _queueUpdatePublish_audio deps fuel _ u _ hu
        exact ⟨a1.trans l1, a2.trans l2, (a3.trans l3).trans ha, a4 (l4.trans hs)⟩
      · cases hu
        exact ⟨l1, l2, l3.trans ha, l4.trans hs⟩
    obtain ⟨v1, v2, v3, v4⟩ := hvid
    cases hut
    simp only [_queueUpdateAudio, v3, v4, Bool.not_false, Bool.and_self, if_true,
      trimAudioQueue_eq_drop, v1, v2, List.length_drop]
    refine ⟨trivial, by omega, trivial, by omega, fun h => ?_⟩
    rw [Nat.sub_eq_zero_of_le h, List.drop_zero]

/-- Witness of C9: a queue of two audio frames with maximum 1 loses its front frame. -/
theorem _queueUpdate_audio_queue_bounded_witness :
    ∃ t, _queueUpdate exampleDeps 0 exampleAudio = some t ∧ t.audioQueue = [⟨[7, 8, 9]⟩] := by
  have h := _queueUpdate_audio_queue_bounded exampleDeps 0 exampleAudio rfl rfl rfl
  obtain ⟨t, ht⟩ := h.1 (Or.inl rfl)
  obtain ⟨-, -, h3, -⟩ := h.2 t ht
  exact ⟨t, ht, h3⟩

theorem popStale_spec (dir : Direction) (currentFrame : Int) :
    ∀ (q : List VideoFrame) (frame : Option VideoFrame) (count : Nat),
      count < 18446744073709551616 →
      ∃ removed, q = removed ++ (popStale dir currentFrame q frame count).1 ∧
        (∀ f ∈ removed, isStale dir currentFrame f = true) ∧
        (∀ f, (popStale dir currentFrame q frame count).1.head? = some f →
          isStale dir currentFrame f = false) ∧
        (popStale dir currentFrame q frame count).2.2 =
          (count + removed.length) % 18446744073709551616 ∧
        (removed = [] → (popStale dir currentFrame q frame count).2.1 = frame) ∧
        (removed ≠ [] → (popStale dir currentFrame q frame count).2.1 = removed.getLast?) := by
  intro q
  induction q with
  | nil =>
    intro frame count hc
    refine ⟨[], rfl, by simp, by simp [popStale], ?_, fun _ => rfl, fun h => absurd rfl h⟩
    simp only [popStale, List.length_nil, Nat.add_zero]
    omega
  | cons f q ih =>
    intro frame count hc
    by_cases hst : isStale dir currentFrame f = true
    · obtain ⟨removed, h1, h2, h3, h4, h5, h6⟩ :=
        ih (some f) ((count + 1) % 18446744073709551616) (by omega)
      refine ⟨f :: removed, ?_, ?_, ?_, ?_, fun h => by simp at h, fun _ => ?_⟩
      · simp only [popStale, hst, if_true]
        rw [List.cons_append, ← h1]
      · intro g hg
        rcases List.mem_cons.mp hg with rfl | hg
        · exact hst
        · exact h2 g hg
      · simpa only [popStale, hst, if_true] using h3
      · simp only [popStale, hst, if_true, h4, List.length_cons]
        omega
      · simp only [popStale, hst, if_true]
        by_cases hr : removed = []
        · rw [h5 hr, hr]
          rfl
        · rw [h6 hr]
          cases removed with
          | nil => exact absurd rfl hr
          | cons g r => rw [List.getLast?_cons_cons]
    · refine ⟨[], ?_, by simp, ?_, ?_, fun _ => ?_, fun h => absurd rfl h⟩
      · simp [popStale, hst]
      · intro g hg
        simp only [popStale, hst, Bool.false_eq_true, if_false, List.head?_cons,
          Option.some.injEq] at hg
        subst hg
        simpa using hst
      · simp only [popStale, hst, Bool.false_eq_true, if_false, List.length_nil, Nat.add_zero]
        omega
      · simp [popStale, hst]

theorem _queueUpdateAudio_video (s : Media) :
    (_queueUpdateAudio s).videoQueue = s.videoQueue ∧
      (_queueUpdateAudio s).currentFrame = s.currentFrame ∧
      (_queueUpdateAudio s).ioDirection = s.ioDirection ∧
      (_queueUpdateAudio s).realSpeedFrameCount = s.realSpeedFrameCount ∧
      (_queueUpdateAudio s).currentImage = s.currentImage := by
  unfold _queueUpdateAudio
  split_ifs <;> exact ⟨rfl, rfl, rfl, rfl, rfl⟩

theorem _queueUpdatePublish_off (deps : Deps) (fuel : Nat) (u : Media) (f : VideoFrame)
    (h : u.playEveryFrame = false) :
    _queueUpdatePublish deps fuel u f =
      some { (if u.realSpeedFrameCount ≥ realSpeedFrameCount then
              { u with realSpeedFrameCount := 0 }
            else u) with currentImage := some f.data } := by
  unfold _queueUpdatePublish
  dsimp only
  split_ifs with h1 h2 h2
  · rw [h] at h2; cases h2
  · rfl
  · rw [h] at h2; cases h2
  · rfl

theorem _queueUpdate_stale_spec (deps : Deps) (fuel : Nat) (s : Media)
    (hread : s.read = true) (hpef : s.playEveryFrame = false)
    (hcnt : s.realSpeedFrameCount < 18446744073709551616) :
    ∃ (removed : List VideoFrame) (t : Media), _queueUpdate deps fuel s = some t ∧
      s.videoQueue = removed ++ t.videoQueue ∧
      (∀ f ∈ removed, isStale s.ioDirection s.currentFrame f = true) ∧
      (∀ f, t.videoQueue.head? = some f → isStale s.ioDirection s.currentFrame f = false) ∧
      t.currentFrame = s.currentFrame ∧ t.ioDirection = s.ioDirection ∧
      t.realSpeedFrameCount =
        (if s.videoQueue ≠ [] ∧ realSpeedFrameCount ≤
            (s.realSpeedFrameCount + removed.length) % 18446744073709551616 then 0
          else (s.realSpeedFrameCount + removed.length) % 18446744073709551616) ∧
      t.currentImage =
        (match removed.getLast? with
          | some f => some f.data
          | none =>
            match t.videoQueue.head? with
            | some f => some f.data
            | none => s.currentImage) := by
  obtain ⟨removed, h1, h2, h3, h4, h5, h6⟩ :=
    popStale_spec s.ioDirection s.currentFrame s.videoQueue none s.realSpeedFrameCount hcnt
  have hlocked : _queueUpdateLocked deps s =
      ({ s with
          videoQueue :=
            (popStale s.ioDirection s.currentFrame s.videoQueue none s.realSpeedFrameCount).1
          realSpeedFrameCount :=
            (popStale s.ioDirection s.currentFrame s.videoQueue none s.realSpeedFrameCount).2.2 },
        match (popStale s.ioDirection s.currentFrame s.videoQueue none
            s.realSpeedFrameCount).2.1 with
        | some f => some f
        | none => (popStale s.ioDirection s.currentFrame s.videoQueue none
            s.realSpeedFrameCount).1.head?) := by
    unfold _queueUpdateLocked
    simp only [hpef, Bool.false_eq_true, if_false]
    split <;> rfl
  generalize popStale s.ioDirection s.currentFrame s.videoQueue none s.realSpeedFrameCount = l
    at h1 h3 h4 h5 h6 hlocked
  obtain ⟨rest, frame, cnt⟩ := l
  simp only at h1 h3 h4 h5 h6 hlocked
  -- the frame got: the last frame popped, or else the head of the queue
  have hgot : ∀ g, (match frame with
        | some f => some f
        | none => rest.head?) = some g →
      _queueUpdate deps fuel s = some (_queueUpdateAudio
        { (if ({ s with videoQueue := rest, realSpeedFrameCount := cnt } :
                Media).realSpeedFrameCount ≥ realSpeedFrameCount then
            { ({ s with videoQueue := rest, realSpeedFrameCount := cnt } : Media) with
              realSpeedFrameCount := 0 }
          else { s with videoQueue := rest, realSpeedFrameCount := cnt }) with
          currentImage := some g.data }) := by
    intro g hg
    unfold _queueUpdate _queueUpdateVideo
    rw [hlocked]
    simp only [hg]
    rw [if_pos hread, _queueUpdatePublish_off deps fuel
      { s with videoQueue := rest, realSpeedFrameCount := cnt } g hpef, Option.some_bind]
  have hnone : (match frame with
        | some f => some f
        | none => rest.head?) = none →
      _queueUpdate deps fuel s = some (_queueUpdateAudio
        { s with videoQueue := rest, realSpeedFrameCount := cnt }) := by
    intro hg
    unfold _queueUpdate _queueUpdateVideo
    rw [hlocked]
    simp only [hg]
    rw [if_pos hread, Option.some_bind]
  by_cases hr : removed = []
  · subst hr
    rw [h5 rfl] at hgot hnone
    simp only [List.nil_append] at h1
    simp only [List.length_nil, Nat.add_zero] at h4
    cases rest with
    | nil =>
      refine ⟨[], _, hnone rfl, ?_, h2, ?_, ?_, ?_, ?_, ?_⟩
      · rw [(_queueUpdateAudio_video _).1]; exact h1
      · rw [(_queueUpdateAudio_video _).1]; exact h3
      · rw [(_queueUpdateAudio_video _).2.1]
      · rw [(_queueUpdateAudio_video _).2.2.1]
      · rw [(_queueUpdateAudio_video _).2.2.2.1]
        simp [h1, h4]
      · rw [(_queueUpdateAudio_video _).2.2.2.2, (_queueUpdateAudio_video _).1]
        rfl
    | cons g r =>
      refine ⟨[], _, hgot g rfl, ?_, h2, ?_, ?_, ?_, ?_, ?_⟩
      · rw [(_queueUpdateAudio_video _).1]
        split_ifs <;> exact h1
      · rw [(_queueUpdateAudio_video _).1]
        split_ifs <;> exact h3
      · rw [(_queueUpdateAudio_video _).2.1]
        split_ifs <;> rfl
      · rw [(_queueUpdateAudio_video _).2.2.1]
        split_ifs <;> rfl
      · rw [(_queueUpdateAudio_video _).2.2.2.1]
        simp only [h1, ne_eq, reduceCtorEq, not_false_eq_true, true_and, List.length_nil,
          Nat.add_zero, ← h4]
        split_ifs <;> rfl
      · rw [(_queueUpdateAudio_video _).2.2.2.2, (_queueUpdateAudio_video _).1]
        split_ifs <;> rfl
  · obtain ⟨g, hg⟩ : ∃ g, removed.getLast? = some g := by
      cases hl : removed.getLast? with
      | none => exact absurd (List.getLast?_eq_none_iff.mp hl) hr
      | some g => exact ⟨g, rfl⟩
    rw [h6 hr, hg] at hgot
    have hne : s.videoQueue ≠ [] := by
      rw [h1]
      simp [hr]
    refine ⟨removed, _, hgot g rfl, ?_, h2, ?_, ?_, ?_, ?_, ?_⟩
    · rw [(_queueUpdateAudio_video _).1]
      split_ifs <;> exact h1
    · rw [(_queueUpdateAudio_video _).1]
      split_ifs <;> exact h3
    · rw [(_queueUpdateAudio_video _).2.1]
      split_ifs <;> rfl
    · rw [(_queueUpdateAudio_video _).2.2.1]
      split_ifs <;> rfl
    · rw [(_queueUpdateAudio_video _).2.2.2.1]
      simp only [hne, ne_eq, not_false_eq_true, true_and, ← h4]
      split_ifs <;> rfl
    · rw [(_queueUpdateAudio_video _).2.2.2.2, hg]

/-- C10 as stated fails: with `realSpeedFrameCount = 29`, one stale frame is removed from
the front of the video queue and the counter is not 30 afterwards, it is reset to 0. -/
theorem _queueUpdate_count_reset_counterexample :
    ∃ t, _queueUpdate exampleDeps 0 exampleStale = some t ∧
      exampleStale.videoQueue = [⟨3, 103⟩] ++ t.videoQueue ∧
      t.realSpeedFrameCount = 0 ∧
      t.realSpeedFrameCount ≠
        exampleStale.realSpeedFrameCount + ([⟨3, 103⟩] : List VideoFrame).length :=
  ⟨_, rfl, by decide, by decide, by decide⟩

/-- C10, amended. `Media::_queueUpdate` with a reader and play-every-frame off returns;
afterwards the video queue is empty or its head frame is not older than the current
frame in the I/O direction, frames were removed only from the front, and
`realSpeedFrameCount` has grown by the number of frames removed (in `size_t`
arithmetic), except that it is reset to 0 when the update got a frame (the queue was not
empty) and the grown count reached the window of 30 frames. -/
theorem _queueUpdate_drops_stale_frames (deps : Deps) (fuel : Nat) (s : Media)
    (hread : s.read = true) (hpef : s.playEveryFrame = false)
    (hcnt : s.realSpeedFrameCount < 18446744073709551616) :
    ∃ (removed : List VideoFrame) (t : Media), _queueUpdate deps fuel s = some t ∧
      s.videoQueue = removed ++ t.videoQueue ∧
      t.currentFrame = s.currentFrame ∧ t.ioDirection = s.ioDirection ∧
      (∀ f, t.videoQueue.head? = some f →
        (t.ioDirection = .Forward → f.frame ≥ t.currentFrame) ∧
        (t.ioDirection = .Reverse → f.frame ≤ t.currentFrame)) ∧
      t.realSpeedFrameCount =
        (if s.videoQueue ≠ [] ∧ realSpeedFrameCount ≤
            (s.realSpeedFrameCount + removed.length) % 18446744073709551616 then 0
          else (s.realSpeedFrameCount + removed.length) % 18446744073709551616) ∧
      (s.realSpeedFrameCount + removed.length < realSpeedFrameCount →
        t.realSpeedFrameCount = s.realSpeedFrameCount + removed.length) := by
  obtain ⟨removed, t, h1, h2, -, h4, h5, h6, h7, -⟩ :=
    _queueUpdate_stale_spec deps fuel s hread hpef hcnt
  refine ⟨removed, t, h1, h2, h5, h6, fun f hf => ?_, h7, fun hlt => ?_⟩
  · have hst := h4 f hf
    rw [h5, h6]
    unfold isStale at hst
    constructor
    · intro hd
      rw [if_pos hd] at hst
      simpa using hst
    · intro hd
      rw [if_neg (by rw [hd]; decide)] at hst
      simpa using hst
  · rw [h7]
    unfold realSpeedFrameCount at hlt ⊢
    have hm : (s.realSpeedFrameCount + removed.length) % 18446744073709551616 =
        s.realSpeedFrameCount + removed.length := by omega
    rw [hm, if_neg (by omega)]

/-- Witness of C10 as amended: on the state of the counterexample the update returns
and the counter follows the amended rule. -/
theorem _queueUpdate_drops_stale_frames_witness :
    ∃ (removed : List VideoFrame) (t : Media),
      _queueUpdate exampleDeps 0 exampleStale = some t ∧
      exampleStale.videoQueue = removed ++ t.videoQueue ∧
      t.currentFrame = exampleStale.currentFrame := by
  obtain ⟨removed, t, h1, h2, h3, -⟩ :=
    _queueUpdate_drops_stale_frames exampleDeps 0 exampleStale rfl rfl (by decide)
  exact ⟨removed, t, h1, h2, h3⟩

/-! ## Seeking: the clock and the range -/

theorem clock_stopAudioStream (s : Media) :
    (_stopAudioStream s).audioData = s.audioData ∧
      (_stopAudioStream s).audioDataSamplesOffset = s.audioDataSamplesOffset ∧
      (_stopAudioStream s).audioDataSamplesCount = s.audioDataSamplesCount ∧
      (_stopAudioStream s).frameOffset = s.frameOffset ∧
      (_stopAudioStream s).currentTime = s.currentTime ∧
      (_stopAudioStream s).playEveryFrameTime = s.playEveryFrameTime := by
  unfold _stopAudioStream
  split_ifs <;> exact ⟨rfl, rfl, rfl, rfl, rfl, rfl⟩

theorem clock_seek (s : Media) (v : Int) (hc : s.context = true) :
    (_seek s v).audioData = none ∧ (_seek s v).audioDataSamplesOffset = 0 ∧
      (_seek s v).audioDataSamplesCount = 0 ∧ (_seek s v).frameOffset = s.currentFrame ∧
      (_seek s v).currentTime = 0 ∧ (_seek s v).playEveryFrameTime = 0 := by
  unfold _seek
  rw [if_pos hc]
  dsimp only
  obtain ⟨h1, h2, h3, h4, h5, h6⟩ := clock_stopAudioStream
    { (if s.read = true then { s with readSeek := some (v, s.ioDirection) } else s) with
      audioData := none
      audioDataSamplesOffset := 0
      audioDataSamplesCount := 0
      frameOffset := (if s.read = true then
        { s with readSeek := some (v, s.ioDirection) } else s).currentFrame
      currentTime := 0
      realSpeedFrameCount := 0
      playEveryFrameTime := 0 }
  refine ⟨h1, h2, h3, ?_, h5, h6⟩
  rw [h4]
  split_ifs <;> rfl

theorem setCurrentFrame_clock_of_some (deps : Deps) (fuel : Nat) (v : Int) (flag : Bool)
    (s t : Media) (hc : s.context = true)
    (h : setCurrentFrame deps fuel v flag s = some t)
    (hch : t.currentFrame ≠ s.currentFrame) :
    t.playback = .Stop ∧ t.frameOffset = t.currentFrame ∧ t.currentTime = 0 ∧
      t.playEveryFrameTime = 0 ∧ t.audioDataSamplesCount = 0 ∧
      t.audioDataSamplesOffset = 0 ∧ t.audioData = none ∧
      t.playbackMode = s.playbackMode ∧ t.inOutPoints = s.inOutPoints := by
  cases hw : wrapFrame (targetRange deps s flag) fuel v with
  | none =>
    unfold setCurrentFrame at h
    simp [hw] at h
  | some tmp =>
    obtain ⟨t', e, hcf, hcfg, hpb, hsame⟩ := setCurrentFrame_of_wrap deps fuel v flag s tmp hw
    rw [h] at e
    cases e
    have hne : tmp ≠ s.currentFrame := by
      intro heq
      exact hch (by rw [hsame heq])
    have hmode : t.playbackMode = s.playbackMode ∧ t.inOutPoints = s.inOutPoints := by
      simp only [Media.config, Prod.mk.injEq] at hcfg
      exact ⟨hcfg.2.2.2.2.2.1, hcfg.2.2.2.2.2.2.1⟩
    -- the state is the result of the final `_seek`
    unfold setCurrentFrame at h
    simp only [hw, Option.some_bind, setPlaybackWith_stop, if_pos hne] at h
    cases h
    generalize hu : (if ({ s with currentFrame := tmp } : Media).playback ≠ .Stop then
        _playbackUpdate deps { ({ s with currentFrame := tmp } : Media) with playback := .Stop }
      else { s with currentFrame := tmp }) = u at *
    have huc : u.context = true := by
      rw [← hu]
      split_ifs
      · have := config_playbackUpdate deps
          { ({ s with currentFrame := tmp } : Media) with playback := .Stop }
        simp only [Media.config, Prod.mk.injEq] at this
        rw [this.1]
        exact hc
      · exact hc
    obtain ⟨k1, k2, k3, k4, k5, k6⟩ := clock_seek u u.currentFrame huc
    refine ⟨?_, ?_, k5, k6, k3, k2, k1, hmode.1, hmode.2⟩
    · rw [hpb, if_pos hne]
    · rw [k4, currentFrame_seek]

theorem wrapFrame_spec (r : Range) (v : Int) (hv : isInt64 v) (hmin : isInt64 r.min)
    (hmax : isInt64 r.max) (hlt : r.min < r.max) :
    ∃ fuel0, ∀ fuel, fuel0 ≤ fuel → ∃ tmp, wrapFrame r fuel v = some tmp ∧
      r.min ≤ tmp ∧ tmp ≤ r.max := by
  obtain ⟨mn, mx⟩ := r
  simp only at hmin hmax hlt ⊢
  by_cases hfull : mx - mn + 1 = 18446744073709551616
  · refine ⟨0, fun fuel _ => ⟨v, ?_, ?_, ?_⟩⟩
    · simp [wrapFrame, toSizeT, hfull]
    · unfold isInt64 at *; omega
    · unfold isInt64 at *; omega
  · have hsz : ((toSizeT (mx - mn + 1) : Nat) : Int) = mx - mn + 1 := by
      unfold toSizeT isInt64 at *
      omega
    have h2 : 2 ≤ toSizeT (mx - mn + 1) := by omega
    refine ⟨(v - mx).toNat + (mn - v).toNat, fun fuel hf => ?_⟩
    obtain ⟨t1, e1, i1, le1, same1, ge1, -⟩ :=
      wrapAbove_spec mn mx _ hsz h2 hmin fuel v hv (by omega)
    have hfuel2 : (mn - t1).toNat ≤ fuel := by
      by_cases hc : v ≤ mx
      · rw [same1 hc]; omega
      · have := ge1 (by omega); omega
    obtain ⟨t2, e2, -, ge2, le2, -, -⟩ :=
      wrapBelow_spec mn mx _ hsz h2 hmax fuel t1 i1 le1 hfuel2
    refine ⟨t2, ?_, ge2, le2⟩
    have : toSizeT (mx - mn + 1) > 1 := by omega
    simp [wrapFrame, this, e1, e2]

theorem wrapFrame_small (r : Range) (fuel : Nat) (v : Int)
    (h : toSizeT (r.max - r.min + 1) ≤ 1) : wrapFrame r fuel v = some v := by
  unfold wrapFrame
  dsimp only
  rw [if_neg (by omega)]

/-- C12. With a live context, a call `Media::setCurrentFrame(v, ...)` returns (with
enough fuel for its two loops, for `int64_t` values and a target range with
`min ≤ max`), and when it changes the current frame it stops playback and resets the
playback clock to the new frame: afterwards playback is Stop, `frameOffset` is the new
current frame, `currentTime`, `playEveryFrameTime`, `audioDataSamplesCount` and
`audioDataSamplesOffset` are 0 and the leftover audio data is cleared; the playback mode
and the in/out points are unchanged. -/
theorem setCurrentFrame_resets_clock (deps : Deps) (v : Int) (flag : Bool) (s : Media)
    (hc : s.context = true) :
    (∀ fuel t, setCurrentFrame deps fuel v flag s = some t →
      t.currentFrame ≠ s.currentFrame →
      t.playback = .Stop ∧ t.frameOffset = t.currentFrame ∧ t.currentTime = 0 ∧
        t.playEveryFrameTime = 0 ∧ t.audioDataSamplesCount = 0 ∧
        t.audioDataSamplesOffset = 0 ∧ t.audioData = none ∧
        t.playbackMode = s.playbackMode ∧ t.inOutPoints = s.inOutPoints) ∧
    (isInt64 v → isInt64 (targetRange deps s flag).min →
      isInt64 (targetRange deps s flag).max →
      (targetRange deps s flag).min ≤ (targetRange deps s flag).max →
      ∃ fuel0, ∀ fuel, fuel0 ≤ fuel → ∃ t, setCurrentFrame deps fuel v flag s = some t) := by
  refine ⟨fun fuel t h hch => setCurrentFrame_clock_of_some deps fuel v flag s t hc h hch, ?_⟩
  intro hv hmin hmax hle
  rcases lt_or_eq_of_le hle with hlt | heq
  · obtain ⟨fuel0, hk⟩ := wrapFrame_spec _ v hv hmin hmax hlt
    refine ⟨fuel0, fun fuel hf => ?_⟩
    obtain ⟨tmp, hw, -⟩ := hk fuel hf
    obtain ⟨t, e, -⟩ := setCurrentFrame_of_wrap deps fuel v flag s tmp hw
    exact ⟨t, e⟩
  · refine ⟨0, fun fuel _ => ?_⟩
    have hw := wrapFrame_small (targetRange deps s flag) fuel v (by
      rw [heq]
      unfold toSizeT
      omega)
    obtain ⟨t, e, -⟩ := setCurrentFrame_of_wrap deps fuel v flag s v hw
    exact ⟨t, e⟩

/-- Witness of C12: seeking to frame 23 of the ten-frame sequence while playing Forward
on frame 4 stops on frame 3 with the clock reset. -/
theorem setCurrentFrame_resets_clock_witness :
    ∃ t, setCurrentFrame exampleDeps 5 23 false
        { exampleMedia with playback := .Forward, currentTime := 7, frameOffset := 1 } = some t ∧
      t.currentFrame = 3 ∧ t.playback = .Stop ∧ t.frameOffset = 3 ∧ t.currentTime = 0 := by
  refine ⟨_, rfl, by decide, ?_⟩
  have h := (setCurrentFrame_resets_clock exampleDeps 23 false
    { exampleMedia with playback := .Forward, currentTime := 7, frameOffset := 1 } rfl).1 5 _
    rfl (by decide)
  exact ⟨h.1, h.2.1, h.2.2.1⟩

/-- C16 as stated fails: on a still image (the single frame 0) a seek to frame 5 stores
frame 5, which is outside the target range `[0, 0]`. -/
theorem setCurrentFrame_single_frame_counterexample :
    ∃ t, setCurrentFrame exampleDeps 0 5 false exampleStill = some t ∧
      targetRange exampleDeps exampleStill false = ⟨0, 0⟩ ∧
      t.currentFrame = 5 ∧
      ¬ ((targetRange exampleDeps exampleStill false).min ≤ t.currentFrame ∧
        t.currentFrame ≤ (targetRange exampleDeps exampleStill false).max) :=
  ⟨_, rfl, rfl, by decide, by decide⟩

/-- C16, amended. After `Media::setCurrentFrame(v, inOutPoints)` on a target range
`[min, max]` with `max > min` the current frame lies within the range; on a range of a
single frame (`min == max`) the wrap is skipped and the requested frame `v` is stored
as it is, inside the range or not. -/
theorem setCurrentFrame_in_range_or_unwrapped (deps : Deps) (s : Media) (v : Int) (flag : Bool)
    (hv : isInt64 v)
    (hmin : isInt64 (targetRange deps s flag).min)
    (hmax : isInt64 (targetRange deps s flag).max) :
    ((targetRange deps s flag).min < (targetRange deps s flag).max →
      ∃ fuel0, ∀ fuel, fuel0 ≤ fuel → ∃ t, setCurrentFrame deps fuel v flag s = some t ∧
        (targetRange deps s flag).min ≤ t.currentFrame ∧
        t.currentFrame ≤ (targetRange deps s flag).max) ∧
    ((targetRange deps s flag).min = (targetRange deps s flag).max →
      ∀ fuel, ∃ t, setCurrentFrame deps fuel v flag s = some t ∧ t.currentFrame = v) := by
  constructor
  · intro hlt
    obtain ⟨fuel0, hk⟩ := wrapFrame_spec _ v hv hmin hmax hlt
    refine ⟨fuel0, fun fuel hf => ?_⟩
    obtain ⟨tmp, hw, h1, h2⟩ := hk fuel hf
    obtain ⟨t, e, hcf, -⟩ := setCurrentFrame_of_wrap deps fuel v flag s tmp hw
    exact ⟨t, e, by rw [hcf]; exact h1, by rw [hcf]; exact h2⟩
  · intro heq fuel
    have hw := wrapFrame_small (targetRange deps s flag) fuel v (by
      rw [heq]
      unfold toSizeT
      omega)
    obtain ⟨t, e, hcf, -⟩ := setCurrentFrame_of_wrap deps fuel v flag s v hw
    exact ⟨t, e, hcf⟩

/-- Witness of C16 as amended: on the ten-frame sequence a seek to frame 23 ends inside
`[0, 9]`. -/
theorem setCurrentFrame_in_range_or_unwrapped_witness :
    ∃ fuel0, ∀ fuel, fuel0 ≤ fuel →
      ∃ t, setCurrentFrame exampleDeps fuel 23 false exampleMedia = some t ∧
        0 ≤ t.currentFrame ∧ t.currentFrame ≤ 9 :=
  (setCurrentFrame_in_range_or_unwrapped exampleDeps exampleMedia 23 false
    (by decide) (by decide) (by decide)).1 (by decide)

/-- C20. The two wrap loops of `Media::setCurrentFrame` terminate for every requested
frame `v` and every range `[min, max]` (`int64_t` values, `min ≤ max`).  They are not
entered unless the size `max - min + 1` is greater than 1; the first loop subtracts
exactly the size from a candidate above `max` and does not take it below `min`; the
second loop adds exactly the size to a candidate below `min` and does not take it above
`max`; and with enough fuel both loops return, the result lying in the range. -/
theorem setCurrentFrame_wrap_loops_terminate (r : Range) (v : Int) (hv : isInt64 v)
    (hmin : isInt64 r.min) (hmax : isInt64 r.max) (hle : r.min ≤ r.max) :
    (toSizeT (r.max - r.min + 1) ≤ 1 → ∀ fuel, wrapFrame r fuel v = some v) ∧
    (1 < toSizeT (r.max - r.min + 1) →
      ((toSizeT (r.max - r.min + 1) : Nat) : Int) = r.max - r.min + 1 ∧
      (∀ fuel tmp, isInt64 tmp → tmp > r.max →
        wrapAbove r.max (toSizeT (r.max - r.min + 1)) (fuel + 1) tmp =
          wrapAbove r.max (toSizeT (r.max - r.min + 1)) fuel
            (tmp - (r.max - r.min + 1)) ∧
        r.min ≤ tmp - (r.max - r.min + 1) ∧ tmp - (r.max - r.min + 1) < tmp) ∧
      (∀ fuel tmp, isInt64 tmp → tmp < r.min →
        wrapBelow r.min (toSizeT (r.max - r.min + 1)) (fuel + 1) tmp =
          wrapBelow r.min (toSizeT (r.max - r.min + 1)) fuel
            (tmp + (r.max - r.min + 1)) ∧
        tmp + (r.max - r.min + 1) ≤ r.max ∧ tmp < tmp + (r.max - r.min + 1)) ∧
      ∃ fuel0, ∀ fuel, fuel0 ≤ fuel → ∃ t1 t2,
        wrapAbove r.max (toSizeT (r.max - r.min + 1)) fuel v = some t1 ∧
        wrapBelow r.min (toSizeT (r.max - r.min + 1)) fuel t1 = some t2 ∧
        wrapFrame r fuel v = some t2 ∧
        t1 ≤ r.max ∧ r.min ≤ t2 ∧ t2 ≤ r.max) := by
  obtain ⟨mn, mx⟩ := r
  simp only at hmin hmax hle ⊢
  refine ⟨fun h fuel => wrapFrame_small _ fuel v h, fun hgt => ?_⟩
  have hsz : ((toSizeT (mx - mn + 1) : Nat) : Int) = mx - mn + 1 := by
    unfold toSizeT isInt64 at *
    omega
  have h2 : 2 ≤ toSizeT (mx - mn + 1) := by omega
  refine ⟨hsz, ?_, ?_, ?_⟩
  · intro fuel tmp ht hgt'
    have hin : isInt64 (tmp - (toSizeT (mx - mn + 1) : Nat)) := by
      unfold isInt64 at *
      omega
    have hk : toInt64 (tmp - (toSizeT (mx - mn + 1) : Nat)) = tmp - (mx - mn + 1) := by
      rw [toInt64_of_isInt64 hin, hsz]
    refine ⟨?_, by omega, by omega⟩
    simp only [wrapAbove, hgt', if_true, hk]
  · intro fuel tmp ht hlt'
    have hin : isInt64 (tmp + (toSizeT (mx - mn + 1) : Nat)) := by
      unfold isInt64 at *
      omega
    have hk : toInt64 (tmp + (toSizeT (mx - mn + 1) : Nat)) = tmp + (mx - mn + 1) := by
      rw [toInt64_of_isInt64 hin, hsz]
    refine ⟨?_, by omega, by omega⟩
    simp only [wrapBelow, hlt', if_true, hk]
  · refine ⟨(v - mx).toNat + (mn - v).toNat, fun fuel hf => ?_⟩
    obtain ⟨t1, e1, i1, le1, same1, ge1, -⟩ :=
      wrapAbove_spec mn mx _ hsz h2 hmin fuel v hv (by omega)
    have hfuel2 : (mn - t1).toNat ≤ fuel := by
      by_cases hc : v ≤ mx
      · rw [same1 hc]; omega
      · have := ge1 (by omega); omega
    obtain ⟨t2, e2, -, ge2, le2, -, -⟩ :=
      wrapBelow_spec mn mx _ hsz h2 hmax fuel t1 i1 le1 hfuel2
    refine ⟨t1, t2, e1, e2, ?_, le1, ge2, le2⟩
    simp [wrapFrame, hgt, e1, e2]

/-- Witness of C20: on the range `[2, 6]` the loops bring frame 23 to frame 3. -/
theorem setCurrentFrame_wrap_loops_terminate_witness :
    ∃ fuel0, ∀ fuel, fuel0 ≤ fuel → ∃ t1 t2,
      wrapAbove 6 (toSizeT (6 - 2 + 1)) fuel 23 = some t1 ∧
      wrapBelow 2 (toSizeT (6 - 2 + 1)) fuel t1 = some t2 ∧
      wrapFrame ⟨2, 6⟩ fuel 23 = some t2 ∧ t1 ≤ 6 ∧ 2 ≤ t2 ∧ t2 ≤ 6 :=
  ((setCurrentFrame_wrap_loops_terminate ⟨2, 6⟩ 23 (by decide) (by decide) (by decide)
    (by decide)).2 (by decide)).2.2.2


/-! ## Playback at the ends of the range -/

/-- C17 fails on the code: in Once mode on the in/out range `[2, 6]`, a Forward tick
from frame 5 to frame 8 stops playback and leaves the current frame on 8, outside the
range. -/
theorem _setCurrentFrame_once_overshoot :
    ∃ t, _setCurrentFrame exampleDeps 0 8 exampleOnce = some t ∧
      inOutRange exampleDeps t = ⟨2, 6⟩ ∧ t.playback = .Stop ∧ t.currentFrame = 8 ∧
      ¬ t.currentFrame ≤ (inOutRange exampleDeps t).max :=
  ⟨_, rfl, rfl, by decide, by decide, by decide⟩

theorem run_append (deps : Deps) (fuel : Nat) :
    ∀ (a b : List Op) (s : Media),
      run deps fuel (a ++ b) s = (run deps fuel a s).bind (run deps fuel b) := by
  intro a
  induction a with
  | nil => intro b s; rfl
  | cons op a ih =>
    intro b s
    simp only [List.cons_append, run]
    cases step deps fuel op s with
    | none => rfl
    | some u =>
      rw [Option.some_bind, Option.some_bind]
      exact ih b u

theorem _playbackTick_stalled (deps : Deps) (fuel : Nat) (s : Media)
    (hsync : _hasAudioSyncPlayback s = true) (hcount : s.audioDataSamplesCount = 0) :
    _playbackTick deps fuel s = some s := by
  have hp : s.playback = .Forward := by
    simp only [_hasAudioSyncPlayback, Bool.and_eq_true, decide_eq_true_eq] at hsync
    exact hsync.2.symm
  unfold _playbackTick
  rw [hp]
  simp only [hsync, if_true, hcount, ne_eq, not_true_eq_false, if_false]

theorem playbackTimerCallback_stalled (deps : Deps) (fuel : Nat) (delta : Int) (s : Media)
    (hsync : _hasAudioSyncPlayback s = true) (hcount : s.audioDataSamplesCount = 0)
    (htimer : s.playbackTimer = true) :
    playbackTimerCallback deps fuel delta s =
      some { s with
        currentTime := s.currentTime + delta
        playEveryFrameTime := s.playEveryFrameTime + delta } := by
  unfold playbackTimerCallback
  rw [if_pos htimer]
  exact _playbackTick_stalled deps fuel _ hsync hcount

theorem run_timer_stalled (deps : Deps) (fuel : Nat) :
    ∀ (deltas : List Int) (s : Media), _hasAudioSyncPlayback s = true →
      s.audioDataSamplesCount = 0 → s.playbackTimer = true →
      ∃ t, run deps fuel (deltas.map Op.playbackTimer) s = some t ∧
        t.currentFrame = s.currentFrame ∧ t.playback = s.playback ∧
        t.audioDataSamplesCount = 0 ∧ t.rtStreamRunning = s.rtStreamRunning := by
  intro deltas
  induction deltas with
  | nil =>
    intro s _ hcount _
    exact ⟨s, rfl, rfl, rfl, hcount, rfl⟩
  | cons d deltas ih =>
    intro s hsync hcount htimer
    obtain ⟨t, ht, h1, h2, h3, h4⟩ := ih
      { s with
        currentTime := s.currentTime + d
        playEveryFrameTime := s.playEveryFrameTime + d } hsync hcount htimer
    refine ⟨t, ?_, h1, h2, h3, h4⟩
    simp only [List.map_cons, run, step, playbackTimerCallback_stalled deps fuel d s hsync
      hcount htimer, Option.some_bind]
    exact ht

/-- C18 fails on the code: a file with valid audio is opened on a `Media` object whose
audio device exists, the audio stream cannot be opened, and Forward playback is started
at the default speed with play-every-frame off.  The stream is not running, so no
sample is ever consumed, and whatever time elapses on the playback timer the current
frame stays on frame 0. -/
theorem _playbackTick_stalls_without_stream (deltas : List Int) :
    ∃ t, run exampleDeps 0
        ([Op.reload (.info exampleInfo 10) false, Op.setPlayback .Forward] ++
          deltas.map Op.playbackTimer) exampleFresh = some t ∧
      t.currentFrame = 0 ∧ t.playback = .Forward ∧ t.rtStreamRunning = false ∧
      t.audioDataSamplesCount = 0 := by
  have h2 : ∃ u, run exampleDeps 0
      [Op.reload (.info exampleInfo 10) false, Op.setPlayback .Forward] exampleFresh = some u ∧
      _hasAudioSyncPlayback u = true ∧ u.audioDataSamplesCount = 0 ∧
      u.playbackTimer = true ∧ u.currentFrame = 0 ∧ u.playback = .Forward ∧
      u.rtStreamRunning = false :=
    ⟨_, rfl, by decide, by decide, by decide, by decide, by decide, by decide⟩
  obtain ⟨u, hu, k1, k2, k3, k4, k5, k6⟩ := h2
  obtain ⟨t, ht, g1, g2, g3, g4⟩ := run_timer_stalled exampleDeps 0 deltas u k1 k2 k3
  refine ⟨t, ?_, by rw [g1, k4], by rw [g2, k5], by rw [g4, k6], g3⟩
  rw [run_append, hu, Option.some_bind, ht]

/-! ## The published image -/

/-- C19 as stated fails: with the frames 3, 4, 5 queued and the current frame 5 in the
Forward direction, the update discards the frames 3 and 4, the head of the queue is
frame 5, and the image published is that of frame 4. -/
theorem _queueUpdate_publishes_stale_counterexample :
    ∃ t, _queueUpdate exampleDeps 0 exampleQueue = some t ∧
      t.videoQueue = [⟨5, 105⟩] ∧ t.currentImage = some 104 ∧
      t.currentImage ≠ (t.videoQueue.head?).map VideoFrame.data :=
  ⟨_, rfl, by decide, by decide, by decide⟩

/-- C19, amended. With play-every-frame off, `Media::_queueUpdate` publishes as current
image the image of the last stale frame it discarded in that update, when it discarded
any; only when it discarded none does it publish the image of the head frame of the
queue; and with nothing discarded and an empty queue the image is left as it is. -/
theorem _queueUpdate_published_image (deps : Deps) (fuel : Nat) (s : Media)
    (hread : s.read = true) (hpef : s.playEveryFrame = false)
    (hcnt : s.realSpeedFrameCount < 18446744073709551616) :
    ∃ (removed : List VideoFrame) (t : Media), _queueUpdate deps fuel s = some t ∧
      s.videoQueue = removed ++ t.videoQueue ∧
      (∀ f ∈ removed, isStale s.ioDirection s.currentFrame f = true) ∧
      (∀ f, t.videoQueue.head? = some f → isStale s.ioDirection s.currentFrame f = false) ∧
      (∀ f, removed.getLast? = some f → t.currentImage = some f.data) ∧
      (removed = [] → ∀ f, t.videoQueue.head? = some f → t.currentImage = some f.data) ∧
      (removed = [] → t.videoQueue = [] → t.currentImage = s.currentImage) := by
  obtain ⟨removed, t, h1, h2, h3, h4, -, -, -, h8⟩ :=
    _queueUpdate_stale_spec deps fuel s hread hpef hcnt
  refine ⟨removed, t, h1, h2, h3, h4, ?_, ?_, ?_⟩
  · intro f hf
    rw [h8, hf]
  · intro hr f hf
    rw [h8, hr, hf]
    rfl
  · intro hr hq
    rw [h8, hr, hq]
    rfl

/-- Witness of C19 as amended: on the state of the counterexample the last frame
discarded is frame 4 and its image is published. -/
theorem _queueUpdate_published_image_witness :
    ∃ (removed : List VideoFrame) (t : Media),
      _queueUpdate exampleDeps 0 exampleQueue = some t ∧
      exampleQueue.videoQueue = removed ++ t.videoQueue ∧
      (∀ f, removed.getLast? = some f → t.currentImage = some f.data) := by
  obtain ⟨removed, t, h1, h2, -, -, h5, -⟩ :=
    _queueUpdate_published_image exampleDeps 0 exampleQueue rfl rfl (by decide)
  exact ⟨removed, t, h1, h2, h5⟩

/-! ## Annotations -/

theorem indexOf_eq_none (l : List Nat) (a : Nat) (h : a ∉ l) : indexOf l a = none := by
  induction l with
  | nil => rfl
  | cons x l ih =>
    have hx : x ≠ a := fun e => h (by rw [e]; exact List.mem_cons_self _ _)
    have hl : a ∉ l := fun e => h (List.mem_cons_of_mem _ e)
    simp [indexOf, hx, ih hl]

theorem indexOf_append_self (l : List Nat) (a : Nat) (h : a ∉ l) :
    indexOf (l ++ [a]) a = some l.length := by
  induction l with
  | nil => simp [indexOf]
  | cons x l ih =>
    have hx : x ≠ a := fun e => h (by rw [e]; exact List.mem_cons_self _ _)
    have hl : a ∉ l := fun e => h (List.mem_cons_of_mem _ e)
    simp [indexOf, hx, ih hl]

theorem removeItem_append_self (l : List Nat) (a : Nat) :
    removeItem (l ++ [a]) l.length = l := by
  unfold removeItem
  induction l with
  | nil => rfl
  | cons x l ih => simp [List.eraseIdx, ih]

/-- C13 as stated fails: when the primitive is already in the list, the undo removes its
first occurrence and not the one the command added; from the list `[1, 2]`, adding and
removing the primitive 1 ends with `[2, 1]`. -/
theorem annotate_undo_counterexample :
    ((AnnotateCommand.undoCommand ⟨1, true, false⟩
        (AnnotateCommand.exec ⟨1, true, false⟩ { annotations := [1, 2] })).2).annotations
      = [2, 1] ∧
    (AnnotateCommand.exec ⟨1, true, false⟩ { annotations := [1, 2] }).annotations
      = [1, 2, 1] := by
  decide

/-- C13, amended. For every annotation list and every primitive that is not already in
it, `AnnotateCommand::exec` followed by `AnnotateCommand::undo` (that is
`Media::addAnnotation` followed by `Media::removeAnnotation`) leaves the media, and so
the list with its elements and their order, as it was; and the undo alone, on a
primitive that is not in the list, leaves the media unchanged. -/
theorem annotate_undo_restores (c : AnnotateCommand) (media : Media)
    (h : c.primitive ∉ media.annotations) :
    (c.undoCommand (c.exec media)).2 = media ∧
    (c.undoCommand media).2 = media ∧
    removeAnnotation c.primitive ( addAnnotation c.primitive media) = media := by
  have hadd : removeAnnotation c.primitive ( addAnnotation c.primitive media) = media := by
    unfold removeAnnotation addAnnotation pushBack
    simp only [indexOf_append_self _ _ h, removeItem_append_self]
  have hrem : removeAnnotation c.primitive media = media := by
    unfold removeAnnotation
    simp only [indexOf_eq_none _ _ h]
  refine ⟨?_, ?_, hadd⟩
  · unfold AnnotateCommand.undoCommand AnnotateCommand.exec
    cases hm : c.media
    · simp
    · simp only [if_true]
      exact hadd
  · unfold AnnotateCommand.undoCommand
    cases hm : c.media
    · simp
    · simp only [if_true]
      exact hrem

/-- Witness of C13 as amended: adding and removing the primitive 3 leaves `[1, 2]`. -/
theorem annotate_undo_restores_witness :
    ((AnnotateCommand.undoCommand ⟨3, true, false⟩
        (AnnotateCommand.exec ⟨3, true, false⟩ { annotations := [1, 2] })).2).annotations
      = [1, 2] := by
  rw [(annotate_undo_restores ⟨3, true, false⟩ { annotations := [1, 2] } (by decide)).1]

/-! ## Value subjects -/

theorem ValueSubject_synced_set {α : Type} [DecidableEq α] (s : ValueSubject α) (v : α)
    (hwf : ∀ o ∈ s.observers, o.getLast? = some s.get) :
    ((s.setIfChanged v).1 = true ↔ v ≠ s.get) ∧
    ((s.setIfChanged v).1 = false → (s.setIfChanged v).2 = s) ∧
    (s.setIfChanged v).2.get = v ∧ (s.setAlways v).get = v ∧
    (s.setIfChanged v).2.observers.length = s.observers.length ∧
    (s.setAlways v).observers.length = s.observers.length ∧
    (∀ o ∈ (s.setIfChanged v).2.observers, o.getLast? = some (s.setIfChanged v).2.get) ∧
    (∀ o ∈ (s.setAlways v).observers, o.getLast? = some (s.setAlways v).get) := by
  have hall : ∀ o ∈ (s.setAlways v).observers, o.getLast? = some (s.setAlways v).get := by
    intro o ho
    simp only [ValueSubject.setAlways, List.mem_map] at ho
    obtain ⟨o', -, rfl⟩ := ho
    simp [ValueSubject.setAlways, ValueSubject.get]
  by_cases hv : v = s.value
  · have e : s.setIfChanged v = (false, s) := by simp [ValueSubject.setIfChanged, hv]
    rw [e]
    refine ⟨by simp [ValueSubject.get, hv], fun _ => rfl, by simp [ValueSubject.get, hv], rfl,
      rfl, by simp [ValueSubject.setAlways], hwf, hall⟩
  · have e : s.setIfChanged v = (true, s.setAlways v) := by
      simp [ValueSubject.setIfChanged, hv]
    rw [e]
    refine ⟨by simp [ValueSubject.get, hv], fun h => by simp at h, rfl, rfl,
      by simp [ValueSubject.setAlways], by simp [ValueSubject.setAlways], hall, hall⟩

theorem ValueSubject_run_synced {α : Type} [DecidableEq α] :
    ∀ (ops : List (SubjectOp α)) (s : ValueSubject α),
      (∀ o ∈ s.observers, o.getLast? = some s.get) →
      ∀ o ∈ (s.run ops).observers, o.getLast? = some (s.run ops).get := by
  intro ops
  induction ops with
  | nil => intro s h; exact h
  | cons op ops ih =>
    intro s h
    simp only [ValueSubject.run]
    apply ih
    cases op with
    | observe =>
      intro o ho
      simp only [ValueSubject.step, ValueSubject.observe, List.mem_append,
        List.mem_singleton] at ho
      rcases ho with ho | ho
      · exact h o ho
      · subst ho
        rfl
    | setAlways v => exact (ValueSubject_synced_set s v h).2.2.2.2.2.2.2
    | setIfChanged v => exact (ValueSubject_synced_set s v h).2.2.2.2.2.2.1

/-- C14. For every `ValueSubject<T>` (created with any value and taken through any
sequence of observer creations, `setAlways` and `setIfChanged` calls) holding `c`, and
every `v`: `setIfChanged(v)` returns true exactly when `v != c`; when it returns false
the value held and the observers are untouched; after `setIfChanged(v)` or
`setAlways(v)` `get()` is `v`, the same observers are attached, and each observer has
received, as its last value, what `get()` returns. -/
theorem ValueSubject_set_spec {α : Type} [DecidableEq α] (c0 : α) (ops : List (SubjectOp α))
    (v : α) :
    ((((ValueSubject.create c0).run ops).setIfChanged v).1 = true ↔
        v ≠ ((ValueSubject.create c0).run ops).get) ∧
    ((((ValueSubject.create c0).run ops).setIfChanged v).1 = false →
      (((ValueSubject.create c0).run ops).setIfChanged v).2 =
        (ValueSubject.create c0).run ops) ∧
    (((ValueSubject.create c0).run ops).setIfChanged v).2.get = v ∧
    (((ValueSubject.create c0).run ops).setAlways v).get = v ∧
    (((ValueSubject.create c0).run ops).setIfChanged v).2.observers.length =
      ((ValueSubject.create c0).run ops).observers.length ∧
    (((ValueSubject.create c0).run ops).setAlways v).observers.length =
      ((ValueSubject.create c0).run ops).observers.length ∧
    (∀ o ∈ (((ValueSubject.create c0).run ops).setIfChanged v).2.observers,
      o.getLast? = some (((ValueSubject.create c0).run ops).setIfChanged v).2.get) ∧
    (∀ o ∈ (((ValueSubject.create c0).run ops).setAlways v).observers,
      o.getLast? = some (((ValueSubject.create c0).run ops).setAlways v).get) :=
  ValueSubject_synced_set _ v
    (ValueSubject_run_synced ops (ValueSubject.create c0) (fun o ho => by cases ho))

/-- The run of `ValueObserverTest` on the model: its four assertions hold. -/
theorem ValueObserverTest_run :
    ((ValueSubject.create (0 : Int)).observe.setIfChanged 0).1 = false ∧
    (((ValueSubject.create (0 : Int)).observe.setIfChanged 0).2.setAlways 1).observers
      = [[0, 1]] ∧
    ((((ValueSubject.create (0 : Int)).observe.setIfChanged 0).2.setAlways 1).setIfChanged
      2).1 = true ∧
    (((((ValueSubject.create (0 : Int)).observe.setIfChanged 0).2.setAlways 1).setIfChanged
      2).2.setIfChanged 2).1 = false ∧
    (((((ValueSubject.create (0 : Int)).observe.setIfChanged 0).2.setAlways 1).setIfChanged
      2).2.setIfChanged 2).2.observers = [[0, 1, 2]] := by
  decide

/-! ## Without an audio device -/

theorem _hasAudio_null (s : Media) (h : s.rtAudio = false) :
    _hasAudio s = false ∧ _isAudioEnabled s = false ∧ _hasAudioSyncPlayback s = false := by
  simp [_hasAudio, _isAudioEnabled, _hasAudioSyncPlayback, h]

theorem _stopAudioStream_null (s : Media) (h : s.rtAudio = false) : _stopAudioStream s = s := by
  unfold _stopAudioStream
  simp [(_hasAudio_null s h).1]

theorem device_seek (s : Media) (v : Int) (h : s.rtAudio = false) :
    (_seek s v).device = s.device := by
  unfold _seek
  split_ifs
  · rw [_stopAudioStream_null _ (by exact h)]; rfl
  · rw [_stopAudioStream_null _ (by exact h)]; rfl
  · rfl

theorem startGuarded_null (deps : Deps) (s : Media) (h : s.rtAudio = false) :
    (if _hasAudioSyncPlayback s then _startAudioStream deps s else s) = s := by
  simp [(_hasAudio_null s h).2.2]

theorem device_playbackUpdate (deps : Deps) (s : Media) (h : s.rtAudio = false) :
    (_playbackUpdate deps s).device = s.device := by
  have hk : ∀ u : Media, u.rtAudio = false →
      (if _hasAudioSyncPlayback u then _startAudioStream deps u else u) = u :=
    fun u hu => startGuarded_null deps u hu
  have hseek : ∀ (u : Media) (v : Int), (_seek u v).rtAudio = u.rtAudio := by
    intro u v
    have := config_seek u v
    simp only [Media.config, Prod.mk.injEq] at this
    exact this.2.2.2.2.2.2.2.2.1
  unfold _playbackUpdate
  by_cases hc : s.context = true
  · rw [if_pos hc]
    cases hp : s.playback <;> cases hr : s.read <;>
      simp only [Bool.false_eq_true, if_false, if_true] <;>
      first
        | (rw [hk _ (by rw [hseek]; exact h)]
           exact (device_seek _ _ (by exact h)))
        | (rw [_stopAudioStream_null _ (by exact h)]
           exact (device_seek _ _ (by exact h)))
  · rw [if_neg hc]

theorem device_null {s t : Media} (h : t.device = s.device) (hs : s.rtAudio = false) :
    t.rtAudio = false := by
  simp only [Media.device, Prod.mk.injEq] at h
  rw [h.1, hs]

theorem device_setPlaybackWith (deps : Deps) (f : Int → Media → Option Media) (d : Playback)
    (s t : Media) (h : s.rtAudio = false)
    (hf : ∀ v u, f v s = some u → u.device = s.device)
    (e : setPlaybackWith deps f d s = some t) : t.device = s.device := by
  unfold setPlaybackWith at e
  obtain ⟨s1, hs1, htail⟩ := Option.bind_eq_some.mp e
  have hc1 : s1.device = s.device := by
    have keep : ∀ u : Media, some s = some u → u.device = s.device := by
      intro u hu
      cases hu
      rfl
    cases d <;> cases hm : s.playbackMode <;> simp only [hm] at hs1 <;>
      (try split_ifs at hs1) <;>
      first
        | exact keep _ hs1
        | exact hf _ _ hs1
  have h1 : s1.rtAudio = false := device_null hc1 h
  split_ifs at htail
  · cases htail
    exact (device_playbackUpdate deps _ (by exact h1)).trans hc1
  · cases htail
    exact hc1

theorem device_setCurrentFrame (deps : Deps) (fuel : Nat) (v : Int) (flag : Bool)
    (s t : Media) (h : s.rtAudio = false)
    (e : setCurrentFrame deps fuel v flag s = some t) : t.device = s.device := by
  unfold setCurrentFrame at e
  obtain ⟨tmp, -, e1⟩ := Option.bind_eq_some.mp e
  split_ifs at e1
  · obtain ⟨s1, e2, e3⟩ := Option.bind_eq_some.mp e1
    have h2 : s1.device = s.device :=
      device_setPlaybackWith deps _ .Stop { s with currentFrame := tmp } s1 (by exact h)
        (fun _ _ hn => by cases hn) e2
    cases e3
    exact (device_seek _ _ (device_null h2 h)).trans h2
  · cases e1
    rfl

theorem device_setPlayback (deps : Deps) (fuel : Nat) (d : Playback) (s t : Media)
    (h : s.rtAudio = false) (e : setPlayback deps fuel d s = some t) :
    t.device = s.device :=
  device_setPlaybackWith deps _ d s t h
    (fun v u hu => device_setCurrentFrame deps fuel v inOutPointsDefault s u h hu) e

theorem device__setCurrentFrame (deps : Deps) (fuel : Nat) (v : Int) (s t : Media)
    (h : s.rtAudio = false) (e : _setCurrentFrame deps fuel v s = some t) :
    t.device = s.device := by
  have two : ∀ (d : Playback) (u : Media), u.device = s.device →
      (setPlayback deps fuel .Stop u).bind (setPlayback deps fuel d) = some t →
      t.device = s.device := by
    intro d u hu hb
    obtain ⟨u1, h1, h2⟩ := Option.bind_eq_some.mp hb
    have k1 := device_setPlayback deps fuel .Stop u u1 (device_null hu h) h1
    have k2 := device_setPlayback deps fuel d u1 t (device_null (k1.trans hu) h) h2
    exact (k2.trans k1).trans hu
  have one : ∀ (u : Media), u.device = s.device →
      setPlayback deps fuel .Stop u = some t → t.device = s.device := by
    intro u hu hb
    exact (device_setPlayback deps fuel .Stop u t (device_null hu h) hb).trans hu
  have keep : ∀ u : Media, u.device = s.device → some u = some t → t.device = s.device := by
    intro u hu hb
    cases hb
    exact hu
  unfold _setCurrentFrame at e
  split_ifs at e with hv
  · dsimp only at e
    split at e <;> (try split_ifs at e) <;> (try split at e) <;>
      first
        | exact keep _ (by rfl) e
        | exact one _ (by rfl) e
        | exact two _ _ (by rfl) e
  · exact keep s rfl e

theorem device_playbackTick (deps : Deps) (fuel : Nat) (s t : Media)
    (h : s.rtAudio = false) (e : _playbackTick deps fuel s = some t) :
    t.device = s.device := by
  unfold _playbackTick at e
  rw [(_hasAudio_null s h).2.2] at e
  cases hp : s.playback <;> rw [hp] at e <;> simp only [Bool.false_eq_true, if_false] at e <;>
    first
      | (split_ifs at e
         · cases e; rfl
         · exact device__setCurrentFrame deps fuel _ s t h e)
      | (cases e; rfl)

theorem device_playbackTimerCallback (deps : Deps) (fuel : Nat) (delta : Int) (s t : Media)
    (h : s.rtAudio = false) (e : playbackTimerCallback deps fuel delta s = some t) :
    t.device = s.device := by
  unfold playbackTimerCallback at e
  split_ifs at e
  · have k := device_playbackTick deps fuel _ t (by exact h) e
    exact k
  · cases e; rfl

theorem device_queueUpdateLocked (deps : Deps) (s : Media) :
    (_queueUpdateLocked deps s).1.device = s.device := by
  unfold _queueUpdateLocked
  dsimp only
  split <;> split_ifs <;> (try split) <;> rfl

theorem device_queueUpdatePublish (deps : Deps) (fuel : Nat) (u t : Media) (f : VideoFrame)
    (h : u.rtAudio = false) (e : _queueUpdatePublish deps fuel u f = some t) :
    t.device = u.device := by
  unfold _queueUpdatePublish at e
  dsimp only at e
  split_ifs at e <;>
    first
      | (cases e; rfl)
      | (have k := device__setCurrentFrame deps fuel _ _ t (by exact h) e
         exact k)

theorem device_queueUpdateAudio (s : Media) : (_queueUpdateAudio s).device = s.device := by
  unfold _queueUpdateAudio
  split_ifs <;> rfl

theorem device_queueUpdate (deps : Deps) (fuel : Nat) (s t : Media)
    (h : s.rtAudio = false) (e : _queueUpdate deps fuel s = some t) :
    t.device = s.device := by
  unfold _queueUpdate at e
  split_ifs at e
  · obtain ⟨s5, e1, e2⟩ := Option.bind_eq_some.mp e
    cases e2
    refine (device_queueUpdateAudio s5).trans ?_
    have hl := device_queueUpdateLocked deps s
    unfold _queueUpdateVideo at e1
    split at e1
    · exact (device_queueUpdatePublish deps fuel _ s5 _ (device_null hl h) e1).trans hl
    · cases e1
      exact hl
  · cases e; rfl

theorem device_processFrames (deps : Deps) (vol : Int) :
    ∀ (frames : List AudioFrame) (acc : Media × List Int × Nat),
      (processFrames deps vol frames acc).1.device = acc.1.device := by
  intro frames
  induction frames with
  | nil => intro acc; rfl
  | cons i frames ih =>
    rintro ⟨m, out, c⟩
    simp only [processFrames]
    exact (ih _).trans rfl

theorem device_rtAudioCallback (deps : Deps) (n : Nat) (s : Media) :
    (_rtAudioCallback deps n s).1.device = s.device := by
  unfold _rtAudioCallback
  dsimp only
  refine (device_processFrames deps _ _ _).trans ?_
  cases hd : s.audioData
  · rfl
  · dsimp only
    split_ifs <;> rfl

theorem device_open (r : OpenResult) (ok : Bool) (s : Media)
    (h : s.rtAudio = false) (he : s.audioEnabled = false) :
    (_open r ok s).device = s.device ∧ (_open r ok s).audioEnabled = false := by
  have key : (_open r ok s).device = s.device := by
    unfold _open
    by_cases hc : s.context = true
    · rw [if_pos hc]
      cases r with
      | readFails => exact device_seek _ _ (by exact h)
      | infoFails m => exact device_seek _ _ (by exact h)
      | info i m =>
        dsimp only
        rw [if_neg (by simp [_hasAudio, newReader, h])]
        refine (device_seek _ _ (by exact h)).trans ?_
        simp [Media.device, newReader, _isAudioEnabled, _hasAudio, h, he]
    · rw [if_neg hc]
  refine ⟨key, ?_⟩
  simp only [Media.device, Prod.mk.injEq] at key
  rw [key.2.2.1, he]

theorem device_setLayer (v : Int) (r : OpenResult) (ok : Bool) (s : Media)
    (h : s.rtAudio = false) (he : s.audioEnabled = false) :
    (setLayer v r ok s).device = s.device := by
  unfold setLayer
  split_ifs
  · exact (device_open r ok _ (by exact h) (by exact he)).1
  · rfl

theorem device_setSpeed (deps : Deps) (v : IntRational) (s : Media)
    (h : s.rtAudio = false) (he : s.audioEnabled = false) :
    (_setSpeed deps v s).device = s.device := by
  have hseek : ∀ (u : Media) (v : Int), u.rtAudio = false → (_seek u v).rtAudio = false :=
    fun u v hu => device_null (device_seek u v hu) hu
  unfold _setSpeed
  split_ifs
  · dsimp only
    rw [startGuarded_null deps _ (by exact hseek _ _ (by exact h))]
    have k := device_seek { s with speed := v } s.currentFrame h
    simp only [Media.device, Prod.mk.injEq] at k ⊢
    refine ⟨k.1, k.2.1, ?_, k.2.2.2.1, k.2.2.2.2⟩
    rw [(_hasAudio_null _ (hseek _ _ (by exact h))).2.1, he]
  · rfl

theorem device_setPlaybackSpeed (deps : Deps) (v : PlaybackSpeed) (s : Media)
    (h : s.rtAudio = false) (he : s.audioEnabled = false) :
    (setPlaybackSpeed deps v s).device = s.device := by
  unfold setPlaybackSpeed
  split_ifs
  · exact device_setSpeed deps _ _ (by exact h) (by exact he)
  · rfl

theorem device_setCustomSpeed (deps : Deps) (v : IntRational) (s : Media)
    (h : s.rtAudio = false) (he : s.audioEnabled = false) :
    (setCustomSpeed deps v s).device = s.device := by
  unfold setCustomSpeed
  dsimp only
  split_ifs
  · exact device_setSpeed deps _ _ (by exact h) (by exact he)
  · rfl
  · rfl

theorem device_setPlayEveryFrame (deps : Deps) (v : Bool) (s : Media)
    (h : s.rtAudio = false) (he : s.audioEnabled = false) :
    (setPlayEveryFrame deps v s).device = s.device := by
  have hseek : ∀ (u : Media) (v : Int), u.rtAudio = false → (_seek u v).rtAudio = false :=
    fun u v hu => device_null (device_seek u v hu) hu
  unfold setPlayEveryFrame
  split_ifs
  · dsimp only
    rw [startGuarded_null deps _ (by exact hseek _ _ (by exact h))]
    have k := device_seek { s with playEveryFrame := v } s.currentFrame h
    simp only [Media.device, Prod.mk.injEq] at k ⊢
    refine ⟨k.1, k.2.1, ?_, k.2.2.2.1, k.2.2.2.2⟩
    rw [(_hasAudio_null _ (hseek _ _ (by exact h))).2.1, he]
  · rfl

theorem device_setInOutPoints (deps : Deps) (v : InOutPoints) (s : Media)
    (h : s.rtAudio = false) : (setInOutPoints deps v s).device = s.device := by
  have hseek : ∀ (u : Media) (v : Int), u.rtAudio = false → (_seek u v).rtAudio = false :=
    fun u v hu => device_null (device_seek u v hu) hu
  unfold setInOutPoints
  by_cases hv : v ≠ s.inOutPoints
  · rw [if_pos hv]
    cases hr : s.read <;> simp only [Bool.false_eq_true, if_false, if_true] <;>
      rw [startGuarded_null deps _ (by exact hseek _ _ (by exact h))] <;>
      exact device_seek _ _ (by exact h)
  · rw [if_neg hv]

theorem device_step (deps : Deps) (fuel : Nat) (op : Op) (s t : Media)
    (h : s.rtAudio = false) (he : s.audioEnabled = false)
    (e : step deps fuel op s = some t) : t.device = s.device := by
  cases op <;> simp only [step, Option.some.injEq] at e
  case reload r ok => subst e; exact (device_open r ok s h he).1
  case setLayer v r ok => subst e; exact device_setLayer v r ok s h he
  case nextLayer r ok => subst e; exact device_setLayer _ r ok s h he
  case prevLayer r ok => subst e; exact device_setLayer _ r ok s h he
  case setPlaybackSpeed v => subst e; exact device_setPlaybackSpeed deps v s h he
  case setCustomSpeed v => subst e; exact device_setCustomSpeed deps v s h he
  case setPlayEveryFrame v => subst e; exact device_setPlayEveryFrame deps v s h he
  case setCurrentFrame v flag => exact device_setCurrentFrame deps fuel v flag s t h e
  case inPoint => exact device_setCurrentFrame deps fuel _ _ s t h e
  case outPoint => exact device_setCurrentFrame deps fuel _ _ s t h e
  case start => exact device_setCurrentFrame deps fuel _ _ s t h e
  case end_ => exact device_setCurrentFrame deps fuel _ _ s t h e
  case nextFrame v => exact device_setCurrentFrame deps fuel _ _ s t h e
  case prevFrame v => exact device_setCurrentFrame deps fuel _ _ s t h e
  case setPlayback v => exact device_setPlayback deps fuel v s t h e
  case setPlaybackMode v => subst e; rfl
  case setInOutPoints v => subst e; exact device_setInOutPoints deps v s h
  case setInPoint => subst e; exact device_setInOutPoints deps _ s h
  case setOutPoint => subst e; exact device_setInOutPoints deps _ s h
  case resetInPoint => subst e; exact device_setInOutPoints deps _ s h
  case resetOutPoint => subst e; exact device_setInOutPoints deps _ s h
  case setVolume v => subst e; rfl
  case setMute v => subst e; rfl
  case annotationAdd v => subst e; rfl
  case annotationRemove v =>
    subst e
    unfold removeAnnotation
    split <;> rfl
  case annotationsClear => subst e; rfl
  case playbackTimer delta => exact device_playbackTimerCallback deps fuel delta s t h e
  case queueTimer => exact device_queueUpdate deps fuel s t h e
  case audioCallback n =>
    subst e
    split_ifs
    · exact device_rtAudioCallback deps n s
    · rfl
  case pushVideo f => subst e; split_ifs <;> rfl
  case pushAudio f => subst e; split_ifs <;> rfl

theorem device_run (deps : Deps) (fuel : Nat) :
    ∀ (ops : List Op) (s t : Media), s.rtAudio = false → s.audioEnabled = false →
      run deps fuel ops s = some t → t.device = s.device := by
  intro ops
  induction ops with
  | nil =>
    intro s t _ _ e
    cases e
    rfl
  | cons op ops ih =>
    intro s t h he e
    simp only [run] at e
    obtain ⟨u, e1, e2⟩ := Option.bind_eq_some.mp e
    have k := device_step deps fuel op s u h he e1
    have k' := k
    simp only [Media.device, Prod.mk.injEq] at k'
    exact (ih u t (by rw [k'.1, h]) (by rw [k'.2.2.1, he]) e2).trans k

/-- C11. When `p.rtAudio` is null, no method has been invoked through it and the
`audioEnabled` value is false (the state `_init` leaves when creating the audio device
failed), then after every sequence of `Media` operations that has run (public member
functions, timer callbacks, audio callback, pushes of the decode thread): `p.rtAudio` is
still null and no method was invoked through it, the stream is in the state it was;
`_hasAudio()`, `_isAudioEnabled()` and `_hasAudioSyncPlayback()` are false and the
`audioEnabled` value is false; the guard `_hasAudioSyncPlayback()` before
`_startAudioStream` keeps it from running, `_stopAudioStream` and `_open` leave the
device alone; and with play-every-frame off a playback tick is `_setCurrentFrame` of the
wall-clock estimate `frameOffset ± elapsed frames`. -/
theorem run_without_audio_device (deps : Deps) (fuel : Nat) (ops : List Op) (s t : Media)
    (hrt : s.rtAudio = false) (hcall : s.rtAudioNullCall = false)
    (hen : s.audioEnabled = false) (h : run deps fuel ops s = some t) :
    t.rtAudio = false ∧ t.rtAudioNullCall = false ∧
    t.rtStreamOpen = s.rtStreamOpen ∧ t.rtStreamRunning = s.rtStreamRunning ∧
    _hasAudio t = false ∧ _isAudioEnabled t = false ∧ _hasAudioSyncPlayback t = false ∧
    t.audioEnabled = false ∧
    (if _hasAudioSyncPlayback t then _startAudioStream deps t else t) = t ∧
    _stopAudioStream t = t ∧
    (∀ r ok, (_open r ok t).device = t.device) ∧
    (t.playEveryFrame = false → t.playback = .Forward →
      _playbackTick deps fuel t = _setCurrentFrame deps fuel
        (t.frameOffset + deps.elapsedFrames t.currentTime t.speed) t) ∧
    (t.playEveryFrame = false → t.playback = .Reverse →
      _playbackTick deps fuel t = _setCurrentFrame deps fuel
        (t.frameOffset - deps.elapsedFrames t.currentTime t.speed) t) := by
  have k := device_run deps fuel ops s t hrt hen h
  simp only [Media.device, Prod.mk.injEq] at k
  obtain ⟨k1, k2, k3, k4, k5⟩ := k
  have h1 : t.rtAudio = false := by rw [k1, hrt]
  have h3 : t.audioEnabled = false := by rw [k3, hen]
  obtain ⟨a1, a2, a3⟩ := _hasAudio_null t h1
  refine ⟨h1, by rw [k2, hcall], k4, k5, a1, a2, a3, h3, startGuarded_null deps t h1,
    _stopAudioStream_null t h1, fun r ok => (device_open r ok t h1 h3).1, ?_, ?_⟩
  · intro he hp
    unfold _playbackTick
    rw [hp]
    simp only [a3, he, Bool.false_eq_true, if_false]
  · intro he hp
    unfold _playbackTick
    rw [hp]
    simp only [a3, he, Bool.false_eq_true, if_false]

/-- Witness of C11: without an audio device, a file with audio is opened and played
Forward; after 125 ms the tick has moved to frame 3 by the wall clock, and the device
was never used. -/
theorem run_without_audio_device_witness :
    ∃ t, run exampleDeps 0
        [Op.reload (.info exampleInfo 10) true, Op.setPlayback .Forward,
          Op.playbackTimer 125000] exampleNoDevice = some t ∧
      t.currentFrame = 3 ∧ t.playback = .Forward ∧ t.rtAudio = false ∧
      t.rtAudioNullCall = false ∧ _hasAudio t = false ∧ t.audioEnabled = false := by
  have e : ∃ t, run exampleDeps 0
      [Op.reload (.info exampleInfo 10) true, Op.setPlayback .Forward,
        Op.playbackTimer 125000] exampleNoDevice = some t ∧
      t.currentFrame = 3 ∧ t.playback = .Forward := ⟨_, rfl, by decide, by decide⟩
  obtain ⟨t, ht, hf, hp⟩ := e
  have k := run_without_audio_device exampleDeps 0 _ exampleNoDevice t rfl rfl rfl ht
  exact ⟨t, ht, hf, hp, k.1, k.2.1, k.2.2.2.2.1, k.2.2.2.2.2.2.2.1⟩


/-! ## Seeking to the current frame, and stepping -/

theorem config_targetRange (deps : Deps) {s t : Media} (h : t.config = s.config)
    (flag : Bool) : targetRange deps t flag = targetRange deps s flag := by
  simp only [Media.config, Prod.mk.injEq] at h
  obtain ⟨-, -, -, -, h5, -, h7, -⟩ := h
  unfold targetRange inOutRange
  rw [h5, h7]

theorem setCurrentFrame_returns (deps : Deps) (v : Int) (flag : Bool) (s : Media)
    (hv : isInt64 v) (hmin : isInt64 (targetRange deps s flag).min)
    (hmax : isInt64 (targetRange deps s flag).max)
    (hle : (targetRange deps s flag).min ≤ (targetRange deps s flag).max) :
    ∃ fuel0, ∀ fuel, fuel0 ≤ fuel → ∃ t, setCurrentFrame deps fuel v flag s = some t := by
  rcases lt_or_eq_of_le hle with hlt | heq
  · obtain ⟨fuel0, hk⟩ := wrapFrame_spec _ v hv hmin hmax hlt
    refine ⟨fuel0, fun fuel hf => ?_⟩
    obtain ⟨tmp, hw, -⟩ := hk fuel hf
    obtain ⟨t, e, -⟩ := setCurrentFrame_of_wrap deps fuel v flag s tmp hw
    exact ⟨t, e⟩
  · refine ⟨0, fun fuel _ => ?_⟩
    have hw := wrapFrame_small (targetRange deps s flag) fuel v (by
      rw [heq]
      unfold toSizeT
      omega)
    obtain ⟨t, e, -⟩ := setCurrentFrame_of_wrap deps fuel v flag s v hw
    exact ⟨t, e⟩

/-- C21. Seeking to the frame that is already current changes nothing: when the wrapped
value of `v` equals the current frame, `Media::setCurrentFrame(v, ...)` returns the
state it was given (current frame, playback, clock offsets and audio state included);
consequently `setCurrentFrame(v, ...)` applied twice in a row yields the same state as
applying it once; and the call returns with enough fuel for its loops (`int64_t`
values, a target range with `min ≤ max`). -/
theorem setCurrentFrame_same_frame (deps : Deps) (v : Int) (flag : Bool) (s : Media) :
    (∀ fuel tmp, wrapFrame (targetRange deps s flag) fuel v = some tmp →
      tmp = s.currentFrame → setCurrentFrame deps fuel v flag s = some s) ∧
    (∀ fuel t, setCurrentFrame deps fuel v flag s = some t →
      setCurrentFrame deps fuel v flag t = some t) ∧
    (isInt64 v → isInt64 (targetRange deps s flag).min →
      isInt64 (targetRange deps s flag).max →
      (targetRange deps s flag).min ≤ (targetRange deps s flag).max →
      ∃ fuel0, ∀ fuel, fuel0 ≤ fuel → ∃ t, setCurrentFrame deps fuel v flag s = some t ∧
        (setCurrentFrame deps fuel v flag s).bind (setCurrentFrame deps fuel v flag) =
          some t) := by
  have once : ∀ (u : Media) fuel tmp, wrapFrame (targetRange deps u flag) fuel v = some tmp →
      tmp = u.currentFrame → setCurrentFrame deps fuel v flag u = some u := by
    intro u fuel tmp hw heq
    obtain ⟨t, e, -, -, -, hsame⟩ := setCurrentFrame_of_wrap deps fuel v flag u tmp hw
    rw [e, hsame heq]
  have twice : ∀ fuel t, setCurrentFrame deps fuel v flag s = some t →
      setCurrentFrame deps fuel v flag t = some t := by
    intro fuel t h
    cases hw : wrapFrame (targetRange deps s flag) fuel v with
    | none =>
      unfold setCurrentFrame at h
      simp [hw] at h
    | some tmp =>
      obtain ⟨t', e, hcf, hcfg, -, -⟩ := setCurrentFrame_of_wrap deps fuel v flag s tmp hw
      rw [h] at e
      cases e
      exact once t fuel tmp (by rw [config_targetRange deps hcfg flag]; exact hw) hcf.symm
  refine ⟨once s, twice, fun hv hmin hmax hle => ?_⟩
  obtain ⟨fuel0, hk⟩ := setCurrentFrame_returns deps v flag s hv hmin hmax hle
  refine ⟨fuel0, fun fuel hf => ?_⟩
  obtain ⟨t, e⟩ := hk fuel hf
  exact ⟨t, e, by rw [e, Option.some_bind]; exact twice fuel t e⟩

/-- Witness of C21: playing Forward on frame 5 of the range `[2, 6]`, a seek to frame 10
wraps to 5 and leaves the state, the running playback included, as it is. -/
theorem setCurrentFrame_same_frame_witness :
    setCurrentFrame exampleDeps 3 10 true exampleOnce = some exampleOnce ∧
      exampleOnce.playback = .Forward :=
  ⟨(setCurrentFrame_same_frame exampleDeps 10 true exampleOnce).1 3 5 (by decide) (by decide),
    rfl⟩

theorem wrapFrame_mod (r : Range) (v : Int) (hv : isInt64 v) (hmin : isInt64 r.min)
    (hmax : isInt64 r.max) (hlt : r.min < r.max) (fuel : Nat)
    (hf : (v - r.max).toNat + (r.min - v).toNat ≤ fuel) :
    ∃ tmp, wrapFrame r fuel v = some tmp ∧ r.min ≤ tmp ∧ tmp ≤ r.max ∧
      tmp % (r.max - r.min + 1) = v % (r.max - r.min + 1) := by
  obtain ⟨mn, mx⟩ := r
  simp only at hmin hmax hlt hf ⊢
  by_cases hfull : mx - mn + 1 = 18446744073709551616
  · refine ⟨v, ?_, ?_, ?_, rfl⟩
    · simp [wrapFrame, toSizeT, hfull]
    · unfold isInt64 at *; omega
    · unfold isInt64 at *; omega
  · have hsz : ((toSizeT (mx - mn + 1) : Nat) : Int) = mx - mn + 1 := by
      unfold toSizeT isInt64 at *
      omega
    have h2 : 2 ≤ toSizeT (mx - mn + 1) := by omega
    obtain ⟨t1, e1, i1, le1, same1, ge1, m1⟩ :=
      wrapAbove_spec mn mx _ hsz h2 hmin fuel v hv (by omega)
    have hfuel2 : (mn - t1).toNat ≤ fuel := by
      by_cases hc : v ≤ mx
      · rw [same1 hc]; omega
      · have := ge1 (by omega); omega
    obtain ⟨t2, e2, _, ge2, le2, same2, m2⟩ :=
      wrapBelow_spec mn mx _ hsz h2 hmax fuel t1 i1 le1 hfuel2
    refine ⟨t2, ?_, ge2, le2, ?_⟩
    · have : toSizeT (mx - mn + 1) > 1 := by omega
      simp [wrapFrame, this, e1, e2]
    · rw [← hsz, m2, m1]

theorem range_unique (mn mx a b : Int) (ha1 : mn ≤ a) (ha2 : a ≤ mx) (hb1 : mn ≤ b)
    (hb2 : b ≤ mx) (h : a % (mx - mn + 1) = b % (mx - mn + 1)) : a = b := by
  have hd : (a - b) % (mx - mn + 1) = 0 := Int.emod_eq_emod_iff_emod_sub_eq_zero.mp h
  have hdvd : (mx - mn + 1) ∣ (a - b) := Int.dvd_of_emod_eq_zero hd
  have := Int.eq_zero_of_abs_lt_dvd hdvd (by rw [abs_lt]; constructor <;> omega)
  omega

theorem step_and_back (deps : Deps) (s : Media) (k : Int) (fuel : Nat)
    (hmin : isInt64 (inOutRange deps s).min) (hmax : isInt64 (inOutRange deps s).max)
    (hlt : (inOutRange deps s).min < (inOutRange deps s).max)
    (hf1 : (inOutRange deps s).min ≤ s.currentFrame)
    (hf2 : s.currentFrame ≤ (inOutRange deps s).max)
    (hk1 : isInt64 ((inOutRange deps s).min + k)) (hk2 : isInt64 ((inOutRange deps s).max + k))
    (hk3 : isInt64 ((inOutRange deps s).min - k)) (hk4 : isInt64 ((inOutRange deps s).max - k))
    (hfuel : k.natAbs ≤ fuel) :
    ∃ t1 t2, setCurrentFrame deps fuel (s.currentFrame + k) inOutPointsDefault s = some t1 ∧
      setCurrentFrame deps fuel (t1.currentFrame - k) inOutPointsDefault t1 = some t2 ∧
      (inOutRange deps s).min ≤ t1.currentFrame ∧ t1.currentFrame ≤ (inOutRange deps s).max ∧
      t2.currentFrame = s.currentFrame := by
  have hr : targetRange deps s inOutPointsDefault = inOutRange deps s := rfl
  have hv : isInt64 (s.currentFrame + k) := by unfold isInt64 at *; omega
  obtain ⟨tmp, hw, g1, g2, gm⟩ := wrapFrame_mod (inOutRange deps s) (s.currentFrame + k) hv
    hmin hmax hlt fuel (by omega)
  obtain ⟨t1, e1, c1, cfg1, -⟩ :=
    setCurrentFrame_of_wrap deps fuel (s.currentFrame + k) inOutPointsDefault s tmp
      (by rw [hr]; exact hw)
  have hr1 : targetRange deps t1 inOutPointsDefault = inOutRange deps s := by
    rw [config_targetRange deps cfg1, hr]
  have hv' : isInt64 (t1.currentFrame - k) := by rw [c1]; unfold isInt64 at *; omega
  obtain ⟨tmp2, hw2, g3, g4, gm2⟩ := wrapFrame_mod (inOutRange deps s) (t1.currentFrame - k)
    hv' hmin hmax hlt fuel (by rw [c1]; omega)
  obtain ⟨t2, e2, c2, -⟩ :=
    setCurrentFrame_of_wrap deps fuel (t1.currentFrame - k) inOutPointsDefault t1 tmp2
      (by rw [hr1]; exact hw2)
  refine ⟨t1, t2, e1, e2, by rw [c1]; exact g1, by rw [c1]; exact g2, ?_⟩
  rw [c2]
  apply range_unique _ _ _ _ g3 g4 hf1 hf2
  rw [gm2, c1, Int.sub_emod, gm, ← Int.sub_emod]
  congr 1
  omega

/-- C22. For every in/out range `[min, max]` with `max > min`, every current frame `f`
inside it and every step `n` (`int64_t` values, the sums `min ± n` and `max ± n` with the
step converted to `int64_t` not overflowing): `Media::nextFrame(n)` followed by
`Media::prevFrame(n)` returns (with enough fuel) and brings the current frame back to
`f`, and so does `prevFrame(n)` followed by `nextFrame(n)`; the intermediate frame is
inside the range, wrapped around an end or not. -/
theorem nextFrame_prevFrame_inverse (deps : Deps) (s : Media) (n : Nat)
    (hmin : isInt64 (inOutRange deps s).min) (hmax : isInt64 (inOutRange deps s).max)
    (hlt : (inOutRange deps s).min < (inOutRange deps s).max)
    (hf1 : (inOutRange deps s).min ≤ s.currentFrame)
    (hf2 : s.currentFrame ≤ (inOutRange deps s).max)
    (hk1 : isInt64 ((inOutRange deps s).min + toInt64 n))
    (hk2 : isInt64 ((inOutRange deps s).max + toInt64 n))
    (hk3 : isInt64 ((inOutRange deps s).min - toInt64 n))
    (hk4 : isInt64 ((inOutRange deps s).max - toInt64 n)) :
    ∃ fuel0, ∀ fuel, fuel0 ≤ fuel →
      (∃ t1 t2, nextFrame deps fuel n s = some t1 ∧ prevFrame deps fuel n t1 = some t2 ∧
        (inOutRange deps s).min ≤ t1.currentFrame ∧
        t1.currentFrame ≤ (inOutRange deps s).max ∧ t2.currentFrame = s.currentFrame) ∧
      (∃ t1 t2, prevFrame deps fuel n s = some t1 ∧ nextFrame deps fuel n t1 = some t2 ∧
        (inOutRange deps s).min ≤ t1.currentFrame ∧
        t1.currentFrame ≤ (inOutRange deps s).max ∧ t2.currentFrame = s.currentFrame) := by
  refine ⟨(toInt64 n).natAbs, fun fuel hf => ⟨?_, ?_⟩⟩
  · exact step_and_back deps s (toInt64 n) fuel hmin hmax hlt hf1 hf2 hk1 hk2 hk3 hk4 hf
  · have h := step_and_back deps s (-toInt64 n) fuel hmin hmax hlt hf1 hf2
      (by rw [← sub_eq_add_neg]; exact hk3) (by rw [← sub_eq_add_neg]; exact hk4)
      (by rw [sub_neg_eq_add]; exact hk1) (by rw [sub_neg_eq_add]; exact hk2)
      (by rw [Int.natAbs_neg]; exact hf)
    obtain ⟨t1, t2, e1, e2, g⟩ := h
    rw [← sub_eq_add_neg] at e1
    rw [sub_neg_eq_add] at e2
    exact ⟨t1, t2, e1, e2, g⟩

/-- Witness of C22: on the range `[2, 6]` from frame 4, three frames forward wrap to
frame 2 and three frames back return to frame 4; and the other way round. -/
theorem nextFrame_prevFrame_inverse_witness :
    ∃ fuel0, ∀ fuel, fuel0 ≤ fuel →
      (∃ t1 t2, nextFrame exampleDeps fuel 3 exampleMedia = some t1 ∧
        prevFrame exampleDeps fuel 3 t1 = some t2 ∧
        (inOutRange exampleDeps exampleMedia).min ≤ t1.currentFrame ∧
        t1.currentFrame ≤ (inOutRange exampleDeps exampleMedia).max ∧
        t2.currentFrame = exampleMedia.currentFrame) ∧
      (∃ t1 t2, prevFrame exampleDeps fuel 3 exampleMedia = some t1 ∧
        nextFrame exampleDeps fuel 3 t1 = some t2 ∧
        (inOutRange exampleDeps exampleMedia).min ≤ t1.currentFrame ∧
        t1.currentFrame ≤ (inOutRange exampleDeps exampleMedia).max ∧
        t2.currentFrame = exampleMedia.currentFrame) :=
  nextFrame_prevFrame_inverse exampleDeps exampleMedia 3 (by decide) (by decide) (by decide)
    (by decide) (by decide) (by decide) (by decide) (by decide) (by decide)


/-! ## Speed modes -/

/-- C23 fails on the code: in the Custom playback-speed mode with the custom speed 30/1,
`Media::reload` of a file of 24 frames per second sets the effective speed to 24/1 and
leaves the mode Custom and the custom speed 30/1: the speed is neither the custom speed
of the mode nor was the mode set back to Default.  The same run, from a new `Media`:
open, `setCustomSpeed(30/1)`, `setPlaybackSpeed(Custom)` (after which the speed is the
custom speed), `reload`. -/
theorem reload_speed_mode_mismatch :
    (∃ u, run exampleDeps 0
        [Op.reload (.info exampleInfo 10) true, Op.setCustomSpeed ⟨30, 1⟩,
          Op.setPlaybackSpeed .Custom] exampleFresh = some u ∧
      u.playbackSpeed = .Custom ∧ u.speed = ⟨30, 1⟩ ∧ speedMatchesMode u = true) ∧
    (∃ t, run exampleDeps 0
        [Op.reload (.info exampleInfo 10) true, Op.setCustomSpeed ⟨30, 1⟩,
          Op.setPlaybackSpeed .Custom, Op.reload (.info exampleInfo 10) true]
        exampleFresh = some t ∧
      t.playbackSpeed = .Custom ∧ t.customSpeed = ⟨30, 1⟩ ∧ t.defaultSpeed = ⟨24, 1⟩ ∧
      t.speed = ⟨24, 1⟩ ∧ t.speed ≠ t.customSpeed ∧ speedMatchesMode t = false) :=
  ⟨⟨_, rfl, by decide, by decide, by decide⟩,
    ⟨_, rfl, by decide, by decide, by decide, by decide, by decide, by decide⟩⟩

theorem enabling_inv {s t : Media} (h : t.enabling = s.enabling)
    (hs : s.audioEnabled = _isAudioEnabled s) : t.audioEnabled = _isAudioEnabled t := by
  simp only [Media.enabling, Prod.mk.injEq] at h
  obtain ⟨h1, h2, h3, h4, h5, h6⟩ := h
  rw [h1, hs]
  simp only [_isAudioEnabled, _hasAudio, h2, h3, h4, h5, h6]

theorem enabling_stopAudioStream (s : Media) : (_stopAudioStream s).enabling = s.enabling := by
  unfold _stopAudioStream
  split_ifs <;> rfl

theorem enabling_seek (s : Media) (v : Int) : (_seek s v).enabling = s.enabling := by
  unfold _seek
  split_ifs <;> simp [enabling_stopAudioStream] <;> rfl

theorem enabling_startAudioStream (deps : Deps) (s : Media) :
    (_startAudioStream deps s).enabling = s.enabling := by
  unfold _startAudioStream
  split_ifs <;> rfl

theorem enabling_startGuarded (deps : Deps) (s : Media) :
    (if _hasAudioSyncPlayback s then _startAudioStream deps s else s).enabling = s.enabling := by
  split_ifs
  · exact enabling_startAudioStream deps s
  · rfl

theorem enabling_playbackUpdate (deps : Deps) (s : Media) :
    (_playbackUpdate deps s).enabling = s.enabling := by
  unfold _playbackUpdate
  dsimp only
  split_ifs <;> (try split) <;> (try split_ifs) <;>
    repeat (first
      | rfl
      | (refine (enabling_seek _ _).trans ?_)
      | (refine (enabling_stopAudioStream _).trans ?_)
      | (refine (enabling_startAudioStream _ _).trans ?_)
      | (change (_seek _ _).enabling = _)
      | (change (_stopAudioStream _).enabling = _)
      | (change (_startAudioStream _ _).enabling = _))

theorem enabling_setPlaybackWith (deps : Deps) (f : Int → Media → Option Media) (d : Playback)
    (s t : Media) (hf : ∀ v u, f v s = some u → u.enabling = s.enabling)
    (e : setPlaybackWith deps f d s = some t) : t.enabling = s.enabling := by
  unfold setPlaybackWith at e
  obtain ⟨s1, hs1, htail⟩ := Option.bind_eq_some.mp e
  have hc1 : s1.enabling = s.enabling := by
    have keep : ∀ u : Media, some s = some u → u.enabling = s.enabling := by
      intro u hu
      cases hu
      rfl
    cases d <;> cases hm : s.playbackMode <;> simp only [hm] at hs1 <;>
      (try split_ifs at hs1) <;>
      first
        | exact keep _ hs1
        | exact hf _ _ hs1
  split_ifs at htail
  · cases htail
    exact (enabling_playbackUpdate deps _).trans hc1
  · cases htail
    exact hc1

theorem enabling_setCurrentFrame (deps : Deps) (fuel : Nat) (v : Int) (flag : Bool)
    (s t : Media) (e : setCurrentFrame deps fuel v flag s = some t) :
    t.enabling = s.enabling := by
  unfold setCurrentFrame at e
  obtain ⟨tmp, -, e1⟩ := Option.bind_eq_some.mp e
  split_ifs at e1
  · obtain ⟨s1, e2, e3⟩ := Option.bind_eq_some.mp e1
    have h2 : s1.enabling = s.enabling :=
      enabling_setPlaybackWith deps _ .Stop { s with currentFrame := tmp } s1
        (fun _ _ hn => by cases hn) e2
    cases e3
    exact (enabling_seek _ _).trans h2
  · cases e1
    rfl

theorem enabling_setPlayback (deps : Deps) (fuel : Nat) (d : Playback) (s t : Media)
    (e : setPlayback deps fuel d s = some t) : t.enabling = s.enabling :=
  enabling_setPlaybackWith deps _ d s t
    (fun v u hu => enabling_setCurrentFrame deps fuel v inOutPointsDefault s u hu) e

theorem enabling__setCurrentFrame (deps : Deps) (fuel : Nat) (v : Int) (s t : Media)
    (e : _setCurrentFrame deps fuel v s = some t) : t.enabling = s.enabling := by
  have two : ∀ (d : Playback) (u : Media), u.enabling = s.enabling →
      (setPlayback deps fuel .Stop u).bind (setPlayback deps fuel d) = some t →
      t.enabling = s.enabling := by
    intro d u hu hb
    obtain ⟨u1, h1, h2⟩ := Option.bind_eq_some.mp hb
    have k1 := enabling_setPlayback deps fuel .Stop u u1 h1
    have k2 := enabling_setPlayback deps fuel d u1 t h2
    exact (k2.trans k1).trans hu
  have one : ∀ (u : Media), u.enabling = s.enabling →
      setPlayback deps fuel .Stop u = some t → t.enabling = s.enabling := by
    intro u hu hb
    exact (enabling_setPlayback deps fuel .Stop u t hb).trans hu
  have keep : ∀ u : Media, u.enabling = s.enabling → some u = some t →
      t.enabling = s.enabling := by
    intro u hu hb
    cases hb
    exact hu
  unfold _setCurrentFrame at e
  split_ifs at e with hv
  · dsimp only at e
    split at e <;> (try split_ifs at e) <;> (try split at e) <;>
      first
        | exact keep _ (by rfl) e
        | exact one _ (by rfl) e
        | exact two _ _ (by rfl) e
  · exact keep s rfl e

theorem enabling_playbackTick (deps : Deps) (fuel : Nat) (s t : Media)
    (e : _playbackTick deps fuel s = some t) : t.enabling = s.enabling := by
  unfold _playbackTick at e
  cases hp : s.playback <;> rw [hp] at e <;> dsimp only at e <;>
    first
      | (cases e; rfl)
      | (split_ifs at e <;>
          first
            | (cases e; rfl)
            | exact enabling__setCurrentFrame deps fuel _ s t e)

theorem enabling_playbackTimerCallback (deps : Deps) (fuel : Nat) (delta : Int) (s t : Media)
    (e : playbackTimerCallback deps fuel delta s = some t) : t.enabling = s.enabling := by
  unfold playbackTimerCallback at e
  split_ifs at e
  · have k := enabling_playbackTick deps fuel _ t e
    exact k
  · cases e; rfl

theorem enabling_queueUpdateLocked (deps : Deps) (s : Media) :
    (_queueUpdateLocked deps s).1.enabling = s.enabling := by
  unfold _queueUpdateLocked
  dsimp only
  split <;> split_ifs <;> (try split) <;> rfl

theorem enabling_queueUpdatePublish (deps : Deps) (fuel : Nat) (u t : Media) (f : VideoFrame)
    (e : _queueUpdatePublish deps fuel u f = some t) : t.enabling = u.enabling := by
  unfold _queueUpdatePublish at e
  dsimp only at e
  split_ifs at e <;>
    first
      | (cases e; rfl)
      | (have k := enabling__setCurrentFrame deps fuel _ _ t e
         exact k)

theorem enabling_queueUpdateAudio (s : Media) :
    (_queueUpdateAudio s).enabling = s.enabling := by
  unfold _queueUpdateAudio
  split_ifs <;> rfl

theorem enabling_queueUpdate (deps : Deps) (fuel : Nat) (s t : Media)
    (e : _queueUpdate deps fuel s = some t) : t.enabling = s.enabling := by
  unfold _queueUpdate at e
  split_ifs at e
  · obtain ⟨s5, e1, e2⟩ := Option.bind_eq_some.mp e
    cases e2
    refine (enabling_queueUpdateAudio s5).trans ?_
    have hl := enabling_queueUpdateLocked deps s
    unfold _queueUpdateVideo at e1
    split at e1
    · exact (enabling_queueUpdatePublish deps fuel _ s5 _ e1).trans hl
    · cases e1
      exact hl
  · cases e; rfl

theorem enabling_processFrames (deps : Deps) (vol : Int) :
    ∀ (frames : List AudioFrame) (acc : Media × List Int × Nat),
      (processFrames deps vol frames acc).1.enabling = acc.1.enabling := by
  intro frames
  induction frames with
  | nil => intro acc; rfl
  | cons i frames ih =>
    rintro ⟨m, out, c⟩
    simp only [processFrames]
    exact (ih _).trans rfl

theorem enabling_rtAudioCallback (deps : Deps) (n : Nat) (s : Media) :
    (_rtAudioCallback deps n s).1.enabling = s.enabling := by
  unfold _rtAudioCallback
  dsimp only
  refine (enabling_processFrames deps _ _ _).trans ?_
  cases hd : s.audioData
  · rfl
  · dsimp only
    split_ifs <;> rfl

theorem enabling_setInOutPoints (deps : Deps) (v : InOutPoints) (s : Media) :
    (setInOutPoints deps v s).enabling = s.enabling := by
  unfold setInOutPoints
  by_cases hv : v ≠ s.inOutPoints
  · rw [if_pos hv]
    cases hr : s.read <;> simp only [Bool.false_eq_true, if_false, if_true] <;>
      exact (enabling_startGuarded deps _).trans (enabling_seek _ _)
  · rw [if_neg hv]

theorem inv_open (r : OpenResult) (ok : Bool) (s : Media)
    (h : s.audioEnabled = _isAudioEnabled s) :
    (_open r ok s).audioEnabled = _isAudioEnabled (_open r ok s) := by
  unfold _open
  by_cases hc : s.context = true
  · rw [if_pos hc]
    cases r with
    | readFails => exact enabling_inv (enabling_seek _ _) h
    | infoFails m => exact enabling_inv (enabling_seek _ _) h
    | info i m =>
      dsimp only
      refine enabling_inv (enabling_seek _ _) ?_
      rfl
  · rw [if_neg hc]
    exact h

theorem inv_setLayer (v : Int) (r : OpenResult) (ok : Bool) (s : Media)
    (h : s.audioEnabled = _isAudioEnabled s) :
    (setLayer v r ok s).audioEnabled = _isAudioEnabled (setLayer v r ok s) := by
  unfold setLayer
  split_ifs
  · exact inv_open r ok _ h
  · exact h

theorem inv_setSpeed (deps : Deps) (v : IntRational) (s : Media)
    (h : s.audioEnabled = _isAudioEnabled s) :
    (_setSpeed deps v s).audioEnabled = _isAudioEnabled (_setSpeed deps v s) := by
  unfold _setSpeed
  split_ifs
  · dsimp only
    refine enabling_inv (enabling_startGuarded deps _) ?_
    rfl
  · exact h

theorem inv_setPlaybackSpeed (deps : Deps) (v : PlaybackSpeed) (s : Media)
    (h : s.audioEnabled = _isAudioEnabled s) :
    (setPlaybackSpeed deps v s).audioEnabled = _isAudioEnabled (setPlaybackSpeed deps v s) := by
  unfold setPlaybackSpeed
  split_ifs
  · exact inv_setSpeed deps _ _ h
  · exact h

theorem inv_setCustomSpeed (deps : Deps) (v : IntRational) (s : Media)
    (h : s.audioEnabled = _isAudioEnabled s) :
    (setCustomSpeed deps v s).audioEnabled = _isAudioEnabled (setCustomSpeed deps v s) := by
  unfold setCustomSpeed
  dsimp only
  split_ifs
  · exact inv_setSpeed deps _ _ h
  · exact h
  · exact h

theorem inv_setPlayEveryFrame (deps : Deps) (v : Bool) (s : Media)
    (h : s.audioEnabled = _isAudioEnabled s) :
    (setPlayEveryFrame deps v s).audioEnabled =
      _isAudioEnabled (setPlayEveryFrame deps v s) := by
  unfold setPlayEveryFrame
  split_ifs
  · dsimp only
    refine enabling_inv (enabling_startGuarded deps _) ?_
    rfl
  · exact h

theorem inv_step (deps : Deps) (fuel : Nat) (op : Op) (s t : Media)
    (h : s.audioEnabled = _isAudioEnabled s) (e : step deps fuel op s = some t) :
    t.audioEnabled = _isAudioEnabled t := by
  cases op <;> simp only [step, Option.some.injEq] at e
  case reload r ok => subst e; exact inv_open r ok s h
  case setLayer v r ok => subst e; exact inv_setLayer v r ok s h
  case nextLayer r ok => subst e; exact inv_setLayer _ r ok s h
  case prevLayer r ok => subst e; exact inv_setLayer _ r ok s h
  case setPlaybackSpeed v => subst e; exact inv_setPlaybackSpeed deps v s h
  case setCustomSpeed v => subst e; exact inv_setCustomSpeed deps v s h
  case setPlayEveryFrame v => subst e; exact inv_setPlayEveryFrame deps v s h
  case setCurrentFrame v flag => exact enabling_inv (enabling_setCurrentFrame deps fuel v flag s t e) h
  case inPoint => exact enabling_inv (enabling_setCurrentFrame deps fuel _ _ s t e) h
  case outPoint => exact enabling_inv (enabling_setCurrentFrame deps fuel _ _ s t e) h
  case start => exact enabling_inv (enabling_setCurrentFrame deps fuel _ _ s t e) h
  case end_ => exact enabling_inv (enabling_setCurrentFrame deps fuel _ _ s t e) h
  case nextFrame v => exact enabling_inv (enabling_setCurrentFrame deps fuel _ _ s t e) h
  case prevFrame v => exact enabling_inv (enabling_setCurrentFrame deps fuel _ _ s t e) h
  case setPlayback v => exact enabling_inv (enabling_setPlayback deps fuel v s t e) h
  case setPlaybackMode v => subst e; exact h
  case setInOutPoints v => subst e; exact enabling_inv (enabling_setInOutPoints deps v s) h
  case setInPoint => subst e; exact enabling_inv (enabling_setInOutPoints deps _ s) h
  case setOutPoint => subst e; exact enabling_inv (enabling_setInOutPoints deps _ s) h
  case resetInPoint => subst e; exact enabling_inv (enabling_setInOutPoints deps _ s) h
  case resetOutPoint => subst e; exact enabling_inv (enabling_setInOutPoints deps _ s) h
  case setVolume v => subst e; exact h
  case setMute v => subst e; exact h
  case annotationAdd v => subst e; exact h
  case annotationRemove v =>
    subst e
    unfold removeAnnotation
    split
    · exact h
    · exact h
  case annotationsClear => subst e; exact h
  case playbackTimer delta =>
    exact enabling_inv (enabling_playbackTimerCallback deps fuel delta s t e) h
  case queueTimer => exact enabling_inv (enabling_queueUpdate deps fuel s t e) h
  case audioCallback n =>
    subst e
    split_ifs
    · exact enabling_inv (enabling_rtAudioCallback deps n s) h
    · exact h
  case pushVideo f => subst e; split_ifs <;> exact h
  case pushAudio f => subst e; split_ifs <;> exact h

theorem inv_run (deps : Deps) (fuel : Nat) :
    ∀ (ops : List Op) (s t : Media), s.audioEnabled = _isAudioEnabled s →
      run deps fuel ops s = some t → t.audioEnabled = _isAudioEnabled t := by
  intro ops
  induction ops with
  | nil =>
    intro s t h e
    cases e
    exact h
  | cons op ops ih =>
    intro s t h e
    simp only [run] at e
    obtain ⟨u, e1, e2⟩ := Option.bind_eq_some.mp e
    exact ih u t (inv_step deps fuel op s u h e1) e2

/-- C24. When the value held by `audioEnabled` equals `_isAudioEnabled()` (as in a new
`Media`, where both are false), then after every sequence of `Media` operations that
has run (public member functions, timer callbacks, audio callback, pushes of the decode
thread) the observed `audioEnabled` value equals (audio is available) AND
(speed == defaultSpeed) AND (play-every-frame is off): `_open`, `_setSpeed` and
`setPlayEveryFrame`, which change the speed, the default speed, the audio info or the
play-every-frame flag, refresh `audioEnabled`, and no other operation writes any of
them. -/
theorem audioEnabled_invariant (deps : Deps) (fuel : Nat) (ops : List Op) (s t : Media)
    (hs : s.audioEnabled = _isAudioEnabled s) (h : run deps fuel ops s = some t) :
    t.audioEnabled = (_hasAudio t && decide (t.speed = t.defaultSpeed) && !t.playEveryFrame) ∧
    (∀ r ok, (_open r ok t).audioEnabled = _isAudioEnabled (_open r ok t)) ∧
    (∀ v, (_setSpeed deps v t).audioEnabled = _isAudioEnabled (_setSpeed deps v t)) ∧
    (∀ v, (setPlayEveryFrame deps v t).audioEnabled =
      _isAudioEnabled (setPlayEveryFrame deps v t)) := by
  have k := inv_run deps fuel ops s t hs h
  exact ⟨k, fun r ok => inv_open r ok t k, fun v => inv_setSpeed deps v t k,
    fun v => inv_setPlayEveryFrame deps v t k⟩

/-- Witness of C24: a new `Media` opens a file with audio, which enables the audio;
switching to the custom speed 30/1 disables it. -/
theorem audioEnabled_invariant_witness :
    (∃ u, run exampleDeps 0 [Op.reload (.info exampleInfo 10) true] exampleFresh = some u ∧
      u.audioEnabled = true) ∧
    (∃ t, run exampleDeps 0
        [Op.reload (.info exampleInfo 10) true, Op.setCustomSpeed ⟨30, 1⟩,
          Op.setPlaybackSpeed .Custom] exampleFresh = some t ∧
      t.audioEnabled = false ∧
      t.audioEnabled =
        (_hasAudio t && decide (t.speed = t.defaultSpeed) && !t.playEveryFrame)) := by
  refine ⟨⟨_, rfl, by decide⟩, ?_⟩
  have e : ∃ t, run exampleDeps 0
      [Op.reload (.info exampleInfo 10) true, Op.setCustomSpeed ⟨30, 1⟩,
        Op.setPlaybackSpeed .Custom] exampleFresh = some t ∧ t.audioEnabled = false :=
    ⟨_, rfl, by decide⟩
  obtain ⟨t, ht, hf⟩ := e
  exact ⟨t, ht, hf, (audioEnabled_invariant exampleDeps 0 _ exampleFresh t rfl ht).1⟩


/-! ## The queue update with play-every-frame -/

/-- C25 as stated fails, in two ways.  Playing every frame Forward in Once mode on the
range `[2, 6]` with 50000 microseconds accumulated, the update removes frame 6 from the
queue and publishes it, frame 6 becomes the current frame, and since it is the end of
the range `_setCurrentFrame` stops the playback, whose seek sets `playEveryFrameTime` to
0: it has not decreased by one frame period (to 8334).  And in Loop mode with frame 8,
beyond the range, at the head of the queue, the update removes and publishes frame 8,
and the restart of the loop makes frame 2 the current frame, not frame 8. -/
theorem _queueUpdate_everyFrame_counterexample :
    (∃ t, _queueUpdate exampleDeps 0 exampleEveryFrame = some t ∧
      t.videoQueue = [⟨2, 102⟩] ∧ t.currentImage = some 106 ∧ t.currentFrame = 6 ∧
      t.playback = .Stop ∧
      exampleDeps.playEveryFrameSub exampleEveryFrame.playEveryFrameTime
        exampleEveryFrame.speed = 8334 ∧
      t.playEveryFrameTime = 0 ∧
      t.playEveryFrameTime ≠ exampleDeps.playEveryFrameSub
        exampleEveryFrame.playEveryFrameTime exampleEveryFrame.speed) ∧
    (∃ t, _queueUpdate exampleDeps 0 exampleEveryFrameLoop = some t ∧
      inOutRange exampleDeps exampleEveryFrameLoop = ⟨2, 6⟩ ∧
      t.videoQueue = [⟨2, 102⟩] ∧ t.currentImage = some 108 ∧ t.playback = .Forward ∧
      t.currentFrame = 2 ∧ t.currentFrame ≠ 8) :=
  ⟨⟨_, rfl, by decide, by decide, by decide, by decide, by decide, by decide, by decide⟩,
    ⟨_, rfl, by decide, by decide, by decide, by decide, by decide, by decide⟩⟩

theorem _setCurrentFrame_inside (deps : Deps) (fuel : Nat) (v : Int) (u : Media)
    (h : v = u.currentFrame ∨
      ((u.playback = .Forward → v < (inOutRange deps u).max) ∧
        (u.playback = .Reverse → (inOutRange deps u).min < v))) :
    _setCurrentFrame deps fuel v u = some { u with currentFrame := v } := by
  unfold _setCurrentFrame
  by_cases hv : v = u.currentFrame
  · rw [if_neg (by simpa using hv)]
    subst hv
    rfl
  · rcases h with h | ⟨h1, h2⟩
    · exact absurd h hv
    · rw [if_pos hv]
      dsimp only
      cases hp : u.playback
      · rfl
      · have := h1 hp
        simp only [ge_iff_le, if_neg (not_le.mpr this)]
      · have := h2 hp
        simp only [if_neg (not_le.mpr this)]

theorem time_startAudioStream (deps : Deps) (s : Media) :
    (_startAudioStream deps s).playEveryFrameTime = s.playEveryFrameTime := by
  unfold _startAudioStream
  split_ifs <;> rfl

theorem config_context {s t : Media} (h : t.config = s.config) : t.context = s.context := by
  simp only [Media.config, Prod.mk.injEq] at h
  exact h.1

theorem time_playbackUpdate (deps : Deps) (s : Media) (hc : s.context = true) :
    (_playbackUpdate deps s).playEveryFrameTime = 0 := by
  have aux : ∀ u : Media, u.playEveryFrameTime = 0 →
      (if _hasAudioSyncPlayback u then _startAudioStream deps u else u).playEveryFrameTime
        = 0 := by
    intro u hu
    split_ifs
    · rw [time_startAudioStream, hu]
    · exact hu
  unfold _playbackUpdate
  rw [if_pos hc]
  cases hp : s.playback <;> dsimp only
  · refine (clock_seek _ _ ?_).2.2.2.2.2
    refine (config_context (config_stopAudioStream _)).trans ?_
    split_ifs <;> exact hc
  · exact aux _ rfl
  · exact aux _ rfl

theorem setCurrentFrame_some_playback (deps : Deps) (fuel : Nat) (v : Int) (flag : Bool)
    (s t : Media) (h : setCurrentFrame deps fuel v flag s = some t) :
    t.playback = .Stop ∨ t.playback = s.playback := by
  cases hw : wrapFrame (targetRange deps s flag) fuel v with
  | none =>
    unfold setCurrentFrame at h
    simp [hw] at h
  | some tmp =>
    obtain ⟨t', e, -, -, p, -⟩ := setCurrentFrame_of_wrap deps fuel v flag s tmp hw
    rw [h] at e
    cases e
    rw [p]
    split_ifs
    · exact Or.inl rfl
    · exact Or.inr rfl

theorem time_setPlayback (deps : Deps) (fuel : Nat) (d : Playback) (s t : Media)
    (e : setPlayback deps fuel d s = some t) (hne : s.playback ≠ d)
    (hc : s.context = true) : t.playEveryFrameTime = 0 := by
  unfold setPlayback setPlaybackWith at e
  obtain ⟨s1, hs1, htail⟩ := Option.bind_eq_some.mp e
  have h1 : s1.config = s.config ∧ s1.playback ≠ d := by
    have keep : ∀ u : Media, some s = some u → u.config = s.config ∧ u.playback ≠ d := by
      intro u hu
      cases hu
      exact ⟨rfl, hne⟩
    have viaSet : ∀ (x : Int) (u : Media), d ≠ .Stop →
        setCurrentFrame deps fuel x inOutPointsDefault s = some u →
        u.config = s.config ∧ u.playback ≠ d := by
      intro x u hd hu
      refine ⟨setCurrentFrame_some_config deps fuel x _ s u hu, ?_⟩
      rcases setCurrentFrame_some_playback deps fuel x _ s u hu with hp | hp
      · rw [hp]; exact fun h => hd h.symm
      · rw [hp]; exact hne
    cases d <;> cases hm : s.playbackMode <;> simp only [hm] at hs1 <;>
      (try split_ifs at hs1) <;>
      first
        | exact keep _ hs1
        | exact viaSet _ _ (by decide) hs1
  rw [if_pos h1.2] at htail
  cases htail
  exact time_playbackUpdate deps _ ((config_context h1.1).trans hc)

theorem _setCurrentFrame_end (deps : Deps) (fuel : Nat) (v : Int) (u t : Media)
    (hwf : (inOutRange deps u).min ≤ (inOutRange deps u).max)
    (e : _setCurrentFrame deps fuel v u = some t) (hv : v ≠ u.currentFrame)
    (hend : (u.playback = .Forward ∧ (inOutRange deps u).max ≤ v) ∨
      (u.playback = .Reverse ∧ v ≤ (inOutRange deps u).min)) :
    t.currentFrame =
        restartFrame
          (match u.playbackMode, u.playback with
            | .Once, _ => .Stop
            | .Loop, d => d
            | .PingPong, .Forward => .Reverse
            | .PingPong, _ => .Forward)
          u.playbackMode (inOutRange deps u) v ∧
      (u.context = true → t.playEveryFrameTime = 0) := by
  have one : ∀ (w : Media) t', w.config = u.config → w.currentFrame = v →
      w.playback ≠ .Stop → setPlayback deps fuel .Stop w = some t' →
      t'.currentFrame = restartFrame .Stop u.playbackMode (inOutRange deps u) v ∧
        (u.context = true → t'.playEveryFrameTime = 0) := by
    intro w t' hw hcfw hp e'
    obtain ⟨t'', e'', -, -, hcf⟩ := setPlayback_spec deps fuel .Stop w (fun h => absurd rfl h)
    rw [e'] at e''
    cases e''
    obtain ⟨r1, r2⟩ := config_range deps hw
    rw [r1, r2, hcfw] at hcf
    exact ⟨hcf, fun hc => time_setPlayback deps fuel .Stop w t' e' hp
      ((config_context hw).trans hc)⟩
  have two : ∀ (d : Playback) (w : Media) t', d ≠ .Stop → w.config = u.config →
      w.currentFrame = v →
      (setPlayback deps fuel .Stop w).bind (setPlayback deps fuel d) = some t' →
      t'.currentFrame = restartFrame d u.playbackMode (inOutRange deps u) v ∧
        (u.context = true → t'.playEveryFrameTime = 0) := by
    intro d w t' hd hw hcfw e'
    obtain ⟨r1, r2⟩ := config_range deps hw
    obtain ⟨t'', e'', -, -, hcf⟩ := setPlayback_stop_then deps fuel d w
      (fun _ => by rw [r1]; exact hwf)
    rw [e'] at e''
    cases e''
    rw [r1, r2, hcfw] at hcf
    refine ⟨hcf, fun hc => ?_⟩
    obtain ⟨u1, h1, h2⟩ := Option.bind_eq_some.mp e'
    obtain ⟨c1, p1⟩ := setPlayback_some_config deps fuel .Stop _ u1 h1
    exact time_setPlayback deps fuel d u1 t' h2 (by rw [p1]; exact fun h => hd h.symm)
      ((config_context (c1.trans hw)).trans hc)
  unfold _setCurrentFrame at e
  rw [if_pos hv] at e
  dsimp only at e
  rcases hend with ⟨hp, hge⟩ | ⟨hp, hle⟩
  · rw [hp] at e ⊢
    simp only [ge_iff_le, if_pos hge] at e
    cases hm : u.playbackMode <;> rw [hm] at e <;> simp only at e ⊢
    · have k := one _ t (by simp only [Media.config, hm]) rfl (by simp) e
      rw [hm] at k
      exact k
    · have k := two .Forward _ t (by decide) (by simp only [Media.config, hm]) rfl e
      rw [hm] at k
      exact k
    · have k := two .Reverse _ t (by decide) (by simp only [Media.config, hm]) rfl e
      rw [hm] at k
      exact k
  · rw [hp] at e ⊢
    simp only [if_pos hle] at e
    cases hm : u.playbackMode <;> rw [hm] at e <;> simp only at e ⊢
    · have k := one _ t (by simp only [Media.config, hm]) rfl (by simp) e
      rw [hm] at k
      exact k
    · have k := two .Reverse _ t (by decide) (by simp only [Media.config, hm]) rfl e
      rw [hm] at k
      exact k
    · have k := two .Forward _ t (by decide) (by simp only [Media.config, hm]) rfl e
      rw [hm] at k
      exact k

theorem _setCurrentFrame_frame (deps : Deps) (fuel : Nat) (v : Int) (u t : Media)
    (hwf : (inOutRange deps u).min ≤ (inOutRange deps u).max)
    (e : _setCurrentFrame deps fuel v u = some t)
    (h : v = u.currentFrame ∨ u.playbackMode = .Once ∨
      ((u.playback = .Forward → v ≤ (inOutRange deps u).max) ∧
        (u.playback = .Reverse → (inOutRange deps u).min ≤ v))) :
    t.currentFrame = v := by
  by_cases hin : v = u.currentFrame ∨
      ((u.playback = .Forward → v < (inOutRange deps u).max) ∧
        (u.playback = .Reverse → (inOutRange deps u).min < v))
  · rw [_setCurrentFrame_inside deps fuel v u hin] at e
    cases e
    rfl
  · have hv : v ≠ u.currentFrame := fun hc => hin (Or.inl hc)
    have hend : (u.playback = .Forward ∧ (inOutRange deps u).max ≤ v) ∨
        (u.playback = .Reverse ∧ v ≤ (inOutRange deps u).min) := by
      by_contra hcon
      simp only [not_or, not_and, not_le] at hcon
      exact hin (Or.inr ⟨hcon.1, hcon.2⟩)
    have hb : u.playbackMode ≠ .Once →
        (u.playback = .Forward → v ≤ (inOutRange deps u).max) ∧
          (u.playback = .Reverse → (inOutRange deps u).min ≤ v) := by
      intro hm
      rcases h with h | h | h
      · exact absurd h hv
      · exact absurd h hm
      · exact h
    rw [(_setCurrentFrame_end deps fuel v u t hwf e hv hend).1]
    rcases hend with ⟨hp, hge⟩ | ⟨hp, hle⟩
    · cases hm : u.playbackMode
      · simp only [hp, restartFrame]
      · have := (hb (by rw [hm]; decide)).1 hp
        simp only [hp, restartFrame]
        rw [if_neg (by omega)]
      · have := (hb (by rw [hm]; decide)).1 hp
        simp only [hp, restartFrame]
        rw [if_neg (by omega), if_neg (by omega)]
    · cases hm : u.playbackMode
      · simp only [hp, restartFrame]
      · have := (hb (by rw [hm]; decide)).2 hp
        simp only [hp, restartFrame]
        rw [if_neg (by omega)]
      · have := (hb (by rw [hm]; decide)).2 hp
        simp only [hp, restartFrame]
        rw [if_neg (by omega), if_neg (by omega)]

theorem _setCurrentFrame_keeps (deps : Deps) (fuel : Nat) (v : Int) (u : Media)
    (hwf : (inOutRange deps u).min ≤ (inOutRange deps u).max) :
    ∃ t, _setCurrentFrame deps fuel v u = some t ∧ t.videoQueue = u.videoQueue ∧
      t.currentImage = u.currentImage ∧
      ((v = u.currentFrame ∨ u.playbackMode = .Once ∨
          ((u.playback = .Forward → v ≤ (inOutRange deps u).max) ∧
            (u.playback = .Reverse → (inOutRange deps u).min ≤ v))) →
        t.currentFrame = v) ∧
      ((v = u.currentFrame ∨
          ((u.playback = .Forward → v < (inOutRange deps u).max) ∧
            (u.playback = .Reverse → (inOutRange deps u).min < v))) →
        t.playback = u.playback ∧ t.playEveryFrameTime = u.playEveryFrameTime) ∧
      (u.context = true → v ≠ u.currentFrame →
        ((u.playback = .Forward ∧ (inOutRange deps u).max ≤ v) ∨
          (u.playback = .Reverse ∧ v ≤ (inOutRange deps u).min)) →
        t.playEveryFrameTime = 0) := by
  obtain ⟨t, e⟩ := _setCurrentFrame_returns deps fuel v u hwf
  have c := _setCurrentFrame_some_config deps fuel v u t e
  simp only [Media.config, Prod.mk.injEq] at c
  refine ⟨t, e, c.2.2.2.2.2.2.2.2.2.2.1, c.2.2.2.2.2.2.2.2.2.2.2.2.2.1,
    fun h => _setCurrentFrame_frame deps fuel v u t hwf e h, fun h => ?_,
    fun hc hv hend => (_setCurrentFrame_end deps fuel v u t hwf e hv hend).2 hc⟩
  rw [_setCurrentFrame_inside deps fuel v u h] at e
  cases e
  exact ⟨rfl, rfl⟩

theorem _queueUpdatePublish_on (deps : Deps) (fuel : Nat) (u : Media) (f : VideoFrame)
    (hpef : u.playEveryFrame = true)
    (hwf : (inOutRange deps u).min ≤ (inOutRange deps u).max) :
    ∃ t, _queueUpdatePublish deps fuel u f = some t ∧ t.videoQueue = u.videoQueue ∧
      t.currentImage = some f.data ∧
      ((f.frame = u.currentFrame ∨ u.playbackMode = .Once ∨
          ((u.playback = .Forward → f.frame ≤ (inOutRange deps u).max) ∧
            (u.playback = .Reverse → (inOutRange deps u).min ≤ f.frame))) →
        t.currentFrame = f.frame) ∧
      ((f.frame = u.currentFrame ∨
          ((u.playback = .Forward → f.frame < (inOutRange deps u).max) ∧
            (u.playback = .Reverse → (inOutRange deps u).min < f.frame))) →
        t.playback = u.playback ∧ t.playEveryFrameTime = u.playEveryFrameTime) ∧
      (u.context = true → f.frame ≠ u.currentFrame →
        ((u.playback = .Forward ∧ (inOutRange deps u).max ≤ f.frame) ∨
          (u.playback = .Reverse ∧ f.frame ≤ (inOutRange deps u).min)) →
        t.playEveryFrameTime = 0) := by
  unfold _queueUpdatePublish
  dsimp only
  by_cases hcnt : u.realSpeedFrameCount ≥ realSpeedFrameCount
  · rw [if_pos hcnt, if_pos (by exact hpef)]
    exact _setCurrentFrame_keeps deps fuel f.frame _ (by exact hwf)
  · rw [if_neg hcnt, if_pos (by exact hpef)]
    exact _setCurrentFrame_keeps deps fuel f.frame _ (by exact hwf)

theorem _queueUpdateAudio_clock (s : Media) :
    (_queueUpdateAudio s).playEveryFrameTime = s.playEveryFrameTime ∧
      (_queueUpdateAudio s).playback = s.playback := by
  unfold _queueUpdateAudio
  split_ifs <;> exact ⟨rfl, rfl⟩

/-- C25, amended. With play-every-frame on, each `Media::_queueUpdate` (it returns, the
in/out range being well-formed) removes at most one frame from the video queue, the
head, and removes it only when playback is not Stop, the queue is non-empty and the
accumulated `playEveryFrameTime` is at least one frame period; the removed frame is the
one published as current image, so no queued frame is skipped.  Its frame number
becomes the current frame whenever it has not passed the end of the in/out range in the
playback direction (Forward: at most `max`, Reverse: at least `min`), so for every
frame inside `[min, max]`, and always in Once mode.  `playEveryFrameTime` has decreased
by exactly one frame period, and playback goes on, when the frame number is the current
frame already or has not reached the end of the range (Forward: below `max`, Reverse:
above `min`); when a new frame number reaches the end, `_setCurrentFrame` stops or turns
the playback and, with a live context, the seek leaves `playEveryFrameTime` at 0. -/
theorem _queueUpdate_everyFrame (deps : Deps) (fuel : Nat) (s : Media)
    (hread : s.read = true) (hpef : s.playEveryFrame = true)
    (hwf : (inOutRange deps s).min ≤ (inOutRange deps s).max) :
    ∃ t, _queueUpdate deps fuel s = some t ∧
      ((s.playback = .Stop ∨ s.videoQueue = [] ∨
          deps.playEveryFrameAdvance s.playEveryFrameTime s.speed = false) →
        t.videoQueue = s.videoQueue) ∧
      (∀ f q, s.videoQueue = f :: q → s.playback ≠ .Stop →
        deps.playEveryFrameAdvance s.playEveryFrameTime s.speed = true →
        t.videoQueue = q ∧ t.currentImage = some f.data ∧
        ((f.frame = s.currentFrame ∨ s.playbackMode = .Once ∨
            ((s.playback = .Forward → f.frame ≤ (inOutRange deps s).max) ∧
              (s.playback = .Reverse → (inOutRange deps s).min ≤ f.frame))) →
          t.currentFrame = f.frame) ∧
        ((inOutRange deps s).min ≤ f.frame → f.frame ≤ (inOutRange deps s).max →
          t.currentFrame = f.frame) ∧
        ((f.frame = s.currentFrame ∨
            ((s.playback = .Forward → f.frame < (inOutRange deps s).max) ∧
              (s.playback = .Reverse → (inOutRange deps s).min < f.frame))) →
          t.playback = s.playback ∧
            t.playEveryFrameTime = deps.playEveryFrameSub s.playEveryFrameTime s.speed) ∧
        (s.context = true → f.frame ≠ s.currentFrame →
          ((s.playback = .Forward ∧ (inOutRange deps s).max ≤ f.frame) ∨
            (s.playback = .Reverse ∧ f.frame ≤ (inOutRange deps s).min)) →
          t.playEveryFrameTime = 0)) := by
  by_cases hrem : ∃ f q, s.videoQueue = f :: q ∧ s.playback ≠ .Stop ∧
      deps.playEveryFrameAdvance s.playEveryFrameTime s.speed = true
  · obtain ⟨f, q, hq, hp, hadv⟩ := hrem
    have hl : _queueUpdateLocked deps s =
        ({ s with
            videoQueue := q
            realSpeedFrameCount := (s.realSpeedFrameCount + 1) % 18446744073709551616
            playEveryFrameTime := deps.playEveryFrameSub s.playEveryFrameTime s.speed },
          some f) := by
      unfold _queueUpdateLocked
      simp only [hpef, if_true, hq, hp, hadv, ne_eq, not_false_eq_true, and_self]
    obtain ⟨t', e, g1, g2, g3, g4, g5⟩ := _queueUpdatePublish_on deps fuel
      { s with
        videoQueue := q
        realSpeedFrameCount := (s.realSpeedFrameCount + 1) % 18446744073709551616
        playEveryFrameTime := deps.playEveryFrameSub s.playEveryFrameTime s.speed } f
      hpef hwf
    obtain ⟨a1, a2, -, -, a5⟩ := _queueUpdateAudio_video t'
    obtain ⟨b1, b2⟩ := _queueUpdateAudio_clock t'
    refine ⟨_queueUpdateAudio t', ?_, ?_, ?_⟩
    · unfold _queueUpdate _queueUpdateVideo
      rw [if_pos hread, hl]
      simp only [e, Option.some_bind]
    · rintro (h | h | h)
      · exact absurd h hp
      · rw [hq] at h; cases h
      · rw [hadv] at h; cases h
    · intro f' q' hq' _ _
      rw [hq] at hq'
      cases hq'
      refine ⟨a1.trans g1, a5.trans g2, fun hin => a2.trans (g3 hin),
        fun h1 h2 => a2.trans (g3 (Or.inr (Or.inr ⟨fun _ => h2, fun _ => h1⟩))),
        fun hin => ?_, fun hc hv hend => b1.trans (g5 hc hv hend)⟩
      obtain ⟨c1, c2⟩ := g4 hin
      exact ⟨b2.trans c1, b1.trans c2⟩
  · have hstay : s.playback = .Stop ∨ s.videoQueue = [] ∨
        deps.playEveryFrameAdvance s.playEveryFrameTime s.speed = false := by
      by_contra hcon
      simp only [not_or] at hcon
      obtain ⟨h1, h2, h3⟩ := hcon
      cases hq : s.videoQueue with
      | nil => exact h2 hq
      | cons f q => exact hrem ⟨f, q, hq, h1, by simpa using h3⟩
    have hl : _queueUpdateLocked deps s = (s, s.videoQueue.head?) := by
      cases hq : s.videoQueue with
      | nil => simp [_queueUpdateLocked, hpef, hq]
      | cons f q =>
        have hno : ¬ (s.playback ≠ .Stop ∧
            deps.playEveryFrameAdvance s.playEveryFrameTime s.speed = true) :=
          fun hc => hrem ⟨f, q, hq, hc.1, hc.2⟩
        unfold _queueUpdateLocked
        simp only [hpef, if_true, hq, hno, if_false, List.head?_cons]
    have hnone : ∀ f q, s.videoQueue = f :: q → s.playback ≠ .Stop →
        deps.playEveryFrameAdvance s.playEveryFrameTime s.speed = true → False :=
      fun f q hq hp hadv => hrem ⟨f, q, hq, hp, hadv⟩
    cases hh : s.videoQueue.head? with
    | none =>
      refine ⟨_queueUpdateAudio s, ?_, fun _ => (_queueUpdateAudio_video s).1,
        fun f q hq hp hadv => (hnone f q hq hp hadv).elim⟩
      unfold _queueUpdate _queueUpdateVideo
      rw [if_pos hread, hl]
      simp only [hh, Option.some_bind]
    | some f =>
      obtain ⟨t', e, g1, -⟩ := _queueUpdatePublish_on deps fuel s f hpef hwf
      refine ⟨_queueUpdateAudio t', ?_, fun _ => ((_queueUpdateAudio_video t').1).trans g1,
        fun f q hq hp hadv => (hnone f q hq hp hadv).elim⟩
      unfold _queueUpdate _queueUpdateVideo
      rw [if_pos hread, hl]
      simp only [hh, e, Option.some_bind]

/-- Witness of C25 as amended.  Playing every frame Forward on frame 3 of the range
`[2, 6]`, the update removes frame 4, publishes it, makes it the current frame and
takes one frame period off the accumulated time.  On frame 5, the update removes
frame 6, the end of the range: it is published and becomes the current frame, and the
accumulated time is left at 0. -/
theorem _queueUpdate_everyFrame_witness :
    (∃ t, _queueUpdate exampleDeps 0 exampleEveryFrameMid = some t ∧
      t.videoQueue = [⟨5, 105⟩] ∧ t.currentImage = some 104 ∧ t.currentFrame = 4 ∧
      t.playback = .Forward ∧ t.playEveryFrameTime = 8334) ∧
    (∃ t, _queueUpdate exampleDeps 0 exampleEveryFrame = some t ∧
      t.videoQueue = [⟨2, 102⟩] ∧ t.currentImage = some 106 ∧ t.currentFrame = 6 ∧
      t.playEveryFrameTime = 0) := by
  constructor
  · obtain ⟨t, e, -, h⟩ :=
      _queueUpdate_everyFrame exampleDeps 0 exampleEveryFrameMid rfl rfl (by decide)
    obtain ⟨h1, h2, -, h3, h4, -⟩ := h ⟨4, 104⟩ [⟨5, 105⟩] rfl (by decide) (by decide)
    obtain ⟨h5, h6⟩ := h4 (Or.inr ⟨fun _ => by decide, fun hp => by cases hp⟩)
    exact ⟨t, e, h1, h2, h3 (by decide) (by decide), h5, h6⟩
  · obtain ⟨t, e, -, h⟩ :=
      _queueUpdate_everyFrame exampleDeps 0 exampleEveryFrame rfl rfl (by decide)
    obtain ⟨h1, h2, -, h3, -, h4⟩ := h ⟨6, 106⟩ [⟨2, 102⟩] rfl (by decide) (by decide)
    exact ⟨t, e, h1, h2, h3 (by decide) (by decide),
      h4 rfl (by decide) (Or.inl ⟨rfl, by decide⟩)⟩

/-! ## Resetting the in/out points -/

theorem config_fields {s t : Media} (h : t.config = s.config) :
    t.inOutPoints = s.inOutPoints ∧ t.sequence = s.sequence ∧ t.context = s.context := by
  simp only [Media.config, Prod.mk.injEq] at h
  exact ⟨h.2.2.2.2.2.2.1, h.2.2.2.2.1, h.1⟩

theorem setInOutPoints_spec (deps : Deps) (v : InOutPoints) (s : Media) :
    (setInOutPoints deps v s).inOutPoints = v ∧
      (setInOutPoints deps v s).sequence = s.sequence := by
  have key : ∀ u : Media,
      (if _hasAudioSyncPlayback (_seek u u.currentFrame) then
          _startAudioStream deps (_seek u u.currentFrame)
        else _seek u u.currentFrame).config = u.config := by
    intro u
    split_ifs
    · exact (config_startAudioStream deps _).trans (config_seek _ _)
    · exact config_seek _ _
  have aux : ∀ u : Media, u.inOutPoints = v → u.sequence = s.sequence →
      (if _hasAudioSyncPlayback (_seek u u.currentFrame) then
          _startAudioStream deps (_seek u u.currentFrame)
        else _seek u u.currentFrame).inOutPoints = v ∧
      (if _hasAudioSyncPlayback (_seek u u.currentFrame) then
          _startAudioStream deps (_seek u u.currentFrame)
        else _seek u u.currentFrame).sequence = s.sequence := by
    intro u h1 h2
    have k := config_fields (key u)
    exact ⟨k.1.trans h1, k.2.1.trans h2⟩
  unfold setInOutPoints
  by_cases hv : v ≠ s.inOutPoints
  · rw [if_pos hv]
    exact aux _ (by dsimp only; split_ifs <;> rfl) (by dsimp only; split_ifs <;> rfl)
  · rw [if_neg hv]
    exact ⟨(not_not.mp hv).symm, rfl⟩

theorem _open_inOutPoints (i : Info) (m : Nat) (ok : Bool) (s : Media)
    (hc : s.context = true) :
    (_open (.info i m) ok s).inOutPoints = ⟨false, 0, i.videoSequence.lastIndex⟩ ∧
      (_open (.info i m) ok s).sequence = i.videoSequence := by
  unfold _open
  rw [if_pos hc]
  refine ⟨(config_fields (config_seek _ _)).1.trans ?_,
    (config_fields (config_seek _ _)).2.1.trans ?_⟩
  · dsimp only
    split_ifs <;> rfl
  · dsimp only
    split_ifs <;> rfl

theorem resetInPoint_spec (deps : Deps) (s : Media) :
    (resetInPoint deps s).inOutPoints =
        ⟨if toInt64 s.sequence.frameCount - 1 = s.inOutPoints.outPoint then false else true,
          0, s.inOutPoints.outPoint⟩ ∧
      (resetInPoint deps s).sequence = s.sequence :=
  setInOutPoints_spec deps _ s

theorem resetOutPoint_spec (deps : Deps) (s : Media) :
    (resetOutPoint deps s).inOutPoints =
        ⟨if 0 = s.inOutPoints.inPoint then false else true, s.inOutPoints.inPoint,
          if s.sequence.frameCount > 0 then toInt64 s.sequence.frameCount - 1 else 0⟩ ∧
      (resetOutPoint deps s).sequence = s.sequence :=
  setInOutPoints_spec deps _ s

/-- C26. For a sequence with `frameCount > 0` (a count that an `int64_t` holds) and
every in/out state, `Media::resetInPoint` followed by `Media::resetOutPoint`, and
`Media::resetOutPoint` followed by `Media::resetInPoint`, both end with the in/out points
`InOutPoints(false, 0, frameCount - 1)`: disabled and spanning the whole sequence.  A
fresh open installs `InOutPoints(false, 0, sequence.getLastIndex())`, which is that
value when the last index of the sequence is `frameCount - 1`. -/
theorem resetInPoint_resetOutPoint (deps : Deps) (s : Media)
    (hn : 0 < s.sequence.frameCount) (hi : isInt64 s.sequence.frameCount) :
    (resetOutPoint deps (resetInPoint deps s)).inOutPoints =
      ⟨false, 0, (s.sequence.frameCount : Int) - 1⟩ ∧
    (resetInPoint deps (resetOutPoint deps s)).inOutPoints =
      ⟨false, 0, (s.sequence.frameCount : Int) - 1⟩ ∧
    (∀ i m ok, s.context = true →
      (_open (.info i m) ok s).inOutPoints = ⟨false, 0, i.videoSequence.lastIndex⟩ ∧
      (0 < i.videoSequence.frameCount → isInt64 i.videoSequence.frameCount →
        i.videoSequence.lastIndex = (i.videoSequence.frameCount : Int) - 1 →
        (resetOutPoint deps (resetInPoint deps (_open (.info i m) ok s))).inOutPoints =
          (_open (.info i m) ok s).inOutPoints ∧
        (resetInPoint deps (resetOutPoint deps (_open (.info i m) ok s))).inOutPoints =
          (_open (.info i m) ok s).inOutPoints)) := by
  have both : ∀ u : Media, 0 < u.sequence.frameCount → isInt64 u.sequence.frameCount →
      (resetOutPoint deps (resetInPoint deps u)).inOutPoints =
        ⟨false, 0, (u.sequence.frameCount : Int) - 1⟩ ∧
      (resetInPoint deps (resetOutPoint deps u)).inOutPoints =
        ⟨false, 0, (u.sequence.frameCount : Int) - 1⟩ := by
    intro u hn hi
    obtain ⟨a1, a2⟩ := resetInPoint_spec deps u
    obtain ⟨b1, b2⟩ := resetOutPoint_spec deps u
    obtain ⟨c1, -⟩ := resetOutPoint_spec deps (resetInPoint deps u)
    obtain ⟨d1, -⟩ := resetInPoint_spec deps (resetOutPoint deps u)
    constructor
    · rw [c1, a1, a2, toInt64_of_isInt64 hi]
      simp only [if_true, if_pos hn]
    · rw [d1, b1, b2, toInt64_of_isInt64 hi]
      simp only [if_pos hn, if_true]
  refine ⟨(both s hn hi).1, (both s hn hi).2, fun i m ok hc => ?_⟩
  obtain ⟨o1, o2⟩ := _open_inOutPoints i m ok s hc
  refine ⟨o1, fun hn' hi' hl => ?_⟩
  have k := both (_open (.info i m) ok s) (by rw [o2]; exact hn') (by rw [o2]; exact hi')
  rw [o2] at k
  rw [o1, hl]
  exact k

/-- Witness of C26: with the in/out points `[2, 6]` enabled on the ten-frame sequence,
the two resets in either order end with `InOutPoints(false, 0, 9)`. -/
theorem resetInPoint_resetOutPoint_witness :
    (resetOutPoint exampleDeps (resetInPoint exampleDeps exampleMedia)).inOutPoints =
      ⟨false, 0, 9⟩ ∧
    (resetInPoint exampleDeps (resetOutPoint exampleDeps exampleMedia)).inOutPoints =
      ⟨false, 0, 9⟩ := by
  have h := resetInPoint_resetOutPoint exampleDeps exampleMedia (by decide) (by decide)
  exact ⟨h.1, h.2.1⟩


/-! ## The directory model: the history -/

theorem popBackLoop_eq_take {P : Type} :
    ∀ (fuel : Nat) (h : List P), h.length ≤ fuel + historyMax →
      popBackLoop fuel h = h.take historyMax := by
  intro fuel
  induction fuel with
  | zero =>
    intro h hl
    rw [List.take_of_length_le (by omega)]
    rfl
  | succ n ih =>
    intro h hl
    unfold popBackLoop
    split_ifs with hgt
    · rw [ih h.dropLast (by rw [List.length_dropLast]; omega), List.dropLast_eq_take,
        List.take_take]
      congr 1
      omega
    · rw [List.take_of_length_le (by omega)]

theorem setPath_history {P : Type} [DecidableEq P] (isEmpty : P → Bool) (value : P)
    (m : DirectoryModel P) (hv : value ≠ m.path) (hp : isEmpty m.path = false) :
    (m.setPath isEmpty value).history =
      (match m.history with
        | h0 :: rest => if m.path ≠ h0 then m.path :: h0 :: rest else h0 :: rest
        | [] => [m.path]).take historyMax := by
  unfold DirectoryModel.setPath
  simp only [if_neg hv, hp, Bool.not_false, if_true]
  rw [popBackLoop_eq_take _ _ (by omega)]
  cases m.history <;> rfl

theorem setPath_history_empty {P : Type} [DecidableEq P] (isEmpty : P → Bool) (value : P)
    (m : DirectoryModel P) (hp : isEmpty m.path = true) :
    (m.setPath isEmpty value).history = m.history := by
  by_cases hv : value = m.path
  · simp [DirectoryModel.setPath, hv]
  · simp [DirectoryModel.setPath, hv, hp]

theorem setPath_inv {P : Type} [DecidableEq P] (isEmpty : P → Bool) (value : P)
    (m : DirectoryModel P)
    (h : m.history.length ≤ historyMax ∧ (∀ q ∈ m.history, isEmpty q = false) ∧
      m.history.Chain' (· ≠ ·)) :
    (m.setPath isEmpty value).history.length ≤ historyMax ∧
      (∀ q ∈ (m.setPath isEmpty value).history, isEmpty q = false) ∧
      (m.setPath isEmpty value).history.Chain' (· ≠ ·) := by
  obtain ⟨h1, h2, h3⟩ := h
  by_cases hv : value = m.path
  · have e : m.setPath isEmpty value = m := by
      unfold DirectoryModel.setPath
      rw [if_pos hv]
    rw [e]
    exact ⟨h1, h2, h3⟩
  · cases hp : isEmpty m.path
    · rw [setPath_history isEmpty value m hv hp]
      refine ⟨?_, ?_, ?_⟩
      · rw [List.length_take]
        exact Nat.min_le_left _ _
      · intro q hq
        have hq' := List.mem_of_mem_take hq
        cases hh : m.history with
        | nil =>
          rw [hh] at hq'
          simp only [List.mem_singleton] at hq'
          rw [hq']
          exact hp
        | cons h0 rest =>
          rw [hh] at hq' h2
          simp only at hq'
          split_ifs at hq'
          · rcases List.mem_cons.mp hq' with e | e
            · rw [e]; exact hp
            · exact h2 q e
          · exact h2 q hq'
      · apply List.Chain'.take
        cases hh : m.history with
        | nil => exact List.chain'_singleton _
        | cons h0 rest =>
          rw [hh] at h3
          simp only
          split_ifs with hne
          · exact List.Chain'.cons hne h3
          · exact h3
    · rw [setPath_history_empty isEmpty value m hp]
      exact ⟨h1, h2, h3⟩

theorem run_inv {P : Type} [DecidableEq P] (isEmpty : P → Bool) :
    ∀ (values : List P) (m : DirectoryModel P),
      (m.history.length ≤ historyMax ∧ (∀ q ∈ m.history, isEmpty q = false) ∧
        m.history.Chain' (· ≠ ·)) →
      (DirectoryModel.run isEmpty values m).history.length ≤ historyMax ∧
        (∀ q ∈ (DirectoryModel.run isEmpty values m).history, isEmpty q = false) ∧
        (DirectoryModel.run isEmpty values m).history.Chain' (· ≠ ·) := by
  intro values
  induction values with
  | nil => intro m h; exact h
  | cons v values ih =>
    intro m h
    exact ih _ (setPath_inv isEmpty v m h)

/-- C27. For every sequence of `DirectoryModel::setPath` calls on a new model (whatever
its first path), the history list never holds more than 10 paths, never contains an
empty path and never contains two equal adjacent entries; after `setPath(v)` made from
a non-empty current path `p` with `v != p` the first history entry is `p` (and the path
is `v`), while `setPath(v)` with `v` equal to the current path changes neither the path
nor the history. -/
theorem setPath_history_invariant {P : Type} [DecidableEq P] (isEmpty : P → Bool) (p0 : P)
    (values : List P) :
    (DirectoryModel.run isEmpty values { path := p0 }).history.length ≤ 10 ∧
    (∀ q ∈ (DirectoryModel.run isEmpty values { path := p0 }).history, isEmpty q = false) ∧
    (DirectoryModel.run isEmpty values { path := p0 }).history.Chain' (· ≠ ·) ∧
    (∀ v, v ≠ (DirectoryModel.run isEmpty values { path := p0 }).path →
      isEmpty (DirectoryModel.run isEmpty values { path := p0 }).path = false →
      ((DirectoryModel.run isEmpty values { path := p0 }).setPath isEmpty v).history.head? =
        some (DirectoryModel.run isEmpty values { path := p0 }).path ∧
      ((DirectoryModel.run isEmpty values { path := p0 }).setPath isEmpty v).path = v) ∧
    (DirectoryModel.run isEmpty values { path := p0 }).setPath isEmpty
        (DirectoryModel.run isEmpty values { path := p0 }).path =
      DirectoryModel.run isEmpty values { path := p0 } := by
  obtain ⟨h1, h2, h3⟩ := run_inv isEmpty values { path := p0 }
    ⟨Nat.zero_le _, ⟨fun q hq => absurd hq (List.not_mem_nil q), List.chain'_nil⟩⟩
  generalize DirectoryModel.run isEmpty values { path := p0 } = m at *
  refine ⟨h1, h2, h3, fun v hv hp => ⟨?_, ?_⟩, ?_⟩
  · rw [setPath_history isEmpty v m hv hp]
    cases hh : m.history with
    | nil => rfl
    | cons h0 rest =>
      simp only
      split_ifs with hne
      · rfl
      · rw [not_not.mp hne]
        rfl
  · unfold DirectoryModel.setPath
    simp only [if_neg hv]
  · unfold DirectoryModel.setPath
    rw [if_pos rfl]

/-- A run of the model: eleven different paths are set, then the last one again; the
history holds the ten most recent earlier paths, newest first. -/
theorem setPath_history_example :
    (DirectoryModel.run (fun p : Nat => decide (p = 0))
        [1, 2, 3, 4, 5, 6, 7, 8, 9, 10, 11, 12, 12] { path := 0 }).history =
      [11, 10, 9, 8, 7, 6, 5, 4, 3, 2] := by
  decide

/-! ## The file settings: the recent files -/

theorem copyLoop_spec {α : Type} (value : List α) (max : Nat) :
    ∀ (fuel i : Nat) (files : List α), value.length ≤ i + fuel →
      copyLoop value max fuel i files = files ++ (value.take max).drop i := by
  intro fuel
  induction fuel with
  | zero =>
    intro i files h
    have hd : (value.take max).drop i = [] := by
      apply List.drop_eq_nil_of_le
      rw [List.length_take]
      omega
    rw [hd, List.append_nil]
    rfl
  | succ n ih =>
    intro i files h
    unfold copyLoop
    by_cases hc : i < value.length ∧ i < max
    · rw [if_pos hc]
      have hi : i < (value.take max).length := by
        rw [List.length_take]
        omega
      have hg : value.get? i = some (value.get ⟨i, hc.1⟩) := List.get?_eq_get hc.1
      rw [hg]
      simp only
      rw [ih (i + 1) _ (by omega), List.append_assoc]
      congr 1
      rw [List.drop_eq_getElem_cons hi]
      simp [List.getElem_take]
    · rw [if_neg hc]
      have hd : (value.take max).drop i = [] := by
        apply List.drop_eq_nil_of_le
        rw [List.length_take]
        omega
      rw [hd, List.append_nil]

/-- C28. `FileSettings::setRecentFiles(v)` stores the first `min(|v|, recentFilesMax)`
entries of `v` in their original order and leaves the maximum as it is;
`FileSettings::setRecentFilesMax(n)` sets the maximum to `n` and truncates the stored
list to its first `min(|old list|, n)` entries; after either call the recent-files list
has at most `recentFilesMax` entries. -/
theorem recentFiles_spec {α : Type} (p : FileSettings α) (v : List α) (n : Nat) :
    (p.setRecentFiles v).recentFiles = v.take p.recentFilesMax ∧
    (p.setRecentFiles v).recentFiles.length = min v.length p.recentFilesMax ∧
    (p.setRecentFiles v).recentFilesMax = p.recentFilesMax ∧
    (p.setRecentFiles v).recentFiles.length ≤ (p.setRecentFiles v).recentFilesMax ∧
    (p.setRecentFilesMax n).recentFilesMax = n ∧
    (p.setRecentFilesMax n).recentFiles = p.recentFiles.take n ∧
    (p.setRecentFilesMax n).recentFiles.length = min p.recentFiles.length n ∧
    (p.setRecentFilesMax n).recentFiles.length ≤ (p.setRecentFilesMax n).recentFilesMax := by
  have h1 : (p.setRecentFiles v).recentFiles = v.take p.recentFilesMax := by
    unfold FileSettings.setRecentFiles
    simp only
    rw [copyLoop_spec v _ _ 0 [] (by omega)]
    simp
  have h2 : (p.setRecentFilesMax n).recentFiles = p.recentFiles.take n := by
    unfold FileSettings.setRecentFilesMax FileSettings.setRecentFiles
    simp only
    rw [copyLoop_spec p.recentFiles _ _ 0 [] (by omega),
      copyLoop_spec _ _ _ 0 [] (by omega)]
    simp
  have h3 : (p.setRecentFiles v).recentFilesMax = p.recentFilesMax := rfl
  have h4 : (p.setRecentFilesMax n).recentFilesMax = n := rfl
  refine ⟨h1, ?_, h3, ?_, h4, h2, ?_, ?_⟩
  · rw [h1, List.length_take, Nat.min_comm]
  · rw [h1, h3, List.length_take]
    exact Nat.min_le_left _ _
  · rw [h2, List.length_take, Nat.min_comm]
  · rw [h2, h4, List.length_take]
    exact Nat.min_le_left _ _

/-- A run of the model: with the maximum 10, twelve files are set and the first ten
kept; the maximum 3 then keeps the first three. -/
theorem recentFiles_example :
    (({ } : FileSettings Nat).setRecentFiles
        [1, 2, 3, 4, 5, 6, 7, 8, 9, 10, 11, 12]).recentFiles =
      [1, 2, 3, 4, 5, 6, 7, 8, 9, 10] ∧
    ((({ } : FileSettings Nat).setRecentFiles
        [1, 2, 3, 4, 5, 6, 7, 8, 9, 10, 11, 12]).setRecentFilesMax 3).recentFiles =
      [1, 2, 3] := by
  decide

/-! ## The menu button: the border -/

/-- C29 fails on the code: `Button::Menu::hasBorder` tests the border size with `!=`, so
after `setBorder(v)` it returns the opposite of `v`, for both values of `v`. -/
theorem Menu_hasBorder_inverted (m : Menu) (v : Bool) :
    (m.setBorder v).hasBorder = !v ∧ (m.setBorder v).hasBorder ≠ v := by
  cases v <;> simp [Menu.setBorder, Menu.hasBorder]


/-! ## Layers -/

theorem toInt32_small (x : Int) (h0 : 0 ≤ x) (h1 : x ≤ 2147483647) : toInt32 x = x := by
  unfold toInt32
  omega

theorem nextLayerIndex_spec (s : Media) (h0 : 0 ≤ s.layers.2)
    (hi : s.layers.2 < s.info.video.length)
    (hn : (s.info.video.length : Int) ≤ 2147483647) :
    ((nextLayerIndex s : Nat) : Int) = (s.layers.2 + 1) % s.info.video.length := by
  unfold nextLayerIndex toSizeT
  dsimp only
  have e : (s.layers.2 % 18446744073709551616).toNat = s.layers.2.toNat := by omega
  rw [e]
  split_ifs with hc
  · have : s.layers.2 + 1 = s.info.video.length := by omega
    rw [this, Int.emod_self]
    rfl
  · rw [Int.emod_eq_of_lt (by omega) (by omega)]
    omega

theorem prevLayerIndex_spec (s : Media) (h0 : 0 ≤ s.layers.2)
    (hi : s.layers.2 < s.info.video.length)
    (hn : (s.info.video.length : Int) ≤ 2147483647) :
    ((prevLayerIndex s : Nat) : Int) =
      (s.layers.2 + s.info.video.length - 1) % s.info.video.length := by
  unfold prevLayerIndex toSizeT
  dsimp only
  have e : (s.layers.2 % 18446744073709551616).toNat = s.layers.2.toNat := by omega
  rw [e]
  split_ifs with hc hc2
  · have : s.layers.2 + s.info.video.length - 1 =
        (s.layers.2 - 1) + 1 * (s.info.video.length : Int) := by ring
    rw [this, Int.add_mul_emod_self, Int.emod_eq_of_lt (by omega) (by omega)]
    omega
  · have hz : s.layers.2 = 0 := by omega
    rw [hz, zero_add, Int.emod_eq_of_lt (by omega) (by omega)]
    omega
  · omega

theorem layers_stopAudioStream (s : Media) :
    (_stopAudioStream s).layers = s.layers ∧ (_stopAudioStream s).info = s.info ∧
      (_stopAudioStream s).context = s.context := by
  unfold _stopAudioStream
  split_ifs <;> exact ⟨rfl, rfl, rfl⟩

theorem layers_seek (s : Media) (v : Int) :
    (_seek s v).layers = s.layers ∧ (_seek s v).info = s.info ∧
      (_seek s v).context = s.context := by
  unfold _seek
  split_ifs <;> simp [layers_stopAudioStream]

theorem clamp_inside (v mx : Int) (h0 : 0 ≤ v) (h1 : v ≤ mx) : clamp v 0 mx = v := by
  unfold clamp
  rw [max_eq_left h0, min_eq_left h1]

theorem setLayer_same_file (v : Int) (inf : Info) (m : Nat) (ok : Bool) (s : Media)
    (hc : s.context = true) (h0 : 0 ≤ v) (h1 : v < inf.video.length)
    (hs : s.info.video.length = inf.video.length) :
    (setLayer v (.info inf m) ok s).layers.2 = v ∧
      (setLayer v (.info inf m) ok s).info.video.length = inf.video.length ∧
      (setLayer v (.info inf m) ok s).context = true := by
  unfold setLayer
  by_cases hne : (s.info.video, v) ≠ s.layers
  · rw [if_pos hne]
    unfold _open
    rw [if_pos (by exact hc)]
    refine ⟨?_, ?_, ?_⟩
    · show (_seek _ _).layers.2 = v
      rw [(layers_seek _ _).1]
      dsimp only
      split_ifs <;> exact clamp_inside v _ h0 (by omega)
    · show (_seek _ _).info.video.length = inf.video.length
      rw [(layers_seek _ _).2.1]
      dsimp only
      split_ifs <;> rfl
    · show (_seek _ _).context = true
      rw [(layers_seek _ _).2.2]
      dsimp only
      split_ifs <;> exact hc
  · rw [if_neg hne]
    have e : s.layers = (s.info.video, v) := (not_not.mp hne).symm
    exact ⟨by rw [e], hs, hc⟩

theorem nextLayer_request (s : Media) (h0 : 0 ≤ s.layers.2)
    (hi : s.layers.2 < s.info.video.length)
    (hn : (s.info.video.length : Int) ≤ 2147483647) :
    toInt32 (nextLayerIndex s) = (s.layers.2 + 1) % s.info.video.length ∧
      0 ≤ toInt32 (nextLayerIndex s) ∧ toInt32 (nextLayerIndex s) < s.info.video.length := by
  have e := nextLayerIndex_spec s h0 hi hn
  have hpos : (0 : Int) < s.info.video.length := by omega
  have l0 := Int.emod_nonneg (s.layers.2 + 1) (ne_of_gt hpos)
  have l1 := Int.emod_lt_of_pos (s.layers.2 + 1) hpos
  rw [toInt32_small _ (by omega) (by omega), e]
  exact ⟨rfl, l0, l1⟩

theorem prevLayer_request (s : Media) (h0 : 0 ≤ s.layers.2)
    (hi : s.layers.2 < s.info.video.length)
    (hn : (s.info.video.length : Int) ≤ 2147483647) :
    toInt32 (prevLayerIndex s) =
        (s.layers.2 + s.info.video.length - 1) % s.info.video.length ∧
      0 ≤ toInt32 (prevLayerIndex s) ∧ toInt32 (prevLayerIndex s) < s.info.video.length := by
  have e := prevLayerIndex_spec s h0 hi hn
  have hpos : (0 : Int) < s.info.video.length := by omega
  have l0 := Int.emod_nonneg (s.layers.2 + s.info.video.length - 1) (ne_of_gt hpos)
  have l1 := Int.emod_lt_of_pos (s.layers.2 + s.info.video.length - 1) hpos
  rw [toInt32_small _ (by omega) (by omega), e]
  exact ⟨rfl, l0, l1⟩

theorem layer_mod_inverse (i n : Int) (h0 : 0 ≤ i) (hi : i < n) :
    ((i + 1) % n + n - 1) % n = i ∧ ((i + n - 1) % n + 1) % n = i := by
  constructor
  · by_cases h : i + 1 = n
    · rw [h, Int.emod_self, zero_add, Int.emod_eq_of_lt (by omega) (by omega)]
      omega
    · rw [Int.emod_eq_of_lt (by omega) (by omega : i + 1 < n)]
      have : i + 1 + n - 1 = i + 1 * n := by ring
      rw [this, Int.add_mul_emod_self, Int.emod_eq_of_lt h0 hi]
  · by_cases h : i = 0
    · have e1 : (i + n - 1) % n = n - 1 := by
        rw [h, zero_add]
        exact Int.emod_eq_of_lt (by omega) (by omega)
      rw [e1, show n - 1 + 1 = n by ring, Int.emod_self, h]
    · have e1 : (i + n - 1) % n = i - 1 := by
        rw [show i + n - 1 = (i - 1) + 1 * n by ring, Int.add_mul_emod_self]
        exact Int.emod_eq_of_lt (by omega) (by omega)
      rw [e1, show i - 1 + 1 = i by ring]
      exact Int.emod_eq_of_lt h0 hi

theorem nextLayer_iterate (inf : Info) (m : Nat) (ok : Bool) (s : Media)
    (hc : s.context = true) (h0 : 0 ≤ s.layers.2)
    (hi : s.layers.2 < s.info.video.length)
    (hn : (s.info.video.length : Int) ≤ 2147483647)
    (hinf : inf.video.length = s.info.video.length) :
    ∀ k : Nat,
      (Nat.iterate (nextLayer (.info inf m) ok) k s).layers.2 =
          (s.layers.2 + k) % s.info.video.length ∧
        (Nat.iterate (nextLayer (.info inf m) ok) k s).info.video.length =
          s.info.video.length ∧
        (Nat.iterate (nextLayer (.info inf m) ok) k s).context = true := by
  have hpos : (0 : Int) < s.info.video.length := by omega
  intro k
  induction k with
  | zero =>
    refine ⟨?_, rfl, hc⟩
    simp only [Function.iterate_zero, id_eq, Nat.cast_zero, add_zero]
    rw [Int.emod_eq_of_lt h0 hi]
  | succ k ih =>
    obtain ⟨a1, a2, a3⟩ := ih
    rw [Function.iterate_succ_apply']
    generalize Nat.iterate (nextLayer (.info inf m) ok) k s = u at a1 a2 a3 ⊢
    have l0 := Int.emod_nonneg (s.layers.2 + k) (ne_of_gt hpos)
    have l1 := Int.emod_lt_of_pos (s.layers.2 + k) hpos
    obtain ⟨r1, r2, r3⟩ := nextLayer_request u (by rw [a1]; exact l0)
      (by rw [a1, a2]; exact l1) (by rw [a2]; exact hn)
    obtain ⟨b1, b2, b3⟩ := setLayer_same_file (toInt32 (nextLayerIndex u)) inf m ok u a3 r2
      (by rw [hinf, ← a2]; exact r3) (by rw [hinf, a2])
    unfold nextLayer
    refine ⟨?_, by rw [← hinf]; exact b2, b3⟩
    have hk : s.layers.2 + (k : Int) + 1 = s.layers.2 + ((k + 1 : Nat) : Int) := by
      push_cast
      ring
    rw [b1, r1, a1, a2, Int.emod_add_emod, hk]

/-- C30. For media with `n > 0` video layers (a count that an `int` holds) and current
layer index `i` with `0 ≤ i < n`, `Media::nextLayer` is `setLayer((i + 1) mod n)` and
`Media::prevLayer` is `setLayer((i + n - 1) mod n)`; the two requests are mutually
inverse on `0..n-1` (from the layer one of them requests, the other requests `i`), and
`n` successive `nextLayer` steps on the same file return the current layer to `i`.  With
`n = 0` and current index 0 both are `setLayer(0)`. -/
theorem nextLayer_prevLayer_requests (s : Media) :
    (0 ≤ s.layers.2 → s.layers.2 < s.info.video.length →
      (s.info.video.length : Int) ≤ 2147483647 →
      (∀ r ok, nextLayer r ok s =
        setLayer ((s.layers.2 + 1) % s.info.video.length) r ok s) ∧
      (∀ r ok, prevLayer r ok s =
        setLayer ((s.layers.2 + s.info.video.length - 1) % s.info.video.length) r ok s) ∧
      (∀ u : Media, u.info.video.length = s.info.video.length →
        u.layers.2 = (s.layers.2 + 1) % s.info.video.length →
        ∀ r ok, prevLayer r ok u = setLayer s.layers.2 r ok u) ∧
      (∀ u : Media, u.info.video.length = s.info.video.length →
        u.layers.2 = (s.layers.2 + s.info.video.length - 1) % s.info.video.length →
        ∀ r ok, nextLayer r ok u = setLayer s.layers.2 r ok u) ∧
      (∀ inf m ok, s.context = true → inf.video.length = s.info.video.length →
        (Nat.iterate (nextLayer (.info inf m) ok) s.info.video.length s).layers.2 =
          s.layers.2)) ∧
    (s.info.video.length = 0 → s.layers.2 = 0 →
      ∀ r ok, nextLayer r ok s = setLayer 0 r ok s ∧ prevLayer r ok s = setLayer 0 r ok s) := by
  constructor
  · intro h0 hi hn
    have hpos : (0 : Int) < s.info.video.length := by omega
    obtain ⟨inv1, inv2⟩ := layer_mod_inverse s.layers.2 s.info.video.length h0 hi
    refine ⟨fun r ok => ?_, fun r ok => ?_, fun u hu hl r ok => ?_, fun u hu hl r ok => ?_,
      fun inf m ok hc hinf => ?_⟩
    · unfold nextLayer
      rw [(nextLayer_request s h0 hi hn).1]
    · unfold prevLayer
      rw [(prevLayer_request s h0 hi hn).1]
    · have l0 := Int.emod_nonneg (s.layers.2 + 1) (ne_of_gt hpos)
      have l1 := Int.emod_lt_of_pos (s.layers.2 + 1) hpos
      unfold prevLayer
      rw [(prevLayer_request u (by rw [hl]; exact l0) (by rw [hl, hu]; exact l1)
        (by rw [hu]; exact hn)).1, hl, hu, inv1]
    · have l0 := Int.emod_nonneg (s.layers.2 + s.info.video.length - 1) (ne_of_gt hpos)
      have l1 := Int.emod_lt_of_pos (s.layers.2 + s.info.video.length - 1) hpos
      unfold nextLayer
      rw [(nextLayer_request u (by rw [hl]; exact l0) (by rw [hl, hu]; exact l1)
        (by rw [hu]; exact hn)).1, hl, hu, inv2]
    · rw [(nextLayer_iterate inf m ok s hc h0 hi hn hinf s.info.video.length).1,
        Int.add_emod_self]
      exact Int.emod_eq_of_lt h0 hi
  · intro hn hz r ok
    constructor
    · unfold nextLayer nextLayerIndex toSizeT
      simp [hn, hz, toInt32]
    · unfold prevLayer prevLayerIndex toSizeT
      simp [hn, hz, toInt32]

/-- Witness of C30: with three layers and the last one current, `nextLayer` requests
layer 0 and `prevLayer` layer 1, and three `nextLayer` steps on the same file return to
layer 2. -/
theorem nextLayer_prevLayer_requests_witness :
    (∀ r ok, nextLayer r ok exampleLayers = setLayer 0 r ok exampleLayers) ∧
    (∀ r ok, prevLayer r ok exampleLayers = setLayer 1 r ok exampleLayers) ∧
    (Nat.iterate (nextLayer (.info { exampleInfo with video := [1, 2, 3] } 10) true) 3
      exampleLayers).layers.2 = 2 := by
  have h := (nextLayer_prevLayer_requests exampleLayers).1 (by decide) (by decide) (by decide)
  exact ⟨h.1, h.2.1, h.2.2.2.2 _ 10 true rfl rfl⟩

end DJV
